import Mathlib

/-!
# The accumulation grid of the GDAL writer (`io/gdal/GDALWriter.hpp`, class `Grid`)

Shallow embedding of `pdal::Grid`.

Modelling conventions

* `double` is an arbitrary linearly ordered field `α` with a floor function
  (exact arithmetic: no rounding, no infinities, no NaN).  Every definition is
  computable at `α = ℚ`; the theorems hold in particular at `α = ℝ`.
  Where the rounding of `double` changes what the program does (the origin
  cell of a point next to the upper end of the extent), the rounded operation
  is modelled by `binary64Round` and the statements about the calls of `addPoint`
  take the origin cell as a parameter, so that they hold for the cell that the program
  computes.
* `sqrt` is an explicit parameter `sqrt : α → α` of the functions that call it
  (`distance`, `addPoint`, `finalize`); theorems that need a property of the
  square root state it as a hypothesis, closed evaluations use `Real.sqrt`.
* `size_t` is `Nat` with every arithmetic operation reduced modulo `2 ^ 64`.
* `int` is `Int` (signed overflow is undefined behaviour in C++ and is not
  modelled); the conversion `int → size_t` is `toSizeT`, the conversion
  `double → int` is `truncToInt` (truncation towards zero).
* `std::vector<double>` is `List α`, a `std::unique_ptr` to one is an `Option`;
  `v[i]` is `List.getD v i 0` for a read and `List.set v i x` for a write.
* A `for` loop over an index range is a left fold over `List.range`; the
  `while` loops of `addPoint` are functions defined by well-founded recursion.
* Division is the division of the field (`x / 0 = 0`), so nothing here speaks
  about the IEEE results of a division by zero.
-/

namespace pdal

set_option linter.unusedSectionVars false

variable {α : Type} [LinearOrderedField α] [FloorRing α]

/-- Number of values of `size_t`. -/
def sizeMod : Nat := 2 ^ 64

/-- Conversion `int → size_t` (value modulo `2 ^ 64`). -/
def toSizeT (i : Int) : Nat := (i % (sizeMod : Int)).toNat

/-- Subtraction `a - b` of `size_t`. -/
def subSizeT (a b : Nat) : Nat := (a % sizeMod + sizeMod - b % sizeMod) % sizeMod

/-- Addition `a + b` of `size_t`. -/
def addSizeT (a b : Nat) : Nat := (a + b) % sizeMod

/-- Conversion `double → int`: truncation towards zero. -/
def truncToInt (q : α) : Int := if 0 ≤ q then ⌊q⌋ else ⌈q⌉

/-- Function `std::min(a, b)`: `(b < a) ? b : a`. -/
def stdMin {β : Type} [LT β] [DecidableRel (fun (a b : β) => a < b)] (a b : β) : β :=
  if b < a then b else a

/-- Function `std::max(a, b)`: `(a < b) ? b : a`. -/
def stdMax {β : Type} [LT β] [DecidableRel (fun (a b : β) => a < b)] (a b : β) : β :=
  if a < b then b else a

/-- Constant `std::numeric_limits<double>::max()`, the largest finite double. -/
def dblMax : α := 2 ^ 1024 - 2 ^ 971

/-- Constant `std::numeric_limits<double>::lowest()`. -/
def dblLowest : α := -dblMax

/-- Type `DataVec`: a `std::vector<double>`. -/
abbrev DataVec (α : Type) := List α

/-- Type `DataPtr`: a `std::unique_ptr<DataVec>`, `none` when null. -/
abbrev DataPtr (α : Type) := Option (List α)

/-- Read `(*p)[i]`. -/
def rd (p : DataPtr α) (i : Nat) : α :=
  match p with
  | some v => v.getD i 0
  | none => 0

/-- Write `(*p)[i] = x`. -/
def wr (p : DataPtr α) (i : Nat) (x : α) : DataPtr α :=
  match p with
  | some v => some (v.set i x)
  | none => none

/-- Flag `Grid::statCount`. -/
def statCount : Int := 1

/-- Flag `Grid::statMin`. -/
def statMin : Int := 2

/-- Flag `Grid::statMax`. -/
def statMax : Int := 4

/-- Flag `Grid::statMean`. -/
def statMean : Int := 8

/-- Flag `Grid::statStdDev`. -/
def statStdDev : Int := 16

/-- Flag `Grid::statIdw`. -/
def statIdw : Int := 32

/-- The C++ truth value of `types & flag`. -/
def hasFlag (types flag : Int) : Bool := Int.land types flag != 0

/-- The data members of `class Grid`. -/
structure Grid (α : Type) where
  m_width : Nat
  m_height : Nat
  m_windowSize : Nat
  m_edgeLength : α
  m_radius : α
  m_noData : α
  m_count : DataVec α
  m_min : DataPtr α
  m_max : DataPtr α
  m_mean : DataPtr α
  m_stdDev : DataPtr α
  m_idw : DataPtr α
  m_idwDist : DataPtr α
  m_outputTypes : Int

/-- The constructor `Grid::Grid` (named `construct`: `Grid.Grid` would shadow the type). -/
def Grid.construct (width height : Nat) (edgeLength radius noData : α) (outputTypes : Int)
    (windowSize : Nat) : Grid α :=
  let size := (width * height) % sizeMod
  { m_width := width
    m_height := height
    m_windowSize := windowSize
    m_edgeLength := edgeLength
    m_radius := radius
    m_noData := noData
    m_outputTypes := outputTypes
    m_count := List.replicate size 0
    m_min := if hasFlag outputTypes statMin then some (List.replicate size dblMax) else none
    m_max := if hasFlag outputTypes statMax then some (List.replicate size dblLowest) else none
    m_idw := if hasFlag outputTypes statIdw then some (List.replicate size 0) else none
    m_idwDist := if hasFlag outputTypes statIdw then some (List.replicate size 0) else none
    m_mean :=
      if hasFlag outputTypes statMean || hasFlag outputTypes statStdDev then
        some (List.replicate size 0)
      else none
    m_stdDev := if hasFlag outputTypes statStdDev then some (List.replicate size 0) else none }

/-- Method `Grid::width`. -/
def Grid.width (g : Grid α) : Nat := g.m_width

/-- Method `Grid::height`. -/
def Grid.height (g : Grid α) : Nat := g.m_height

/-- Method `Grid::noData`. -/
def Grid.noData (g : Grid α) : α := g.m_noData

/-- Method `Grid::index`: the storage index of a grid coordinate. -/
def Grid.index (g : Grid α) (i j : Nat) : Nat := (j * g.m_width + i) % sizeMod

/-- Method `Grid::empty(size_t idx)`. -/
def Grid.empty (g : Grid α) (idx : Nat) : Bool := decide (g.m_count.getD idx 0 ≤ 0)

/-- Method `Grid::empty(size_t i, size_t j)`. -/
def Grid.emptyCell (g : Grid α) (i j : Nat) : Bool := g.empty (g.index i j)

/-- Method `Grid::horizontalIndex`, with the quotient `x / m_edgeLength` exact.  The quotient of
two `double`s is rounded, and near a multiple of the edge length it can round up to the next
integer: `horizontalIndex64` is the method with that rounding. -/
def Grid.horizontalIndex (g : Grid α) (x : α) : Int := truncToInt (x / g.m_edgeLength)

/-- Method `Grid::verticalIndex`, with the quotient `y / m_edgeLength` and the two differences
exact; `verticalIndex64` is the method with the rounding of `double`. -/
def Grid.verticalIndex (g : Grid α) (y : α) : Int :=
  truncToInt ((g.m_height : α) - (y / g.m_edgeLength) - 1)

/-- Method `Grid::horizontalPos`. -/
def Grid.horizontalPos (g : Grid α) (i : Nat) : α := ((i : α) + 1 / 2) * g.m_edgeLength

/-- Method `Grid::verticalPos`. -/
def Grid.verticalPos (g : Grid α) (j : Nat) : α :=
  ((g.m_height : α) - ((j : α) + 1 / 2)) * g.m_edgeLength

/-- Method `Grid::distance`. -/
def Grid.distance (sqrt : α → α) (g : Grid α) (i j : Nat) (x y : α) : α :=
  let x1 := g.horizontalPos i
  let y1 := g.verticalPos j
  sqrt ((x1 - x) ^ 2 + (y1 - y) ^ 2)

/-- Method `Grid::numBands`. -/
def Grid.numBands (g : Grid α) : Int :=
  let num : Int := 0
  let num := if hasFlag g.m_outputTypes statCount then num + 1 else num
  let num := if hasFlag g.m_outputTypes statMin then num + 1 else num
  let num := if hasFlag g.m_outputTypes statMax then num + 1 else num
  let num := if hasFlag g.m_outputTypes statMean then num + 1 else num
  let num := if hasFlag g.m_outputTypes statIdw then num + 1 else num
  let num := if hasFlag g.m_outputTypes statStdDev then num + 1 else num
  num

/-- Method `Grid::data`: the buffer of a named statistic, `none` for `nullptr`. -/
def Grid.data (g : Grid α) (name : String) : DataPtr α :=
  if name = "count" then
    (if hasFlag g.m_outputTypes statCount then some g.m_count else none)
  else if name = "min" then
    (if hasFlag g.m_outputTypes statMin then g.m_min else none)
  else if name = "max" then
    (if hasFlag g.m_outputTypes statMax then g.m_max else none)
  else if name = "mean" then
    (if hasFlag g.m_outputTypes statMean then g.m_mean else none)
  else if name = "idw" then
    (if hasFlag g.m_outputTypes statIdw then g.m_idw else none)
  else if name = "stdev" then
    (if hasFlag g.m_outputTypes statStdDev then g.m_stdDev else none)
  else none

/-- Method `Grid::update`. -/
def Grid.update (g : Grid α) (i j : Int) (val dist : α) : Grid α :=
  let offset := g.index (toSizeT i) (toSizeT j)
  let count := g.m_count.getD offset 0 + 1
  let delta := val - rd g.m_mean offset
  let mean := rd g.m_mean offset + delta / count
  { g with
    m_count := g.m_count.set offset count
    m_min := if g.m_min.isSome then wr g.m_min offset (stdMin val (rd g.m_min offset)) else g.m_min
    m_max := if g.m_max.isSome then wr g.m_max offset (stdMax val (rd g.m_max offset)) else g.m_max
    m_mean := if g.m_mean.isSome && g.m_stdDev.isSome then wr g.m_mean offset mean else g.m_mean
    m_stdDev :=
      if g.m_mean.isSome && g.m_stdDev.isSome then
        wr g.m_stdDev offset (rd g.m_stdDev offset + delta * (val - mean))
      else g.m_stdDev
    m_idw := if g.m_idw.isSome then wr g.m_idw offset (rd g.m_idw offset + val / dist) else g.m_idw
    m_idwDist :=
      if g.m_idw.isSome then wr g.m_idwDist offset (rd g.m_idwDist offset + 1 / dist)
      else g.m_idwDist }

/-- First quadrant loop of `Grid::addPoint`, entered with the loop variables `i`, `j`. -/
def Grid.quadrant1 (sqrt : α → α) (g : Grid α) (x y z : α) (iOrigin i j : Int) : Grid α :=
  if i < (g.m_width : Int) ∧ j ≥ 0 then
    let d := g.distance sqrt (toSizeT i) (toSizeT j) x y
    if d < g.m_radius then
      Grid.quadrant1 sqrt (g.update i j z d) x y z iOrigin (i + 1) j
    else if i = iOrigin + 1 then g
    else Grid.quadrant1 sqrt g x y z iOrigin (iOrigin + 1) (j - 1)
  else g
termination_by ((j + 1).toNat, ((g.m_width : Int) - i).toNat)
decreasing_by
  · simp only [Grid.update]
    apply Prod.Lex.right
    omega
  · apply Prod.Lex.left
    omega

/-- Second quadrant loop of `Grid::addPoint`. -/
def Grid.quadrant2 (sqrt : α → α) (g : Grid α) (x y z : α) (jOrigin i j : Int) : Grid α :=
  if i ≥ 0 ∧ j ≥ 0 then
    let d := g.distance sqrt (toSizeT i) (toSizeT j) x y
    if d < g.m_radius then
      Grid.quadrant2 sqrt (g.update i j z d) x y z jOrigin i (j - 1)
    else if j = jOrigin - 1 then g
    else Grid.quadrant2 sqrt g x y z jOrigin (i - 1) (jOrigin - 1)
  else g
termination_by ((i + 1).toNat, (j + 1).toNat)
decreasing_by
  · apply Prod.Lex.right
    omega
  · apply Prod.Lex.left
    omega

/-- Third quadrant loop of `Grid::addPoint`. -/
def Grid.quadrant3 (sqrt : α → α) (g : Grid α) (x y z : α) (iOrigin i j : Int) : Grid α :=
  if i ≥ 0 ∧ j < (g.m_height : Int) then
    let d := g.distance sqrt (toSizeT i) (toSizeT j) x y
    if d < g.m_radius then
      Grid.quadrant3 sqrt (g.update i j z d) x y z iOrigin (i - 1) j
    else if i = iOrigin - 1 then g
    else Grid.quadrant3 sqrt g x y z iOrigin (iOrigin - 1) (j + 1)
  else g
termination_by (((g.m_height : Int) - j).toNat, (i + 1).toNat)
decreasing_by
  · simp only [Grid.update]
    apply Prod.Lex.right
    omega
  · apply Prod.Lex.left
    omega

/-- Fourth quadrant loop of `Grid::addPoint`. -/
def Grid.quadrant4 (sqrt : α → α) (g : Grid α) (x y z : α) (jOrigin i j : Int) : Grid α :=
  if i < (g.m_width : Int) ∧ j < (g.m_height : Int) then
    let d := g.distance sqrt (toSizeT i) (toSizeT j) x y
    if d < g.m_radius then
      Grid.quadrant4 sqrt (g.update i j z d) x y z jOrigin i (j + 1)
    else if j = jOrigin + 1 then g
    else Grid.quadrant4 sqrt g x y z jOrigin (i + 1) (jOrigin + 1)
  else g
termination_by (((g.m_width : Int) - i).toNat, ((g.m_height : Int) - j).toNat)
decreasing_by
  · simp only [Grid.update]
    apply Prod.Lex.right
    omega
  · apply Prod.Lex.left
    omega

/-- The four quadrant loops of `Grid::addPoint`, in the order of the source. -/
def Grid.addPointWalks (sqrt : α → α) (g : Grid α) (x y z : α) (iOrigin jOrigin : Int) :
    Grid α :=
  let g := g.quadrant1 sqrt x y z iOrigin (iOrigin + 1) jOrigin
  let g := g.quadrant2 sqrt x y z jOrigin iOrigin (jOrigin - 1)
  let g := g.quadrant3 sqrt x y z iOrigin (iOrigin - 1) jOrigin
  g.quadrant4 sqrt x y z jOrigin iOrigin (jOrigin + 1)

/-- Method `Grid::addPoint`. -/
def Grid.addPoint (sqrt : α → α) (g : Grid α) (x y z : α) : Grid α :=
  let iOrigin := g.horizontalIndex x
  let jOrigin := g.verticalIndex y
  let g := g.addPointWalks sqrt x y z iOrigin jOrigin
  let d := g.distance sqrt (toSizeT iOrigin) (toSizeT jOrigin) x y
  if d < g.m_radius then g.update iOrigin jOrigin z d else g

/-- Method `Grid::fillNodata`. -/
def Grid.fillNodata (g : Grid α) (i : Nat) : Grid α :=
  { g with
    m_min := if g.m_min.isSome then wr g.m_min i g.m_noData else g.m_min
    m_max := if g.m_max.isSome then wr g.m_max i g.m_noData else g.m_max
    m_mean := if g.m_mean.isSome then wr g.m_mean i g.m_noData else g.m_mean
    m_idw := if g.m_idw.isSome then wr g.m_idw i g.m_noData else g.m_idw
    m_stdDev := if g.m_stdDev.isSome then wr g.m_stdDev i g.m_noData else g.m_stdDev }

/-- Method `Grid::windowFillCell`. -/
def Grid.windowFillCell (g : Grid α) (srcIdx dstIdx : Nat) (distance : α) : Grid α :=
  { g with
    m_min :=
      if g.m_min.isSome then wr g.m_min dstIdx (rd g.m_min dstIdx + rd g.m_min srcIdx / distance)
      else g.m_min
    m_max :=
      if g.m_max.isSome then wr g.m_max dstIdx (rd g.m_max dstIdx + rd g.m_max srcIdx / distance)
      else g.m_max
    m_mean :=
      if g.m_mean.isSome then
        wr g.m_mean dstIdx (rd g.m_mean dstIdx + rd g.m_mean srcIdx / distance)
      else g.m_mean
    m_idw :=
      if g.m_idw.isSome then wr g.m_idw dstIdx (rd g.m_idw dstIdx + rd g.m_idw srcIdx / distance)
      else g.m_idw
    m_stdDev :=
      if g.m_stdDev.isSome then
        wr g.m_stdDev dstIdx (rd g.m_stdDev dstIdx + rd g.m_stdDev srcIdx / distance)
      else g.m_stdDev }

/-- The distance that `Grid::windowFill(dstI, dstJ)` computes for the source cell `(i, j)`,
as a `size_t` before its conversion to `double`. -/
def windowDistance (dstI dstJ i j : Nat) : Nat :=
  stdMax (if j > dstJ then subSizeT j dstJ else subSizeT dstJ j)
    (if i > dstI then subSizeT i dstJ else subSizeT dstJ i)

/-- Body of the inner loop of `Grid::windowFill(dstI, dstJ)` at the source cell `(i, j)`; the
state is the grid and the local `distSum`. -/
def Grid.windowFillBody (dstI dstJ dstIdx : Nat) (s : Grid α × α) (i j : Nat) : Grid α × α :=
  let srcIdx := s.1.index i j
  if i = j ∨ s.1.empty srcIdx then s
  else
    let distance : α := (windowDistance dstI dstJ i j : α)
    (s.1.windowFillCell srcIdx dstIdx distance, s.2 + 1 / distance)

/-- Start of `Grid::windowFill(dstI, dstJ)`: the destination `min` and `max` are set to 0. -/
def Grid.windowFillInit (g : Grid α) (dstIdx : Nat) : Grid α :=
  { g with
    m_min := if g.m_min.isSome then wr g.m_min dstIdx 0 else g.m_min
    m_max := if g.m_max.isSome then wr g.m_max dstIdx 0 else g.m_max }

/-- The two nested loops of `Grid::windowFill(dstI, dstJ)`, entered with `distSum`. -/
def Grid.windowFillScan (g : Grid α) (distSum : α) (dstI dstJ dstIdx : Nat) : Grid α × α :=
  let istart := stdMax 0 (subSizeT dstI g.m_windowSize)
  let iend := stdMin g.width (addSizeT (addSizeT dstI g.m_windowSize) 1)
  let jstart := stdMax 0 (subSizeT dstJ g.m_windowSize)
  let jend := stdMin g.height (addSizeT (addSizeT dstJ g.m_windowSize) 1)
  (List.range' istart (iend - istart)).foldl
    (fun s i => (List.range' jstart (jend - jstart)).foldl
      (fun s j => Grid.windowFillBody dstI dstJ dstIdx s i j) s) (g, distSum)

/-- The branch `distSum > 0` of `Grid::windowFill(dstI, dstJ)`: the summed values are divided
by `distSum`. -/
def Grid.windowFillDivide (g : Grid α) (dstIdx : Nat) (distSum : α) : Grid α :=
  { g with
    m_min := if g.m_min.isSome then wr g.m_min dstIdx (rd g.m_min dstIdx / distSum) else g.m_min
    m_max := if g.m_max.isSome then wr g.m_max dstIdx (rd g.m_max dstIdx / distSum) else g.m_max
    m_mean :=
      if g.m_mean.isSome then wr g.m_mean dstIdx (rd g.m_mean dstIdx / distSum) else g.m_mean
    m_idw := if g.m_idw.isSome then wr g.m_idw dstIdx (rd g.m_idw dstIdx / distSum) else g.m_idw
    m_stdDev :=
      if g.m_stdDev.isSome then wr g.m_stdDev dstIdx (rd g.m_stdDev dstIdx / distSum)
      else g.m_stdDev }

/-- Method `Grid::windowFill(size_t dstI, size_t dstJ)`. -/
def Grid.windowFillAt (g : Grid α) (dstI dstJ : Nat) : Grid α :=
  let distSum : α := 0
  let dstIdx := g.index dstI dstJ
  let s := (g.windowFillInit dstIdx).windowFillScan distSum dstI dstJ dstIdx
  let g := s.1
  let distSum := s.2
  if distSum > 0 then g.windowFillDivide dstIdx distSum else g.fillNodata dstIdx

/-- Inner loop of `Grid::windowFill()`: the cells of column `i`. -/
def Grid.windowFillColumn (g : Grid α) (i : Nat) : Grid α :=
  (List.range g.height).foldl (fun g j => if g.emptyCell i j then g.windowFillAt i j else g) g

/-- Method `Grid::windowFill()`. -/
def Grid.windowFill (g : Grid α) : Grid α :=
  (List.range g.width).foldl (fun g i => g.windowFillColumn i) g

/-- First loop of `Grid::finalize`: the standard deviation of the non-empty cells. -/
def Grid.finalizeStdDev (sqrt : α → α) (g : Grid α) : Grid α :=
  (List.range g.m_count.length).foldl
    (fun g i =>
      if !g.empty i then
        { g with m_stdDev := wr g.m_stdDev i (sqrt (rd g.m_stdDev i / g.m_count.getD i 0)) }
      else g) g

/-- Second loop of `Grid::finalize`: the normalised IDW value of the non-empty cells. -/
def Grid.finalizeIdw (g : Grid α) : Grid α :=
  (List.range g.m_count.length).foldl
    (fun g i =>
      if !g.empty i then { g with m_idw := wr g.m_idw i (rd g.m_idw i / rd g.m_idwDist i) }
      else g) g

/-- Third loop of `Grid::finalize`, run when `m_windowSize` is `0`. -/
def Grid.finalizeNodata (g : Grid α) : Grid α :=
  (List.range g.m_count.length).foldl (fun g i => if g.empty i then g.fillNodata i else g) g

/-- Method `Grid::finalize`. -/
def Grid.finalize (sqrt : α → α) (g : Grid α) : Grid α :=
  let g := if g.m_stdDev.isSome then g.finalizeStdDev sqrt else g
  let g := if g.m_idw.isSome then g.finalizeIdw else g
  if g.m_windowSize > 0 then g.windowFill else g.finalizeNodata

/-- A sequence of calls `update(i, j, val, dist)` on the cell `(i, j)`, one for each pair
`(val, dist)` of the list, in list order. -/
def Grid.updates (g : Grid α) (i j : Int) (vs : List (α × α)) : Grid α :=
  vs.foldl (fun g p => g.update i j p.1 p.2) g

/-- The points `(x, y, z)` of a list are added in list order. -/
def Grid.addPoints (sqrt : α → α) (g : Grid α) (pts : List (α × α × α)) : Grid α :=
  pts.foldl (fun g p => g.addPoint sqrt p.1 p.2.1 p.2.2) g

/-- A use of the grid: the points of a list are added, then `finalize` is called when `fin` is
true. -/
def Grid.run (sqrt : α → α) (g : Grid α) (pts : List (α × α × α)) (fin : Bool) : Grid α :=
  if fin then (g.addPoints sqrt pts).finalize sqrt else g.addPoints sqrt pts

/-- The value that a consumer reads for the cell `(i, j)` in the buffer `data(name)`. -/
def Grid.stat (g : Grid α) (name : String) (i j : Nat) : α :=
  rd (g.data name) (g.index i j)

/-- Length and allocation status of a buffer: `none` for a null pointer. -/
def shape (p : DataPtr α) : Option Nat :=
  match p with
  | some v => some v.length
  | none => none

/-- Everything of a grid that no method changes after construction: the configuration and
the allocation status and length of each buffer. -/
def Grid.layout (g : Grid α) :
    Nat × Nat × Nat × α × α × α × Int × Nat × Option Nat × Option Nat × Option Nat ×
      Option Nat × Option Nat × Option Nat :=
  (g.m_width, g.m_height, g.m_windowSize, g.m_edgeLength, g.m_radius, g.m_noData,
    g.m_outputTypes, g.m_count.length, shape g.m_min, shape g.m_max, shape g.m_mean,
    shape g.m_stdDev, shape g.m_idw, shape g.m_idwDist)

/-- The accumulators of the cell stored at `idx`, other than the count:
`(min, max, mean, stdDev, idw, idwDist)`. -/
def Grid.cell (g : Grid α) (idx : Nat) : α × α × α × α × α × α :=
  (rd g.m_min idx, rd g.m_max idx, rd g.m_mean idx, rd g.m_stdDev idx, rd g.m_idw idx,
    rd g.m_idwDist idx)

/-- The buffers are those that the constructor allocates for `m_outputTypes`, each of
`m_width * m_height` values, and that product fits `size_t`. -/
structure Grid.WellFormed (g : Grid α) : Prop where
  size_lt : g.m_width * g.m_height < sizeMod
  count_len : g.m_count.length = g.m_width * g.m_height
  min_shape : shape g.m_min =
    if hasFlag g.m_outputTypes statMin then some (g.m_width * g.m_height) else none
  max_shape : shape g.m_max =
    if hasFlag g.m_outputTypes statMax then some (g.m_width * g.m_height) else none
  mean_shape : shape g.m_mean =
    if hasFlag g.m_outputTypes statMean || hasFlag g.m_outputTypes statStdDev then
      some (g.m_width * g.m_height) else none
  stdDev_shape : shape g.m_stdDev =
    if hasFlag g.m_outputTypes statStdDev then some (g.m_width * g.m_height) else none
  idw_shape : shape g.m_idw =
    if hasFlag g.m_outputTypes statIdw then some (g.m_width * g.m_height) else none
  idwDist_shape : shape g.m_idwDist =
    if hasFlag g.m_outputTypes statIdw then some (g.m_width * g.m_height) else none

/-- Grid `g'` has the layout and the counts of `g`. -/
def Grid.Same (g g' : Grid α) : Prop :=
  g'.layout = g.layout ∧ g'.m_count = g.m_count

/-- Grid `g'` has the layout and the counts of `g`, and the same accumulators at `idx`. -/
def Grid.Keeps (idx : Nat) (g g' : Grid α) : Prop :=
  g'.layout = g.layout ∧ g'.m_count = g.m_count ∧ g'.cell idx = g.cell idx

/-- Each allocated value buffer (`min`, `max`, `mean`, `idw`, `stdDev`) holds `x` at `idx`. -/
def Grid.FilledAt (g : Grid α) (idx : Nat) (x : α) : Prop :=
  (g.m_min.isSome = true → rd g.m_min idx = x) ∧ (g.m_max.isSome = true → rd g.m_max idx = x) ∧
    (g.m_mean.isSome = true → rd g.m_mean idx = x) ∧
    (g.m_idw.isSome = true → rd g.m_idw idx = x) ∧
    (g.m_stdDev.isSome = true → rd g.m_stdDev idx = x)

/-- Position `idx` lies inside each allocated value buffer. -/
def Grid.InBuffers (g : Grid α) (idx : Nat) : Prop :=
  (∀ n, shape g.m_min = some n → idx < n) ∧ (∀ n, shape g.m_max = some n → idx < n) ∧
    (∀ n, shape g.m_mean = some n → idx < n) ∧ (∀ n, shape g.m_idw = some n → idx < n) ∧
    (∀ n, shape g.m_stdDev = some n → idx < n)

/-- The constructor `Grid::Grid` seen as an operation that may fail: the source constructor has
no `throw` and no test of its arguments, so the result is always `ok`. -/
def Grid.tryConstruct (width height : Nat) (edgeLength radius noData : α) (outputTypes : Int)
    (windowSize : Nat) : Except String (Grid α) :=
  Except.ok (Grid.construct width height edgeLength radius noData outputTypes windowSize)

/-- The states that a grid `g0` reaches by calls of `update` and `addPoint`. -/
inductive Grid.Ingested (sqrt : α → α) (g0 : Grid α) : Grid α → Prop
  | fresh : Grid.Ingested sqrt g0 g0
  | update (g : Grid α) (i j : Int) (val dist : α) :
      Grid.Ingested sqrt g0 g → Grid.Ingested sqrt g0 (g.update i j val dist)
  | addPoint (g : Grid α) (x y z : α) :
      Grid.Ingested sqrt g0 g → Grid.Ingested sqrt g0 (g.addPoint sqrt x y z)

/-- The states that a grid `g0` reaches by calls of `update`, `addPoint` and `finalize`. -/
inductive Grid.Reachable (sqrt : α → α) (g0 : Grid α) : Grid α → Prop
  | fresh : Grid.Reachable sqrt g0 g0
  | update (g : Grid α) (i j : Int) (val dist : α) :
      Grid.Reachable sqrt g0 g → Grid.Reachable sqrt g0 (g.update i j val dist)
  | addPoint (g : Grid α) (x y z : α) :
      Grid.Reachable sqrt g0 g → Grid.Reachable sqrt g0 (g.addPoint sqrt x y z)
  | finalize (g : Grid α) :
      Grid.Reachable sqrt g0 g → Grid.Reachable sqrt g0 (g.finalize sqrt)

/-- The cells `(i, j)` that the two nested loops of `Grid::windowFill(dstI, dstJ)` examine, in
the order of the loops. -/
def Grid.windowCells (g : Grid α) (dstI dstJ : Nat) : List (Nat × Nat) :=
  let istart := stdMax 0 (subSizeT dstI g.m_windowSize)
  let iend := stdMin g.width (addSizeT (addSizeT dstI g.m_windowSize) 1)
  let jstart := stdMax 0 (subSizeT dstJ g.m_windowSize)
  let jend := stdMin g.height (addSizeT (addSizeT dstJ g.m_windowSize) 1)
  (List.range' istart (iend - istart)).flatMap
    (fun i => (List.range' jstart (jend - jstart)).map (fun j => (i, j)))

/-- The window of the specification for the destination `(dstI, dstJ)`: the cells `(i, j)`
with `max(0, dstI - windowSize) ≤ i < min(width, dstI + windowSize + 1)` and
`max(0, dstJ - windowSize) ≤ j < min(height, dstJ + windowSize + 1)`, the subtraction taken in
the integers and clamped at 0. -/
def clampedWindowSpec (width height windowSize dstI dstJ : Nat) : List (Nat × Nat) :=
  (List.range' (dstI - windowSize)
      (min width (dstI + windowSize + 1) - (dstI - windowSize))).flatMap
    (fun i => (List.range' (dstJ - windowSize)
      (min height (dstJ + windowSize + 1) - (dstJ - windowSize))).map (fun j => (i, j)))

/-- The write that the gap filling makes in the cell stored at `d`: one value for each of `min`,
`max`, `mean`, `idw` and `stdDev`, into the buffers that are allocated. -/
def Grid.writeAt (g : Grid α) (d : Nat) (a : α × α × α × α × α) : Grid α :=
  { g with
    m_min := wr g.m_min d a.1
    m_max := wr g.m_max d a.2.1
    m_mean := wr g.m_mean d a.2.2.1
    m_idw := wr g.m_idw d a.2.2.2.1
    m_stdDev := wr g.m_stdDev d a.2.2.2.2 }

/-- Grid `g'` has the layout and the counts of `g`, and the accumulators of `g` in the cell
stored at `d` and in every non-empty cell. -/
def Grid.AgreeFor (d : Nat) (g g' : Grid α) : Prop :=
  g'.layout = g.layout ∧ g'.m_count = g.m_count ∧ g'.cell d = g.cell d ∧
    ∀ idx, g.empty idx = false → g'.cell idx = g.cell idx

/-- The window fill of the empty cells of a list, in the order of the list. -/
def Grid.windowFillOrder (g : Grid α) (order : List (Nat × Nat)) : Grid α :=
  order.foldl (fun g c => if g.emptyCell c.1 c.2 then g.windowFillAt c.1 c.2 else g) g

/-- The cells of the grid in the order in which `Grid::windowFill()` visits them. -/
def Grid.allCells (g : Grid α) : List (Nat × Nat) :=
  (List.range g.width).flatMap (fun i => (List.range g.height).map (fun j => (i, j)))

/-- The sources that the loops of `Grid::windowFill(dstI, dstJ)` do not skip among the cells
of a list, in list order: the storage index of the source and the distance computed for it. -/
def Grid.sourcesOf (g : Grid α) (dstI dstJ : Nat) (l : List (Nat × Nat)) : List (Nat × Nat) :=
  l.filterMap (fun c =>
    if c.1 = c.2 ∨ g.empty (g.index c.1 c.2) then none
    else some (g.index c.1 c.2, windowDistance dstI dstJ c.1 c.2))

/-- The sources that `Grid::windowFill(dstI, dstJ)` uses, in scan order. -/
def Grid.windowSources (g : Grid α) (dstI dstJ : Nat) : List (Nat × Nat) :=
  g.sourcesOf dstI dstJ (g.windowCells dstI dstJ)

/-- The distance of the specification between the cells `(i, j)` and `(dstI, dstJ)`:
`max(|i - dstI|, |j - dstJ|)`. -/
def chebyshevDistance (dstI dstJ i j : Nat) : Nat :=
  max (if i > dstI then i - dstI else dstI - i) (if j > dstJ then j - dstJ else dstJ - j)

/-- A `while` loop run with a bound on the number of evaluations of its guard.  One call of
`step` evaluates the guard of the loop and, when the loop goes on, its body; it is `none` when
the loop is left.  The result is `none` when the bound is reached before the loop is left. -/
def loopFuel {σ : Type} (step : σ → Option σ) : Nat → σ → Option σ
  | 0, _ => none
  | n + 1, s =>
    match step s with
    | none => some s
    | some s' => loopFuel step n s'

/-- One iteration of the first quadrant loop of `Grid::addPoint` on the grid and the loop
variables `i`, `j`. -/
def Grid.quadrant1Step (sqrt : α → α) (x y z : α) (iOrigin : Int) (s : Grid α × Int × Int) :
    Option (Grid α × Int × Int) :=
  if s.2.1 < (s.1.m_width : Int) ∧ s.2.2 ≥ 0 then
    let d := s.1.distance sqrt (toSizeT s.2.1) (toSizeT s.2.2) x y
    if d < s.1.m_radius then some (s.1.update s.2.1 s.2.2 z d, s.2.1 + 1, s.2.2)
    else if s.2.1 = iOrigin + 1 then none
    else some (s.1, iOrigin + 1, s.2.2 - 1)
  else none

/-- One iteration of the second quadrant loop of `Grid::addPoint`. -/
def Grid.quadrant2Step (sqrt : α → α) (x y z : α) (jOrigin : Int) (s : Grid α × Int × Int) :
    Option (Grid α × Int × Int) :=
  if s.2.1 ≥ 0 ∧ s.2.2 ≥ 0 then
    let d := s.1.distance sqrt (toSizeT s.2.1) (toSizeT s.2.2) x y
    if d < s.1.m_radius then some (s.1.update s.2.1 s.2.2 z d, s.2.1, s.2.2 - 1)
    else if s.2.2 = jOrigin - 1 then none
    else some (s.1, s.2.1 - 1, jOrigin - 1)
  else none

/-- One iteration of the third quadrant loop of `Grid::addPoint`. -/
def Grid.quadrant3Step (sqrt : α → α) (x y z : α) (iOrigin : Int) (s : Grid α × Int × Int) :
    Option (Grid α × Int × Int) :=
  if s.2.1 ≥ 0 ∧ s.2.2 < (s.1.m_height : Int) then
    let d := s.1.distance sqrt (toSizeT s.2.1) (toSizeT s.2.2) x y
    if d < s.1.m_radius then some (s.1.update s.2.1 s.2.2 z d, s.2.1 - 1, s.2.2)
    else if s.2.1 = iOrigin - 1 then none
    else some (s.1, iOrigin - 1, s.2.2 + 1)
  else none

/-- One iteration of the fourth quadrant loop of `Grid::addPoint`. -/
def Grid.quadrant4Step (sqrt : α → α) (x y z : α) (jOrigin : Int) (s : Grid α × Int × Int) :
    Option (Grid α × Int × Int) :=
  if s.2.1 < (s.1.m_width : Int) ∧ s.2.2 < (s.1.m_height : Int) then
    let d := s.1.distance sqrt (toSizeT s.2.1) (toSizeT s.2.2) x y
    if d < s.1.m_radius then some (s.1.update s.2.1 s.2.2 z d, s.2.1, s.2.2 + 1)
    else if s.2.2 = jOrigin + 1 then none
    else some (s.1, s.2.1 + 1, jOrigin + 1)
  else none

/-- One iteration of a loop `for (size_t i = ...; i < n; ++i) body`, on the counter and the
state of the body. -/
def forStep {σ : Type} (n : Nat) (body : σ → Nat → σ) (s : Nat × σ) : Option (Nat × σ) :=
  if s.1 < n then some (s.1 + 1, body s.2 s.1) else none

/-- The calls `update(i, j, z, d)` that the first quadrant loop of `Grid::addPoint` makes, in
the order of the calls: `(i, j, d)` for each. -/
def Grid.quadrant1Calls (sqrt : α → α) (g : Grid α) (x y z : α) (iOrigin i j : Int) :
    List (Int × Int × α) :=
  if i < (g.m_width : Int) ∧ j ≥ 0 then
    let d := g.distance sqrt (toSizeT i) (toSizeT j) x y
    if d < g.m_radius then
      (i, j, d) :: Grid.quadrant1Calls sqrt (g.update i j z d) x y z iOrigin (i + 1) j
    else if i = iOrigin + 1 then []
    else Grid.quadrant1Calls sqrt g x y z iOrigin (iOrigin + 1) (j - 1)
  else []
termination_by ((j + 1).toNat, ((g.m_width : Int) - i).toNat)
decreasing_by
  · simp only [Grid.update]
    apply Prod.Lex.right
    omega
  · apply Prod.Lex.left
    omega

/-- The calls of `update` that the second quadrant loop of `Grid::addPoint` makes. -/
def Grid.quadrant2Calls (sqrt : α → α) (g : Grid α) (x y z : α) (jOrigin i j : Int) :
    List (Int × Int × α) :=
  if i ≥ 0 ∧ j ≥ 0 then
    let d := g.distance sqrt (toSizeT i) (toSizeT j) x y
    if d < g.m_radius then
      (i, j, d) :: Grid.quadrant2Calls sqrt (g.update i j z d) x y z jOrigin i (j - 1)
    else if j = jOrigin - 1 then []
    else Grid.quadrant2Calls sqrt g x y z jOrigin (i - 1) (jOrigin - 1)
  else []
termination_by ((i + 1).toNat, (j + 1).toNat)
decreasing_by
  · apply Prod.Lex.right
    omega
  · apply Prod.Lex.left
    omega

/-- The calls of `update` that the third quadrant loop of `Grid::addPoint` makes. -/
def Grid.quadrant3Calls (sqrt : α → α) (g : Grid α) (x y z : α) (iOrigin i j : Int) :
    List (Int × Int × α) :=
  if i ≥ 0 ∧ j < (g.m_height : Int) then
    let d := g.distance sqrt (toSizeT i) (toSizeT j) x y
    if d < g.m_radius then
      (i, j, d) :: Grid.quadrant3Calls sqrt (g.update i j z d) x y z iOrigin (i - 1) j
    else if i = iOrigin - 1 then []
    else Grid.quadrant3Calls sqrt g x y z iOrigin (iOrigin - 1) (j + 1)
  else []
termination_by (((g.m_height : Int) - j).toNat, (i + 1).toNat)
decreasing_by
  · simp only [Grid.update]
    apply Prod.Lex.right
    omega
  · apply Prod.Lex.left
    omega

/-- The calls of `update` that the fourth quadrant loop of `Grid::addPoint` makes. -/
def Grid.quadrant4Calls (sqrt : α → α) (g : Grid α) (x y z : α) (jOrigin i j : Int) :
    List (Int × Int × α) :=
  if i < (g.m_width : Int) ∧ j < (g.m_height : Int) then
    let d := g.distance sqrt (toSizeT i) (toSizeT j) x y
    if d < g.m_radius then
      (i, j, d) :: Grid.quadrant4Calls sqrt (g.update i j z d) x y z jOrigin i (j + 1)
    else if j = jOrigin + 1 then []
    else Grid.quadrant4Calls sqrt g x y z jOrigin (i + 1) (jOrigin + 1)
  else []
termination_by (((g.m_width : Int) - i).toNat, ((g.m_height : Int) - j).toNat)
decreasing_by
  · simp only [Grid.update]
    apply Prod.Lex.right
    omega
  · apply Prod.Lex.left
    omega

/-- The calls `update(i, j, z, d)` of a list `(i, j, d)` are made in list order. -/
def Grid.applyCalls (g : Grid α) (z : α) (calls : List (Int × Int × α)) : Grid α :=
  calls.foldl (fun g c => g.update c.1 c.2.1 z c.2.2) g

/-- The body of `Grid::addPoint` after the two calls that compute the origin cell
`(iOrigin, jOrigin)`: the four quadrant loops and the final check of the origin cell. -/
def Grid.addPointAt (sqrt : α → α) (g : Grid α) (x y z : α) (iOrigin jOrigin : Int) : Grid α :=
  let g := g.addPointWalks sqrt x y z iOrigin jOrigin
  let d := g.distance sqrt (toSizeT iOrigin) (toSizeT jOrigin) x y
  if d < g.m_radius then g.update iOrigin jOrigin z d else g

/-- The calls of `update` that `Grid::addPoint` makes once it has computed the origin cell
`(iOrigin, jOrigin)`, in the order of the calls: those of the four quadrant loops, each entered
with the grid that the loops before it have left, then the call of the final check of the
origin cell. -/
def Grid.addPointCallsAt (sqrt : α → α) (g : Grid α) (x y z : α) (iOrigin jOrigin : Int) :
    List (Int × Int × α) :=
  let c1 := g.quadrant1Calls sqrt x y z iOrigin (iOrigin + 1) jOrigin
  let g1 := g.quadrant1 sqrt x y z iOrigin (iOrigin + 1) jOrigin
  let c2 := g1.quadrant2Calls sqrt x y z jOrigin iOrigin (jOrigin - 1)
  let g2 := g1.quadrant2 sqrt x y z jOrigin iOrigin (jOrigin - 1)
  let c3 := g2.quadrant3Calls sqrt x y z iOrigin (iOrigin - 1) jOrigin
  let g3 := g2.quadrant3 sqrt x y z iOrigin (iOrigin - 1) jOrigin
  let c4 := g3.quadrant4Calls sqrt x y z jOrigin iOrigin (jOrigin + 1)
  let g4 := g3.quadrant4 sqrt x y z jOrigin iOrigin (jOrigin + 1)
  let d := g4.distance sqrt (toSizeT iOrigin) (toSizeT jOrigin) x y
  c1 ++ c2 ++ c3 ++ c4 ++ (if d < g4.m_radius then [(iOrigin, jOrigin, d)] else [])

/-- The storage index that `update(i, j, ...)` computes for a call `(i, j, d)`. -/
def Grid.callIndex (g : Grid α) (c : Int × Int × α) : Nat :=
  g.index (toSizeT c.1) (toSizeT c.2.1)

/-- Rounding to the nearest integer, ties to the even one. -/
def roundHalfEven (q : α) : Int :=
  if q - (⌊q⌋ : α) < 1 / 2 then ⌊q⌋
  else if 1 / 2 < q - (⌊q⌋ : α) then ⌊q⌋ + 1
  else if ⌊q⌋ % 2 = 0 then ⌊q⌋
  else ⌊q⌋ + 1

/-- The IEEE 754 binary64 value nearest to `q`, ties to even, for `q` in the normal range of
`double`: the significand has 53 bits, so for `2 ^ e ≤ |q| < 2 ^ (e + 1)` the values of the
format are the multiples of `2 ^ (e - 52)`.  Overflow and subnormal values are not modelled. -/
def binary64Round (q : α) : α :=
  (roundHalfEven (q / 2 ^ (Int.log 2 |q| - 52)) : α) * 2 ^ (Int.log 2 |q| - 52)

/-- Method `Grid::horizontalIndex` with the quotient `x / m_edgeLength` rounded as the division
of two `double`s rounds it. -/
def Grid.horizontalIndex64 (g : Grid α) (x : α) : Int :=
  truncToInt (binary64Round (x / g.m_edgeLength))

/-- Method `Grid::verticalIndex` with the quotient, the difference `m_height - quotient` and
the difference with 1 rounded as the operations on `double`s round them. -/
def Grid.verticalIndex64 (g : Grid α) (y : α) : Int :=
  truncToInt
    (binary64Round (binary64Round ((g.m_height : α) - binary64Round (y / g.m_edgeLength)) - 1))

/-- The `double` nearest to `0.3` (`0x1.3333333333333p-2`), an edge length. -/
def edgeThreeTenths : α := 5404319552844595 / 18014398509481984

/-- The `double` `77.69999999999999` (`0x1.36cccccccccccp+6`), the largest `double` below
`259 * 0.3` as `double`s multiply: a coordinate inside the extent of a grid of 259 cells of
edge length `0.3`. -/
def coordBelowExtent : α := 1366912855651123 / 17592186044416

/-! ## Buffers -/

section Buffers

@[simp] theorem shape_wr (p : DataPtr α) (i : Nat) (x : α) : shape (wr p i x) = shape p := by
  cases p <;> simp [wr, shape]

@[simp] theorem ite_isSome_wr (p : DataPtr α) (i : Nat) (x : α) :
    (if p.isSome = true then wr p i x else p) = wr p i x := by
  cases p <;> simp [wr]

theorem rd_wr_ne (p : DataPtr α) (i j : Nat) (x : α) (h : j ≠ i) : rd (wr p i x) j = rd p j := by
  cases p with
  | none => rfl
  | some v =>
    simp only [wr, rd, List.getD_eq_getElem?_getD]
    rw [List.getElem?_set_ne (Ne.symm h)]

theorem rd_wr_same (p : DataPtr α) (i n : Nat) (x : α) (h : shape p = some n) (hi : i < n) :
    rd (wr p i x) i = x := by
  cases p with
  | none => simp [shape] at h
  | some v =>
    simp only [shape, Option.some.injEq] at h
    simp only [wr, rd, List.getD_eq_getElem?_getD]
    rw [List.getElem?_set_self (by omega)]
    rfl

theorem getD_set_ne (v : List α) (i j : Nat) (x : α) (h : j ≠ i) :
    (v.set i x).getD j 0 = v.getD j 0 := by
  simp only [List.getD_eq_getElem?_getD]
  rw [List.getElem?_set_ne (Ne.symm h)]

theorem getD_set_same (v : List α) (i : Nat) (x : α) (hi : i < v.length) :
    (v.set i x).getD i 0 = x := by
  simp only [List.getD_eq_getElem?_getD]
  rw [List.getElem?_set_self hi]
  rfl

end Buffers

/-! ## Folds and frames -/

section Frames

@[simp] theorem shape_ite_wr (c : Prop) [Decidable c] (p : DataPtr α) (i : Nat) (x : α) :
    shape (if c then wr p i x else p) = shape p := by
  split <;> simp

theorem rd_ite_wr_ne (c : Prop) [Decidable c] (p : DataPtr α) (i j : Nat) (x : α) (h : j ≠ i) :
    rd (if c then wr p i x else p) j = rd p j := by
  split
  · exact rd_wr_ne p i j x h
  · rfl

/-- A fold keeps an invariant that each of its steps keeps. -/
theorem foldl_invariant {σ β : Type} (P : σ → Prop) (f : σ → β → σ) (l : List β) (s : σ)
    (h0 : P s) (hstep : ∀ t b, b ∈ l → P t → P (f t b)) : P (l.foldl f s) := by
  induction l generalizing s with
  | nil => exact h0
  | cons b l ih =>
    simp only [List.foldl_cons]
    apply ih
    · exact hstep s b (List.mem_cons_self b l) h0
    · intro t c hc ht
      exact hstep t c (List.mem_cons_of_mem b hc) ht

theorem layout_update (g : Grid α) (i j : Int) (val dist : α) :
    (g.update i j val dist).layout = g.layout := by
  simp [Grid.layout, Grid.update]

theorem layout_fillNodata (g : Grid α) (i : Nat) : (g.fillNodata i).layout = g.layout := by
  simp [Grid.layout, Grid.fillNodata]

theorem layout_windowFillCell (g : Grid α) (s d : Nat) (x : α) :
    (g.windowFillCell s d x).layout = g.layout := by
  simp [Grid.layout, Grid.windowFillCell]

theorem cell_update_ne (g : Grid α) (i j : Int) (val dist : α) (idx : Nat)
    (h : idx ≠ g.index (toSizeT i) (toSizeT j)) :
    (g.update i j val dist).cell idx = g.cell idx := by
  simp [Grid.cell, Grid.update, rd_wr_ne _ _ _ _ h, rd_ite_wr_ne _ _ _ _ _ h]

theorem count_update_ne (g : Grid α) (i j : Int) (val dist : α) (idx : Nat)
    (h : idx ≠ g.index (toSizeT i) (toSizeT j)) :
    (g.update i j val dist).m_count.getD idx 0 = g.m_count.getD idx 0 := by
  simp only [Grid.update]
  exact getD_set_ne _ _ _ _ h

theorem cell_fillNodata_ne (g : Grid α) (i idx : Nat) (h : idx ≠ i) :
    (g.fillNodata i).cell idx = g.cell idx := by
  simp [Grid.cell, Grid.fillNodata, rd_wr_ne _ _ _ _ h]

theorem cell_windowFillCell_ne (g : Grid α) (s d : Nat) (x : α) (idx : Nat) (h : idx ≠ d) :
    (g.windowFillCell s d x).cell idx = g.cell idx := by
  simp [Grid.cell, Grid.windowFillCell, rd_wr_ne _ _ _ _ h]

end Frames

/-! ## The window fill writes one cell -/

section WindowFrames

theorem Grid.Keeps.refl_keeps (idx : Nat) (g : Grid α) : Grid.Keeps idx g g := ⟨rfl, rfl, rfl⟩

theorem Grid.Keeps.trans_keeps {idx : Nat} {g g' g'' : Grid α} (h : Grid.Keeps idx g g')
    (h' : Grid.Keeps idx g' g'') : Grid.Keeps idx g g'' :=
  ⟨h'.1.trans h.1, h'.2.1.trans h.2.1, h'.2.2.trans h.2.2⟩

theorem Grid.Same.refl_same (g : Grid α) : Grid.Same g g := ⟨rfl, rfl⟩

theorem Grid.Same.trans_same {g g' g'' : Grid α} (h : Grid.Same g g') (h' : Grid.Same g' g'') :
    Grid.Same g g'' :=
  ⟨h'.1.trans h.1, h'.2.trans h.2⟩

theorem Grid.Keeps.to_same {idx : Nat} {g g' : Grid α} (h : Grid.Keeps idx g g') : Grid.Same g g' :=
  ⟨h.1, h.2.1⟩

theorem layout_width {g g' : Grid α} (h : g'.layout = g.layout) : g'.m_width = g.m_width := by
  simp only [Grid.layout, Prod.mk.injEq] at h
  exact h.1

theorem layout_height {g g' : Grid α} (h : g'.layout = g.layout) : g'.m_height = g.m_height := by
  simp only [Grid.layout, Prod.mk.injEq] at h
  exact h.2.1

theorem layout_index {g g' : Grid α} (h : g'.layout = g.layout) (i j : Nat) :
    g'.index i j = g.index i j := by
  simp only [Grid.index, layout_width h]

theorem same_empty {g g' : Grid α} (h : Grid.Same g g') (idx : Nat) :
    g'.empty idx = g.empty idx := by
  simp only [Grid.empty, h.2]

theorem fillNodata_same (g : Grid α) (i : Nat) : Grid.Same g (g.fillNodata i) :=
  ⟨layout_fillNodata g i, rfl⟩

theorem fillNodata_keeps (g : Grid α) (i idx : Nat) (h : idx ≠ i) :
    Grid.Keeps idx g (g.fillNodata i) :=
  ⟨layout_fillNodata g i, rfl, cell_fillNodata_ne g i idx h⟩

theorem windowFillInit_same (g : Grid α) (d : Nat) : Grid.Same g (g.windowFillInit d) :=
  ⟨by simp [Grid.layout, Grid.windowFillInit], rfl⟩

theorem windowFillInit_keeps (g : Grid α) (d idx : Nat) (h : idx ≠ d) :
    Grid.Keeps idx g (g.windowFillInit d) :=
  ⟨(windowFillInit_same g d).1, rfl, by
    simp [Grid.cell, Grid.windowFillInit, rd_wr_ne _ _ _ _ h]⟩

theorem windowFillDivide_same (g : Grid α) (d : Nat) (x : α) :
    Grid.Same g (g.windowFillDivide d x) :=
  ⟨by simp [Grid.layout, Grid.windowFillDivide], rfl⟩

theorem windowFillDivide_keeps (g : Grid α) (d : Nat) (x : α) (idx : Nat) (h : idx ≠ d) :
    Grid.Keeps idx g (g.windowFillDivide d x) :=
  ⟨(windowFillDivide_same g d x).1, rfl, by
    simp [Grid.cell, Grid.windowFillDivide, rd_wr_ne _ _ _ _ h]⟩

theorem windowFillBody_same (dstI dstJ d : Nat) (s : Grid α × α) (i j : Nat) :
    Grid.Same s.1 (Grid.windowFillBody dstI dstJ d s i j).1 := by
  simp only [Grid.windowFillBody]
  split
  · exact Grid.Same.refl_same _
  · exact ⟨layout_windowFillCell _ _ _ _, rfl⟩

theorem windowFillBody_keeps (dstI dstJ d : Nat) (s : Grid α × α) (i j idx : Nat) (h : idx ≠ d) :
    Grid.Keeps idx s.1 (Grid.windowFillBody dstI dstJ d s i j).1 := by
  simp only [Grid.windowFillBody]
  split
  · exact Grid.Keeps.refl_keeps _ _
  · exact ⟨layout_windowFillCell _ _ _ _, rfl, cell_windowFillCell_ne _ _ _ _ _ h⟩

theorem windowFillScan_same (g : Grid α) (x : α) (dstI dstJ d : Nat) :
    Grid.Same g (g.windowFillScan x dstI dstJ d).1 := by
  simp only [Grid.windowFillScan]
  apply foldl_invariant (fun s : Grid α × α => Grid.Same g s.1)
  · exact Grid.Same.refl_same g
  · intro t i _ ht
    apply foldl_invariant (fun s : Grid α × α => Grid.Same g s.1)
    · exact ht
    · intro u j _ hu
      exact hu.trans_same (windowFillBody_same dstI dstJ d u i j)

theorem windowFillScan_keeps (g : Grid α) (x : α) (dstI dstJ d idx : Nat) (h : idx ≠ d) :
    Grid.Keeps idx g (g.windowFillScan x dstI dstJ d).1 := by
  simp only [Grid.windowFillScan]
  apply foldl_invariant (fun s : Grid α × α => Grid.Keeps idx g s.1)
  · exact Grid.Keeps.refl_keeps idx g
  · intro t i _ ht
    apply foldl_invariant (fun s : Grid α × α => Grid.Keeps idx g s.1)
    · exact ht
    · intro u j _ hu
      exact hu.trans_keeps (windowFillBody_keeps dstI dstJ d u i j idx h)

theorem windowFillAt_same (g : Grid α) (dstI dstJ : Nat) :
    Grid.Same g (g.windowFillAt dstI dstJ) := by
  unfold Grid.windowFillAt
  have h1 := windowFillInit_same g (g.index dstI dstJ)
  have h2 := windowFillScan_same (g.windowFillInit (g.index dstI dstJ)) 0 dstI dstJ
    (g.index dstI dstJ)
  simp only
  split
  · exact (h1.trans_same h2).trans_same (windowFillDivide_same _ _ _)
  · exact (h1.trans_same h2).trans_same (fillNodata_same _ _)

theorem windowFillAt_keeps (g : Grid α) (dstI dstJ idx : Nat) (h : idx ≠ g.index dstI dstJ) :
    Grid.Keeps idx g (g.windowFillAt dstI dstJ) := by
  unfold Grid.windowFillAt
  have h1 := windowFillInit_keeps g (g.index dstI dstJ) idx h
  have h2 := windowFillScan_keeps (g.windowFillInit (g.index dstI dstJ)) 0 dstI dstJ
    (g.index dstI dstJ) idx h
  simp only
  split
  · exact (h1.trans_keeps h2).trans_keeps (windowFillDivide_keeps _ _ _ _ h)
  · exact (h1.trans_keeps h2).trans_keeps (fillNodata_keeps _ _ _ h)

theorem windowFillColumn_same (g : Grid α) (i : Nat) : Grid.Same g (g.windowFillColumn i) := by
  unfold Grid.windowFillColumn
  apply foldl_invariant (fun s => Grid.Same g s)
  · exact Grid.Same.refl_same g
  · intro u j _ hu
    split
    · exact hu.trans_same (windowFillAt_same u i j)
    · exact hu

theorem windowFill_same (g : Grid α) : Grid.Same g g.windowFill := by
  unfold Grid.windowFill
  apply foldl_invariant (fun s => Grid.Same g s)
  · exact Grid.Same.refl_same g
  · intro t i _ ht
    exact ht.trans_same (windowFillColumn_same t i)

/-- The window fill leaves the accumulators of a non-empty cell alone. -/
theorem windowFill_keeps (g : Grid α) (idx : Nat) (h : g.empty idx = false) :
    Grid.Keeps idx g g.windowFill := by
  unfold Grid.windowFill
  apply foldl_invariant (fun s => Grid.Keeps idx g s)
  · exact Grid.Keeps.refl_keeps idx g
  · intro t i _ ht
    unfold Grid.windowFillColumn
    apply foldl_invariant (fun s => Grid.Keeps idx g s)
    · exact ht
    · intro u j _ hu
      split
      · rename_i he
        have hne : idx ≠ u.index i j := by
          intro hc
          rw [Grid.emptyCell, ← hc, same_empty hu.to_same, h] at he
          exact Bool.false_ne_true he
        exact hu.trans_keeps (windowFillAt_keeps u i j idx hne)
      · exact hu

end WindowFrames

/-! ## The loops of `finalize` -/

section FinalizeLoops

/-- A fold over a list without duplicates, seen from one of its elements `a`: the steps before
and after the step at `a` are related by `R`. -/
theorem foldl_split {σ β : Type} (R : σ → σ → Prop) (hrefl : ∀ s, R s s)
    (htrans : ∀ s t u, R s t → R t u → R s u) (f : σ → β → σ) (a : β) (l : List β) (s : σ)
    (hother : ∀ t b, b ∈ l → b ≠ a → R t (f t b)) :
    (a ∉ l → R s (l.foldl f s)) ∧
      (l.Nodup → a ∈ l → ∃ s1, R s s1 ∧ R (f s1 a) (l.foldl f s)) := by
  induction l generalizing s with
  | nil =>
    constructor
    · intro _
      exact hrefl s
    · intro _ ha
      simp at ha
  | cons b l ih =>
    have hother' : ∀ t c, c ∈ l → c ≠ a → R t (f t c) := fun t c hc hne =>
      hother t c (List.mem_cons_of_mem b hc) hne
    simp only [List.foldl_cons]
    constructor
    · intro ha
      have hb : b ≠ a := fun h => ha (h ▸ List.mem_cons_self b l)
      have hal : a ∉ l := fun h => ha (List.mem_cons_of_mem b h)
      exact htrans _ _ _ (hother s b (List.mem_cons_self b l) hb) ((ih (f s b) hother').1 hal)
    · intro hnd ha
      rw [List.nodup_cons] at hnd
      by_cases hb : b = a
      · subst hb
        exact ⟨s, hrefl s, (ih (f s b) hother').1 hnd.1⟩
      · have hal : a ∈ l := by
          rcases List.mem_cons.mp ha with h | h
          · exact absurd h.symm hb
          · exact h
        obtain ⟨s1, h1, h2⟩ := (ih (f s b) hother').2 hnd.2 hal
        exact ⟨s1, htrans _ _ _ (hother s b (List.mem_cons_self b l) hb) h1, h2⟩

theorem foldl_keeps_split (idx : Nat) {β : Type} (f : Grid α → β → Grid α) (a : β) (l : List β)
    (g : Grid α) (hother : ∀ t b, b ∈ l → b ≠ a → Grid.Keeps idx t (f t b)) (hnd : l.Nodup)
    (ha : a ∈ l) : ∃ g1, Grid.Keeps idx g g1 ∧ Grid.Keeps idx (f g1 a) (l.foldl f g) :=
  (foldl_split (Grid.Keeps idx) (Grid.Keeps.refl_keeps idx) (fun _ _ _ h h' => h.trans_keeps h') f a l g
    hother).2 hnd ha

theorem layout_count_length {g g' : Grid α} (h : g'.layout = g.layout) :
    g'.m_count.length = g.m_count.length := by
  simp only [Grid.layout, Prod.mk.injEq] at h
  exact h.2.2.2.2.2.2.2.1

/-- One step of the first loop of `finalize`. -/
theorem finalizeStdDev_step_keeps (sqrt : α → α) (g : Grid α) (i idx : Nat) (h : idx ≠ i) :
    Grid.Keeps idx g
      (if (!g.empty i) = true then
        { g with m_stdDev := wr g.m_stdDev i (sqrt (rd g.m_stdDev i / g.m_count.getD i 0)) }
      else g) := by
  split
  · exact ⟨by simp [Grid.layout], rfl, by simp [Grid.cell, rd_wr_ne _ _ _ _ h]⟩
  · exact Grid.Keeps.refl_keeps idx g

theorem finalizeStdDev_same (sqrt : α → α) (g : Grid α) : Grid.Same g (g.finalizeStdDev sqrt) := by
  simp only [Grid.finalizeStdDev]
  apply foldl_invariant (fun s : Grid α => Grid.Same g s)
  · exact Grid.Same.refl_same g
  · intro t i _ ht
    split
    · exact ht.trans_same ⟨by simp [Grid.layout], rfl⟩
    · exact ht

theorem finalizeIdw_step_keeps (g : Grid α) (i idx : Nat) (h : idx ≠ i) :
    Grid.Keeps idx g
      (if (!g.empty i) = true then
        { g with m_idw := wr g.m_idw i (rd g.m_idw i / rd g.m_idwDist i) }
      else g) := by
  split
  · exact ⟨by simp [Grid.layout], rfl, by simp [Grid.cell, rd_wr_ne _ _ _ _ h]⟩
  · exact Grid.Keeps.refl_keeps idx g

theorem finalizeIdw_same (g : Grid α) : Grid.Same g g.finalizeIdw := by
  simp only [Grid.finalizeIdw]
  apply foldl_invariant (fun s : Grid α => Grid.Same g s)
  · exact Grid.Same.refl_same g
  · intro t i _ ht
    split
    · exact ht.trans_same ⟨by simp [Grid.layout], rfl⟩
    · exact ht

theorem finalizeNodata_same (g : Grid α) : Grid.Same g g.finalizeNodata := by
  simp only [Grid.finalizeNodata]
  apply foldl_invariant (fun s : Grid α => Grid.Same g s)
  · exact Grid.Same.refl_same g
  · intro t i _ ht
    split
    · exact ht.trans_same (fillNodata_same t i)
    · exact ht

/-- The sentinel fill leaves the accumulators of a non-empty cell alone. -/
theorem finalizeNodata_keeps (g : Grid α) (idx : Nat) (h : g.empty idx = false) :
    Grid.Keeps idx g g.finalizeNodata := by
  simp only [Grid.finalizeNodata]
  apply foldl_invariant (fun s : Grid α => Grid.Keeps idx g s)
  · exact Grid.Keeps.refl_keeps idx g
  · intro t i _ ht
    split
    · rename_i he
      have hne : idx ≠ i := by
        intro hc
        rw [← hc, same_empty ht.to_same, h] at he
        exact Bool.false_ne_true he
      exact ht.trans_keeps (fillNodata_keeps t i idx hne)
    · exact ht

theorem finalize_same (sqrt : α → α) (g : Grid α) : Grid.Same g (g.finalize sqrt) := by
  simp only [Grid.finalize]
  have h1 : Grid.Same g (if g.m_stdDev.isSome = true then g.finalizeStdDev sqrt else g) := by
    split
    · exact finalizeStdDev_same sqrt g
    · exact Grid.Same.refl_same g
  generalize (if g.m_stdDev.isSome = true then g.finalizeStdDev sqrt else g) = g1 at h1
  have h2 : Grid.Same g1 (if g1.m_idw.isSome = true then g1.finalizeIdw else g1) := by
    split
    · exact finalizeIdw_same g1
    · exact Grid.Same.refl_same g1
  generalize (if g1.m_idw.isSome = true then g1.finalizeIdw else g1) = g2 at h2
  split
  · exact (h1.trans_same h2).trans_same (windowFill_same g2)
  · exact (h1.trans_same h2).trans_same (finalizeNodata_same g2)

/-- Method `finalize` never changes a count. -/
theorem finalize_count (sqrt : α → α) (g : Grid α) : (g.finalize sqrt).m_count = g.m_count :=
  (finalize_same sqrt g).2

end FinalizeLoops

/-! ## What `finalize` does to a non-empty cell -/

section FinalizeCell

theorem layout_shapes {g g' : Grid α} (h : g'.layout = g.layout) :
    shape g'.m_min = shape g.m_min ∧ shape g'.m_max = shape g.m_max ∧
      shape g'.m_mean = shape g.m_mean ∧ shape g'.m_stdDev = shape g.m_stdDev ∧
      shape g'.m_idw = shape g.m_idw ∧ shape g'.m_idwDist = shape g.m_idwDist := by
  simp only [Grid.layout, Prod.mk.injEq] at h
  obtain ⟨_, _, _, _, _, _, _, _, h1, h2, h3, h4, h5, h6⟩ := h
  exact ⟨h1, h2, h3, h4, h5, h6⟩

theorem layout_config {g g' : Grid α} (h : g'.layout = g.layout) :
    g'.m_windowSize = g.m_windowSize ∧ g'.m_edgeLength = g.m_edgeLength ∧
      g'.m_radius = g.m_radius ∧ g'.m_noData = g.m_noData ∧
      g'.m_outputTypes = g.m_outputTypes := by
  simp only [Grid.layout, Prod.mk.injEq] at h
  obtain ⟨_, _, h1, h2, h3, h4, h5, _⟩ := h
  exact ⟨h1, h2, h3, h4, h5⟩

theorem shape_isSome (p : DataPtr α) : (shape p).isSome = p.isSome := by
  cases p <;> rfl

theorem isSome_of_shape_eq {p q : DataPtr α} (h : shape p = shape q) : p.isSome = q.isSome := by
  rw [← shape_isSome p, ← shape_isSome q, h]

theorem shape_of_isSome {p : DataPtr α} {c : Bool} {n : Nat}
    (h : shape p = if c = true then some n else none) (hp : p.isSome = true) :
    shape p = some n := by
  cases c with
  | true => simpa using h
  | false =>
    rw [← shape_isSome, h] at hp
    simp at hp

theorem cell_eq_iff (g g' : Grid α) (idx idx' : Nat) :
    g'.cell idx' = g.cell idx ↔
      rd g'.m_min idx' = rd g.m_min idx ∧ rd g'.m_max idx' = rd g.m_max idx ∧
      rd g'.m_mean idx' = rd g.m_mean idx ∧ rd g'.m_stdDev idx' = rd g.m_stdDev idx ∧
      rd g'.m_idw idx' = rd g.m_idw idx ∧ rd g'.m_idwDist idx' = rd g.m_idwDist idx := by
  simp only [Grid.cell, Prod.mk.injEq]

/-- The first loop of `finalize` at a non-empty cell. -/
theorem finalizeStdDev_cell (sqrt : α → α) (g : Grid α) (idx n : Nat)
    (hlen : idx < g.m_count.length) (hs : shape g.m_stdDev = some n) (hn : idx < n)
    (hne : g.empty idx = false) :
    (g.finalizeStdDev sqrt).cell idx =
      (rd g.m_min idx, rd g.m_max idx, rd g.m_mean idx,
        sqrt (rd g.m_stdDev idx / g.m_count.getD idx 0), rd g.m_idw idx, rd g.m_idwDist idx) := by
  simp only [Grid.finalizeStdDev]
  obtain ⟨g1, h1, h2⟩ := foldl_keeps_split idx
    (fun (g : Grid α) i =>
      if (!g.empty i) = true then
        { g with m_stdDev := wr g.m_stdDev i (sqrt (rd g.m_stdDev i / g.m_count.getD i 0)) }
      else g) idx (List.range g.m_count.length) g
    (fun t b _ hb => finalizeStdDev_step_keeps sqrt t b idx (Ne.symm hb))
    (List.nodup_range _) (List.mem_range.mpr hlen)
  rw [h2.2.2]
  have he : g1.empty idx = false := by rw [same_empty h1.to_same, hne]
  have hc := (cell_eq_iff g g1 idx idx).mp h1.2.2
  have hs1 : shape g1.m_stdDev = some n := by rw [(layout_shapes h1.1).2.2.2.1, hs]
  simp only [he, Bool.not_false, if_true, Grid.cell, rd_wr_same _ _ _ _ hs1 hn, hc.1, hc.2.1,
    hc.2.2.1, hc.2.2.2.1, hc.2.2.2.2.1, hc.2.2.2.2.2, h1.2.1]

/-- The second loop of `finalize` at a non-empty cell. -/
theorem finalizeIdw_cell (g : Grid α) (idx n : Nat)
    (hlen : idx < g.m_count.length) (hs : shape g.m_idw = some n) (hn : idx < n)
    (hne : g.empty idx = false) :
    g.finalizeIdw.cell idx =
      (rd g.m_min idx, rd g.m_max idx, rd g.m_mean idx, rd g.m_stdDev idx,
        rd g.m_idw idx / rd g.m_idwDist idx, rd g.m_idwDist idx) := by
  simp only [Grid.finalizeIdw]
  obtain ⟨g1, h1, h2⟩ := foldl_keeps_split idx
    (fun (g : Grid α) i =>
      if (!g.empty i) = true then
        { g with m_idw := wr g.m_idw i (rd g.m_idw i / rd g.m_idwDist i) }
      else g) idx (List.range g.m_count.length) g
    (fun t b _ hb => finalizeIdw_step_keeps t b idx (Ne.symm hb))
    (List.nodup_range _) (List.mem_range.mpr hlen)
  rw [h2.2.2]
  have he : g1.empty idx = false := by rw [same_empty h1.to_same, hne]
  have hc := (cell_eq_iff g g1 idx idx).mp h1.2.2
  have hs1 : shape g1.m_idw = some n := by rw [(layout_shapes h1.1).2.2.2.2.1, hs]
  simp only [he, Bool.not_false, if_true, Grid.cell, rd_wr_same _ _ _ _ hs1 hn, hc.1, hc.2.1,
    hc.2.2.1, hc.2.2.2.1, hc.2.2.2.2.1, hc.2.2.2.2.2]

end FinalizeCell

/-! ## Well-formed grids and the storage index -/

section WellFormedness

theorem wellFormed_of_layout {g g' : Grid α} (h : g'.layout = g.layout) (hwf : g.WellFormed) :
    g'.WellFormed := by
  have hw := layout_width h
  have hh := layout_height h
  have hl := layout_count_length h
  have hs := layout_shapes h
  have hc := layout_config h
  exact
    { size_lt := by rw [hw, hh]; exact hwf.size_lt
      count_len := by rw [hl, hw, hh]; exact hwf.count_len
      min_shape := by rw [hs.1, hw, hh, hc.2.2.2.2]; exact hwf.min_shape
      max_shape := by rw [hs.2.1, hw, hh, hc.2.2.2.2]; exact hwf.max_shape
      mean_shape := by rw [hs.2.2.1, hw, hh, hc.2.2.2.2]; exact hwf.mean_shape
      stdDev_shape := by rw [hs.2.2.2.1, hw, hh, hc.2.2.2.2]; exact hwf.stdDev_shape
      idw_shape := by rw [hs.2.2.2.2.1, hw, hh, hc.2.2.2.2]; exact hwf.idw_shape
      idwDist_shape := by rw [hs.2.2.2.2.2, hw, hh, hc.2.2.2.2]; exact hwf.idwDist_shape }

/-- A constructed grid is well formed when `width * height` fits `size_t`. -/
theorem construct_wellFormed (width height : Nat) (edgeLength radius noData : α)
    (outputTypes : Int) (windowSize : Nat) (hsz : width * height < sizeMod) :
    (Grid.construct width height edgeLength radius noData outputTypes windowSize).WellFormed := by
  have hm : width * height % sizeMod = width * height := Nat.mod_eq_of_lt hsz
  constructor <;> simp only [Grid.construct, hm] <;> first
    | exact hsz
    | (split <;> simp [shape])
    | simp

theorem toSizeT_natCast (i : Nat) (h : i < sizeMod) : toSizeT (i : Int) = i := by
  simp only [toSizeT]
  rw [← Int.natCast_mod, Int.toNat_ofNat, Nat.mod_eq_of_lt h]

theorem mul_add_lt {w h i j : Nat} (hi : i < w) (hj : j < h) : j * w + i < w * h := by
  calc j * w + i < j * w + w := by omega
    _ = (j + 1) * w := by ring
    _ ≤ h * w := Nat.mul_le_mul_right w hj
    _ = w * h := by ring

theorem index_eq (g : Grid α) (hsz : g.m_width * g.m_height < sizeMod) {i j : Nat}
    (hi : i < g.m_width) (hj : j < g.m_height) : g.index i j = j * g.m_width + i := by
  simp only [Grid.index]
  exact Nat.mod_eq_of_lt (lt_trans (mul_add_lt hi hj) hsz)

theorem index_lt (g : Grid α) (hsz : g.m_width * g.m_height < sizeMod) {i j : Nat}
    (hi : i < g.m_width) (hj : j < g.m_height) : g.index i j < g.m_width * g.m_height := by
  rw [index_eq g hsz hi hj]
  exact mul_add_lt hi hj

/-- Distinct cells of the grid have distinct storage indices. -/
theorem index_inj (g : Grid α) (hsz : g.m_width * g.m_height < sizeMod) {i j i' j' : Nat}
    (hi : i < g.m_width) (hj : j < g.m_height) (hi' : i' < g.m_width) (hj' : j' < g.m_height)
    (h : g.index i j = g.index i' j') : i = i' ∧ j = j' := by
  rw [index_eq g hsz hi hj, index_eq g hsz hi' hj'] at h
  have hw : 0 < g.m_width := by omega
  have h1 : (j * g.m_width + i) % g.m_width = i := by
    rw [Nat.mul_add_mod_of_lt hi]
  have h2 : (j' * g.m_width + i') % g.m_width = i' := by
    rw [Nat.mul_add_mod_of_lt hi']
  have hii : i = i' := by rw [← h1, ← h2, h]
  subst hii
  have hjj : j * g.m_width = j' * g.m_width := by omega
  exact ⟨rfl, Nat.eq_of_mul_eq_mul_right hw hjj⟩

end WellFormedness

/-! ## What `update` does to its cell -/

section UpdateAt

theorem width_lt_sizeMod (g : Grid α) (hsz : g.m_width * g.m_height < sizeMod) {j : Nat}
    (hj : j < g.m_height) : g.m_width < sizeMod := by
  have h1 : 1 ≤ g.m_height := by omega
  calc g.m_width = g.m_width * 1 := (Nat.mul_one _).symm
    _ ≤ g.m_width * g.m_height := Nat.mul_le_mul_left _ h1
    _ < sizeMod := hsz

theorem height_lt_sizeMod (g : Grid α) (hsz : g.m_width * g.m_height < sizeMod) {i : Nat}
    (hi : i < g.m_width) : g.m_height < sizeMod := by
  have h1 : 1 ≤ g.m_width := by omega
  calc g.m_height = 1 * g.m_height := (Nat.one_mul _).symm
    _ ≤ g.m_width * g.m_height := Nat.mul_le_mul_right _ h1
    _ < sizeMod := hsz

/-- The offset that `update` computes for a cell of the grid. -/
theorem update_offset (g : Grid α) (hsz : g.m_width * g.m_height < sizeMod) {i j : Nat}
    (hi : i < g.m_width) (hj : j < g.m_height) :
    g.index (toSizeT (i : Int)) (toSizeT (j : Int)) = g.index i j := by
  rw [toSizeT_natCast i (lt_trans hi (width_lt_sizeMod g hsz hj)),
    toSizeT_natCast j (lt_trans hj (height_lt_sizeMod g hsz hi))]

theorem wf_shape_min {g : Grid α} (hwf : g.WellFormed) (h : g.m_min.isSome = true) :
    shape g.m_min = some (g.m_width * g.m_height) := shape_of_isSome hwf.min_shape h

theorem wf_shape_max {g : Grid α} (hwf : g.WellFormed) (h : g.m_max.isSome = true) :
    shape g.m_max = some (g.m_width * g.m_height) := shape_of_isSome hwf.max_shape h

theorem wf_shape_stdDev {g : Grid α} (hwf : g.WellFormed) (h : g.m_stdDev.isSome = true) :
    shape g.m_stdDev = some (g.m_width * g.m_height) := shape_of_isSome hwf.stdDev_shape h

theorem wf_shape_idw {g : Grid α} (hwf : g.WellFormed) (h : g.m_idw.isSome = true) :
    shape g.m_idw = some (g.m_width * g.m_height) := shape_of_isSome hwf.idw_shape h

theorem wf_shape_mean {g : Grid α} (hwf : g.WellFormed) (h : g.m_mean.isSome = true) :
    shape g.m_mean = some (g.m_width * g.m_height) := by
  exact shape_of_isSome hwf.mean_shape h

theorem wf_stdDev_flag {g : Grid α} (hwf : g.WellFormed) (h : g.m_stdDev.isSome = true) :
    hasFlag g.m_outputTypes statStdDev = true := by
  have hs := hwf.stdDev_shape
  rw [← shape_isSome] at h
  by_contra hc
  rw [hs, if_neg hc] at h
  simp at h

theorem wf_idw_flag {g : Grid α} (hwf : g.WellFormed) (h : g.m_idw.isSome = true) :
    hasFlag g.m_outputTypes statIdw = true := by
  have hs := hwf.idw_shape
  rw [← shape_isSome] at h
  by_contra hc
  rw [hs, if_neg hc] at h
  simp at h

theorem wf_mean_of_stdDev {g : Grid α} (hwf : g.WellFormed) (h : g.m_stdDev.isSome = true) :
    shape g.m_mean = some (g.m_width * g.m_height) := by
  rw [hwf.mean_shape, wf_stdDev_flag hwf h, Bool.or_true, if_pos rfl]

theorem wf_idwDist_of_idw {g : Grid α} (hwf : g.WellFormed) (h : g.m_idw.isSome = true) :
    shape g.m_idwDist = some (g.m_width * g.m_height) := by
  rw [hwf.idwDist_shape, if_pos (wf_idw_flag hwf h)]

theorem isSome_of_shape {p : DataPtr α} {n : Nat} (h : shape p = some n) : p.isSome = true := by
  rw [← shape_isSome, h]
  rfl

variable (g : Grid α) (hwf : g.WellFormed) {i j : Nat} (hi : i < g.m_width)
  (hj : j < g.m_height) (val dist : α)

include hwf hi hj

theorem update_count_at :
    (g.update i j val dist).m_count.getD (g.index i j) 0 = g.m_count.getD (g.index i j) 0 + 1 := by
  simp only [Grid.update, update_offset g hwf.size_lt hi hj]
  apply getD_set_same
  rw [hwf.count_len]
  exact index_lt g hwf.size_lt hi hj

theorem update_min_at (h : g.m_min.isSome = true) :
    rd (g.update i j val dist).m_min (g.index i j) = stdMin val (rd g.m_min (g.index i j)) := by
  simp only [Grid.update, update_offset g hwf.size_lt hi hj, ite_isSome_wr]
  exact rd_wr_same _ _ _ _ (wf_shape_min hwf h) (index_lt g hwf.size_lt hi hj)

theorem update_max_at (h : g.m_max.isSome = true) :
    rd (g.update i j val dist).m_max (g.index i j) = stdMax val (rd g.m_max (g.index i j)) := by
  simp only [Grid.update, update_offset g hwf.size_lt hi hj, ite_isSome_wr]
  exact rd_wr_same _ _ _ _ (wf_shape_max hwf h) (index_lt g hwf.size_lt hi hj)

theorem update_mean_at (h : g.m_stdDev.isSome = true) :
    rd (g.update i j val dist).m_mean (g.index i j) =
      rd g.m_mean (g.index i j) +
        (val - rd g.m_mean (g.index i j)) / (g.m_count.getD (g.index i j) 0 + 1) := by
  have hm := wf_mean_of_stdDev hwf h
  simp only [Grid.update, update_offset g hwf.size_lt hi hj, isSome_of_shape hm, h,
    Bool.and_self, if_true]
  exact rd_wr_same _ _ _ _ hm (index_lt g hwf.size_lt hi hj)

theorem update_stdDev_at (h : g.m_stdDev.isSome = true) :
    rd (g.update i j val dist).m_stdDev (g.index i j) =
      rd g.m_stdDev (g.index i j) +
        (val - rd g.m_mean (g.index i j)) *
          (val - (rd g.m_mean (g.index i j) +
            (val - rd g.m_mean (g.index i j)) / (g.m_count.getD (g.index i j) 0 + 1))) := by
  have hm := wf_mean_of_stdDev hwf h
  simp only [Grid.update, update_offset g hwf.size_lt hi hj, isSome_of_shape hm, h,
    Bool.and_self, if_true]
  exact rd_wr_same _ _ _ _ (wf_shape_stdDev hwf h) (index_lt g hwf.size_lt hi hj)

theorem update_idw_at (h : g.m_idw.isSome = true) :
    rd (g.update i j val dist).m_idw (g.index i j) = rd g.m_idw (g.index i j) + val / dist := by
  simp only [Grid.update, update_offset g hwf.size_lt hi hj, ite_isSome_wr]
  exact rd_wr_same _ _ _ _ (wf_shape_idw hwf h) (index_lt g hwf.size_lt hi hj)

theorem update_idwDist_at (h : g.m_idw.isSome = true) :
    rd (g.update i j val dist).m_idwDist (g.index i j) =
      rd g.m_idwDist (g.index i j) + 1 / dist := by
  simp only [Grid.update, update_offset g hwf.size_lt hi hj, h, if_true]
  exact rd_wr_same _ _ _ _ (wf_idwDist_of_idw hwf h) (index_lt g hwf.size_lt hi hj)

end UpdateAt

section FinalizeNonEmpty

/-- The accumulators of a non-empty cell after `finalize`: `min`, `max` and `mean` are kept,
`stdDev` and `idw` are normalised. -/
theorem finalize_cell (sqrt : α → α) (g : Grid α) (idx : Nat) (hwf : g.WellFormed)
    (hidx : idx < g.m_width * g.m_height) (hne : g.empty idx = false) :
    (g.finalize sqrt).cell idx =
      (rd g.m_min idx, rd g.m_max idx, rd g.m_mean idx,
        (if g.m_stdDev.isSome = true then sqrt (rd g.m_stdDev idx / g.m_count.getD idx 0)
          else rd g.m_stdDev idx),
        (if g.m_idw.isSome = true then rd g.m_idw idx / rd g.m_idwDist idx else rd g.m_idw idx),
        rd g.m_idwDist idx) := by
  have hlen : idx < g.m_count.length := by rw [hwf.count_len]; exact hidx
  -- first loop
  have h1 : Grid.Same g (if g.m_stdDev.isSome = true then g.finalizeStdDev sqrt else g) ∧
      (if g.m_stdDev.isSome = true then g.finalizeStdDev sqrt else g).cell idx =
        (rd g.m_min idx, rd g.m_max idx, rd g.m_mean idx,
          (if g.m_stdDev.isSome = true then sqrt (rd g.m_stdDev idx / g.m_count.getD idx 0)
            else rd g.m_stdDev idx), rd g.m_idw idx, rd g.m_idwDist idx) := by
    by_cases hs : g.m_stdDev.isSome = true
    · rw [if_pos hs, if_pos hs]
      exact ⟨finalizeStdDev_same sqrt g,
        finalizeStdDev_cell sqrt g idx _ hlen (wf_shape_stdDev hwf hs) hidx hne⟩
    · rw [if_neg hs, if_neg hs]
      exact ⟨Grid.Same.refl_same g, rfl⟩
  simp only [Grid.finalize]
  generalize (if g.m_stdDev.isSome = true then g.finalizeStdDev sqrt else g) = g1 at h1
  obtain ⟨hs1, hc1⟩ := h1
  have hwf1 : g1.WellFormed := wellFormed_of_layout hs1.1 hwf
  have hw1 := layout_width hs1.1
  have hh1 := layout_height hs1.1
  have hne1 : g1.empty idx = false := by rw [same_empty hs1, hne]
  have hlen1 : idx < g1.m_count.length := by rw [layout_count_length hs1.1]; exact hlen
  have hidx1 : idx < g1.m_width * g1.m_height := by rw [hw1, hh1]; exact hidx
  have hidw1 : g1.m_idw.isSome = g.m_idw.isSome := isSome_of_shape_eq (layout_shapes hs1.1).2.2.2.2.1
  have hc1' := hc1
  simp only [Grid.cell, Prod.mk.injEq] at hc1'
  -- second loop
  have h2 : Grid.Same g1 (if g1.m_idw.isSome = true then g1.finalizeIdw else g1) ∧
      (if g1.m_idw.isSome = true then g1.finalizeIdw else g1).cell idx =
        (rd g.m_min idx, rd g.m_max idx, rd g.m_mean idx,
          (if g.m_stdDev.isSome = true then sqrt (rd g.m_stdDev idx / g.m_count.getD idx 0)
            else rd g.m_stdDev idx),
          (if g.m_idw.isSome = true then rd g.m_idw idx / rd g.m_idwDist idx
            else rd g.m_idw idx), rd g.m_idwDist idx) := by
    by_cases hs : g1.m_idw.isSome = true
    · have hg : g.m_idw.isSome = true := by rw [← hidw1]; exact hs
      rw [if_pos hs, if_pos hg]
      refine ⟨finalizeIdw_same g1, ?_⟩
      rw [finalizeIdw_cell g1 idx _ hlen1 (wf_shape_idw hwf1 hs) hidx1 hne1]
      rw [hc1'.1, hc1'.2.1, hc1'.2.2.1, hc1'.2.2.2.1, hc1'.2.2.2.2.1, hc1'.2.2.2.2.2]
    · have hg : ¬ g.m_idw.isSome = true := by rw [← hidw1]; exact hs
      rw [if_neg hs, if_neg hg]
      exact ⟨Grid.Same.refl_same g1, hc1⟩
  generalize (if g1.m_idw.isSome = true then g1.finalizeIdw else g1) = g2 at h2
  obtain ⟨hs2, hc2⟩ := h2
  have hne2 : g2.empty idx = false := by rw [same_empty hs2, hne1]
  -- gap filling
  split
  · rw [(windowFill_keeps g2 idx hne2).2.2, hc2]
  · rw [(finalizeNodata_keeps g2 idx hne2).2.2, hc2]

end FinalizeNonEmpty

/-! ## Sequences of updates of one cell -/

section Updates

theorem updates_nil (g : Grid α) (i j : Int) : g.updates i j [] = g := rfl

theorem updates_cons (g : Grid α) (i j : Int) (p : α × α) (vs : List (α × α)) :
    g.updates i j (p :: vs) = (g.update i j p.1 p.2).updates i j vs := rfl

theorem layout_updates (g : Grid α) (i j : Int) (vs : List (α × α)) :
    (g.updates i j vs).layout = g.layout := by
  induction vs generalizing g with
  | nil => rfl
  | cons p vs ih => rw [updates_cons, ih, layout_update]

theorem data_count (g : Grid α) (h : hasFlag g.m_outputTypes statCount = true) :
    g.data "count" = some g.m_count := by
  simp [Grid.data, h]

theorem data_min (g : Grid α) (h : hasFlag g.m_outputTypes statMin = true) :
    g.data "min" = g.m_min := by
  simp [Grid.data, h]

theorem data_max (g : Grid α) (h : hasFlag g.m_outputTypes statMax = true) :
    g.data "max" = g.m_max := by
  simp [Grid.data, h]

theorem data_mean (g : Grid α) (h : hasFlag g.m_outputTypes statMean = true) :
    g.data "mean" = g.m_mean := by
  simp [Grid.data, h]

theorem data_idw (g : Grid α) (h : hasFlag g.m_outputTypes statIdw = true) :
    g.data "idw" = g.m_idw := by
  simp [Grid.data, h]

theorem data_stdev (g : Grid α) (h : hasFlag g.m_outputTypes statStdDev = true) :
    g.data "stdev" = g.m_stdDev := by
  simp [Grid.data, h]

theorem stdMin_le_left (a b : α) : stdMin a b ≤ a := by
  simp only [stdMin]
  split
  · exact le_of_lt ‹_›
  · exact le_refl a

theorem stdMin_le_right (a b : α) : stdMin a b ≤ b := by
  simp only [stdMin]
  split
  · exact le_refl b
  · exact not_lt.mp ‹_›

theorem left_le_stdMax (a b : α) : a ≤ stdMax a b := by
  simp only [stdMax]
  split
  · exact le_of_lt ‹_›
  · exact le_refl a

theorem right_le_stdMax (a b : α) : b ≤ stdMax a b := by
  simp only [stdMax]
  split
  · exact le_refl b
  · exact not_lt.mp ‹_›

variable (g : Grid α) (hwf : g.WellFormed) {i j : Nat} (hi : i < g.m_width)
  (hj : j < g.m_height)

include hwf hi hj

theorem updates_count_at (vs : List (α × α)) :
    (g.updates i j vs).m_count.getD (g.index i j) 0 =
      g.m_count.getD (g.index i j) 0 + (vs.length : α) := by
  induction vs generalizing g with
  | nil => simp [updates_nil]
  | cons p vs ih =>
    have hl := layout_update g i j p.1 p.2
    have hw := layout_width hl
    have hh := layout_height hl
    have hx := layout_index hl i j
    rw [updates_cons]
    have := ih (g.update i j p.1 p.2) (wellFormed_of_layout hl hwf) (by rw [hw]; exact hi)
      (by rw [hh]; exact hj)
    rw [hx] at this
    rw [this, update_count_at g hwf hi hj]
    simp only [List.length_cons]
    push_cast
    ring

/-- Running extrema: after a sequence of updates of one cell, `min` is below and `max` is above
every value of the sequence. -/
theorem updates_min_max (hmin : g.m_min.isSome = true) (hmax : g.m_max.isSome = true)
    (vs : List (α × α)) :
    rd (g.updates i j vs).m_min (g.index i j) ≤ rd g.m_min (g.index i j) ∧
      rd g.m_max (g.index i j) ≤ rd (g.updates i j vs).m_max (g.index i j) ∧
      ∀ p ∈ vs, rd (g.updates i j vs).m_min (g.index i j) ≤ p.1 ∧
        p.1 ≤ rd (g.updates i j vs).m_max (g.index i j) := by
  induction vs generalizing g with
  | nil =>
    refine ⟨le_refl _, le_refl _, ?_⟩
    intro p hp
    simp at hp
  | cons p vs ih =>
    have hl := layout_update g i j p.1 p.2
    have hw := layout_width hl
    have hh := layout_height hl
    have hx := layout_index hl i j
    have hs := layout_shapes hl
    rw [updates_cons]
    have := ih (g.update i j p.1 p.2) (wellFormed_of_layout hl hwf) (by rw [hw]; exact hi)
      (by rw [hh]; exact hj) (by rw [isSome_of_shape_eq hs.1]; exact hmin)
      (by rw [isSome_of_shape_eq hs.2.1]; exact hmax)
    rw [hx, update_min_at g hwf hi hj p.1 p.2 hmin, update_max_at g hwf hi hj p.1 p.2 hmax] at this
    obtain ⟨h1, h2, h3⟩ := this
    refine ⟨le_trans h1 (stdMin_le_right _ _), le_trans (right_le_stdMax _ _) h2, ?_⟩
    intro q hq
    rcases List.mem_cons.mp hq with rfl | hq
    · exact ⟨le_trans h1 (stdMin_le_left _ _), le_trans (left_le_stdMax _ _) h2⟩
    · exact h3 q hq

end Updates

/-! ## One cell of a fresh grid -/

section FreshCell

theorem getD_replicate_zero (n idx : Nat) : (List.replicate n (0 : α)).getD idx 0 = 0 := by
  simp only [List.getD_eq_getElem?_getD, List.getElem?_replicate]
  split <;> rfl

theorem construct_count (width height : Nat) (edgeLength radius noData : α) (outputTypes : Int)
    (windowSize idx : Nat) :
    (Grid.construct width height edgeLength radius noData outputTypes windowSize).m_count.getD
      idx 0 = 0 := by
  simp only [Grid.construct]
  exact getD_replicate_zero _ _

theorem layout_finalize (sqrt : α → α) (g : Grid α) : (g.finalize sqrt).layout = g.layout :=
  (finalize_same sqrt g).1

/-- After a non-empty sequence of updates of one cell of a fresh grid and `finalize`: the layout
is that of the fresh grid, the count of the cell is the length of the sequence, and the other
accumulators of the cell are those of `finalize_cell`. -/
theorem fresh_updates_finalize (sqrt : α → α) (width height : Nat)
    (edgeLength radius noData : α) (outputTypes : Int) (windowSize : Nat) (i j : Nat)
    (vs : List (α × α)) (hsz : width * height < sizeMod) (hi : i < width) (hj : j < height)
    (hne : vs ≠ []) (g0 gU gF : Grid α)
    (h0 : g0 = Grid.construct width height edgeLength radius noData outputTypes windowSize)
    (hU : gU = g0.updates i j vs) (hF : gF = gU.finalize sqrt) :
    g0.WellFormed ∧ gU.WellFormed ∧ gU.layout = g0.layout ∧ gF.layout = g0.layout ∧
      gF.index i j = g0.index i j ∧ gU.m_count.getD (g0.index i j) 0 = (vs.length : α) ∧
      gF.m_count = gU.m_count ∧
      gF.cell (g0.index i j) =
        (rd gU.m_min (g0.index i j), rd gU.m_max (g0.index i j), rd gU.m_mean (g0.index i j),
          (if gU.m_stdDev.isSome = true then
              sqrt (rd gU.m_stdDev (g0.index i j) / gU.m_count.getD (g0.index i j) 0)
            else rd gU.m_stdDev (g0.index i j)),
          (if gU.m_idw.isSome = true then
              rd gU.m_idw (g0.index i j) / rd gU.m_idwDist (g0.index i j)
            else rd gU.m_idw (g0.index i j)),
          rd gU.m_idwDist (g0.index i j)) := by
  have hwf0 : g0.WellFormed := by rw [h0]; exact construct_wellFormed _ _ _ _ _ _ _ hsz
  have hw0 : g0.m_width = width := by rw [h0]; rfl
  have hh0 : g0.m_height = height := by rw [h0]; rfl
  have hi0 : i < g0.m_width := by rw [hw0]; exact hi
  have hj0 : j < g0.m_height := by rw [hh0]; exact hj
  have hlU : gU.layout = g0.layout := by rw [hU]; exact layout_updates g0 i j vs
  have hwfU : gU.WellFormed := wellFormed_of_layout hlU hwf0
  have hlF : gF.layout = gU.layout := by rw [hF]; exact layout_finalize sqrt gU
  have hcount : gU.m_count.getD (g0.index i j) 0 = (vs.length : α) := by
    rw [hU, updates_count_at g0 hwf0 hi0 hj0 vs, h0, construct_count, zero_add]
  have hpos : (0 : α) < (vs.length : α) := by
    have : 0 < vs.length := List.length_pos.mpr hne
    exact_mod_cast this
  have hnonempty : gU.empty (g0.index i j) = false := by
    simp only [Grid.empty, hcount, decide_eq_false_iff_not, not_le]
    exact hpos
  have hidx : g0.index i j < gU.m_width * gU.m_height := by
    rw [layout_width hlU, layout_height hlU]
    exact index_lt g0 hwf0.size_lt hi0 hj0
  refine ⟨hwf0, hwfU, hlU, hlF.trans hlU, ?_, hcount, ?_, ?_⟩
  · exact layout_index (hlF.trans hlU) i j
  · rw [hF]; exact finalize_count sqrt gU
  · rw [hF]; exact finalize_cell sqrt gU _ hwfU hidx hnonempty

end FreshCell

/-! ## Welford's update -/

section Welford

theorem updates_append_singleton (g : Grid α) (i j : Int) (vs : List (α × α)) (p : α × α) :
    g.updates i j (vs ++ [p]) = (g.updates i j vs).update i j p.1 p.2 := by
  simp only [Grid.updates, List.foldl_append, List.foldl_cons, List.foldl_nil]

theorem wf_isSome_min {g : Grid α} (hwf : g.WellFormed)
    (h : hasFlag g.m_outputTypes statMin = true) : g.m_min.isSome = true := by
  apply isSome_of_shape
  rw [hwf.min_shape, if_pos h]

theorem wf_isSome_max {g : Grid α} (hwf : g.WellFormed)
    (h : hasFlag g.m_outputTypes statMax = true) : g.m_max.isSome = true := by
  apply isSome_of_shape
  rw [hwf.max_shape, if_pos h]

theorem wf_isSome_stdDev {g : Grid α} (hwf : g.WellFormed)
    (h : hasFlag g.m_outputTypes statStdDev = true) : g.m_stdDev.isSome = true := by
  apply isSome_of_shape
  rw [hwf.stdDev_shape, if_pos h]

theorem wf_isSome_idw {g : Grid α} (hwf : g.WellFormed)
    (h : hasFlag g.m_outputTypes statIdw = true) : g.m_idw.isSome = true := by
  apply isSome_of_shape
  rw [hwf.idw_shape, if_pos h]

theorem construct_rd_zero (width height : Nat) (edgeLength radius noData : α)
    (outputTypes : Int) (windowSize idx : Nat) :
    rd (Grid.construct width height edgeLength radius noData outputTypes windowSize).m_mean idx
        = 0 ∧
      rd (Grid.construct width height edgeLength radius noData outputTypes windowSize).m_stdDev
        idx = 0 ∧
      rd (Grid.construct width height edgeLength radius noData outputTypes windowSize).m_idw idx
        = 0 ∧
      rd (Grid.construct width height edgeLength radius noData outputTypes windowSize).m_idwDist
        idx = 0 := by
  simp only [Grid.construct]
  refine ⟨?_, ?_, ?_, ?_⟩ <;> split <;> first
    | exact getD_replicate_zero _ _
    | rfl

/-- Sum of squared deviations from `m`, expanded. -/
theorem sum_sq_dev (vs : List (α × α)) (m : α) :
    (vs.map (fun p => (p.1 - m) ^ 2)).sum =
      (vs.map (fun p => p.1 ^ 2)).sum - 2 * m * (vs.map (fun p => p.1)).sum +
        (vs.length : α) * m ^ 2 := by
  induction vs with
  | nil => simp
  | cons p vs ih =>
    simp only [List.map_cons, List.sum_cons, List.length_cons, ih]
    push_cast
    ring

/-- Invariant of Welford's update on one cell of a fresh grid with `stdDev` requested. -/
theorem updates_welford (width height : Nat) (edgeLength radius noData : α) (outputTypes : Int)
    (windowSize : Nat) (i j : Nat) (hsz : width * height < sizeMod) (hi : i < width)
    (hj : j < height) (hsd : hasFlag outputTypes statStdDev = true) (vs : List (α × α))
    (g0 : Grid α)
    (h0 : g0 = Grid.construct width height edgeLength radius noData outputTypes windowSize) :
    (vs.length : α) * rd (g0.updates i j vs).m_mean (g0.index i j)
        = (vs.map (fun p => p.1)).sum ∧
      rd (g0.updates i j vs).m_stdDev (g0.index i j) =
        (vs.map (fun p => p.1 ^ 2)).sum -
          (vs.length : α) * rd (g0.updates i j vs).m_mean (g0.index i j) ^ 2 := by
  have hwf0 : g0.WellFormed := by rw [h0]; exact construct_wellFormed _ _ _ _ _ _ _ hsz
  have hi0 : i < g0.m_width := by rw [h0]; exact hi
  have hj0 : j < g0.m_height := by rw [h0]; exact hj
  induction vs using List.reverseRecOn with
  | nil =>
    have hz := construct_rd_zero width height edgeLength radius noData outputTypes windowSize
      (g0.index i j)
    rw [← h0] at hz
    simp [updates_nil, hz.2.1]
  | append_singleton vs p ih =>
    obtain ⟨ih1, ih2⟩ := ih
    have hl := layout_updates g0 i j vs
    have hwf : (g0.updates i j vs).WellFormed := wellFormed_of_layout hl hwf0
    have hiU : i < (g0.updates i j vs).m_width := by rw [layout_width hl]; exact hi0
    have hjU : j < (g0.updates i j vs).m_height := by rw [layout_height hl]; exact hj0
    have hx := layout_index hl i j
    have hsdU : (g0.updates i j vs).m_stdDev.isSome = true := by
      apply wf_isSome_stdDev hwf
      rw [(layout_config hl).2.2.2.2, h0]
      exact hsd
    have hc := updates_count_at g0 hwf0 hi0 hj0 vs
    rw [h0, construct_count, zero_add, ← h0] at hc
    have hm := update_mean_at _ hwf hiU hjU p.1 p.2 hsdU
    have hs := update_stdDev_at _ hwf hiU hjU p.1 p.2 hsdU
    rw [hx, hc] at hm hs
    rw [updates_append_singleton, hm, hs, ih2]
    have hn : ((vs.length : α) + 1) ≠ 0 := by positivity
    simp only [List.map_append, List.map_cons, List.map_nil, List.sum_append, List.sum_cons,
      List.sum_nil, add_zero, List.length_append, List.length_singleton]
    push_cast
    rw [← ih1]
    generalize rd (g0.updates i j vs).m_mean (g0.index i j) = a
    generalize (List.map (fun p : α × α => p.1 ^ 2) vs).sum = Q
    generalize (vs.length : α) = n at hn
    constructor
    · field_simp
      ring
    · field_simp
      ring

end Welford

section Idw

/-- The IDW accumulators of one cell of a fresh grid after a sequence of updates. -/
theorem updates_idw (width height : Nat) (edgeLength radius noData : α) (outputTypes : Int)
    (windowSize : Nat) (i j : Nat) (hsz : width * height < sizeMod) (hi : i < width)
    (hj : j < height) (hidw : hasFlag outputTypes statIdw = true) (vs : List (α × α))
    (g0 : Grid α)
    (h0 : g0 = Grid.construct width height edgeLength radius noData outputTypes windowSize) :
    rd (g0.updates i j vs).m_idw (g0.index i j) = (vs.map (fun p => p.1 / p.2)).sum ∧
      rd (g0.updates i j vs).m_idwDist (g0.index i j) = (vs.map (fun p => 1 / p.2)).sum := by
  have hwf0 : g0.WellFormed := by rw [h0]; exact construct_wellFormed _ _ _ _ _ _ _ hsz
  have hi0 : i < g0.m_width := by rw [h0]; exact hi
  have hj0 : j < g0.m_height := by rw [h0]; exact hj
  induction vs using List.reverseRecOn with
  | nil =>
    have hz := construct_rd_zero width height edgeLength radius noData outputTypes windowSize
      (g0.index i j)
    rw [← h0] at hz
    simp [updates_nil, hz.2.2.1, hz.2.2.2]
  | append_singleton vs p ih =>
    obtain ⟨ih1, ih2⟩ := ih
    have hl := layout_updates g0 i j vs
    have hwf : (g0.updates i j vs).WellFormed := wellFormed_of_layout hl hwf0
    have hiU : i < (g0.updates i j vs).m_width := by rw [layout_width hl]; exact hi0
    have hjU : j < (g0.updates i j vs).m_height := by rw [layout_height hl]; exact hj0
    have hx := layout_index hl i j
    have hidwU : (g0.updates i j vs).m_idw.isSome = true := by
      apply wf_isSome_idw hwf
      rw [(layout_config hl).2.2.2.2, h0]
      exact hidw
    have h1 := update_idw_at _ hwf hiU hjU p.1 p.2 hidwU
    have h2 := update_idwDist_at _ hwf hiU hjU p.1 p.2 hidwU
    rw [hx] at h1 h2
    rw [updates_append_singleton, h1, h2, ih1, ih2]
    simp only [List.map_append, List.map_cons, List.map_nil, List.sum_append, List.sum_cons,
      List.sum_nil, add_zero, and_self]

end Idw

/-! ## Claims C2, C3, C4 -/

section ClaimsOneCell

/-- C2.  Welford's update: on a fresh grid with `stdDev` requested, after `update` has been
applied to one cell with the values of a non-empty list, the `mean` accumulator of the cell is
the arithmetic mean of the values and its `stdDev` accumulator is the sum of their squared
deviations from that mean; `finalize` keeps the mean and turns `stdDev` into the square root
of that sum divided by the number of values (the population standard deviation). -/
theorem C2_welford_mean_stdDev (sqrt : α → α) (width height : Nat)
    (edgeLength radius noData : α) (outputTypes : Int) (windowSize : Nat) (i j : Nat)
    (vs : List (α × α)) (hsz : width * height < sizeMod) (hi : i < width) (hj : j < height)
    (hsd : hasFlag outputTypes statStdDev = true) (hne : vs ≠ []) :
    rd ((Grid.construct width height edgeLength radius noData outputTypes windowSize).updates
        i j vs).m_mean (j * width + i) = (vs.map (fun p => p.1)).sum / (vs.length : α) ∧
      rd ((Grid.construct width height edgeLength radius noData outputTypes windowSize).updates
        i j vs).m_stdDev (j * width + i) =
        (vs.map (fun p => (p.1 - (vs.map (fun p => p.1)).sum / (vs.length : α)) ^ 2)).sum ∧
      rd (((Grid.construct width height edgeLength radius noData outputTypes windowSize).updates
        i j vs).finalize sqrt).m_mean (j * width + i) =
        (vs.map (fun p => p.1)).sum / (vs.length : α) ∧
      (((Grid.construct width height edgeLength radius noData outputTypes windowSize).updates
        i j vs).finalize sqrt).stat "stdev" i j =
        sqrt ((vs.map (fun p => (p.1 - (vs.map (fun p => p.1)).sum / (vs.length : α)) ^ 2)).sum
          / (vs.length : α)) := by
  obtain ⟨hwf0, hwfU, hlU, hlF, hxF, hcount, _, hcell⟩ :=
    fresh_updates_finalize sqrt width height edgeLength radius noData outputTypes windowSize i j
      vs hsz hi hj hne _ _ _ rfl rfl rfl
  obtain ⟨hw1, hw2⟩ := updates_welford width height edgeLength radius noData outputTypes
    windowSize i j hsz hi hj hsd vs _ rfl
  have hidx : (Grid.construct width height edgeLength radius noData outputTypes
      windowSize).index i j = j * width + i := index_eq _ hwf0.size_lt hi hj
  rw [hidx] at hw1 hw2 hcount hcell hxF
  have hn : (vs.length : α) ≠ 0 := by
    have : 0 < vs.length := List.length_pos.mpr hne
    positivity
  have hmean : rd ((Grid.construct width height edgeLength radius noData outputTypes
      windowSize).updates i j vs).m_mean (j * width + i) =
      (vs.map (fun p => p.1)).sum / (vs.length : α) := by
    rw [← hw1]
    field_simp
  have hM2 : rd ((Grid.construct width height edgeLength radius noData outputTypes
      windowSize).updates i j vs).m_stdDev (j * width + i) =
      (vs.map (fun p => (p.1 - (vs.map (fun p => p.1)).sum / (vs.length : α)) ^ 2)).sum := by
    rw [sum_sq_dev, hw2, hmean]
    field_simp
    ring
  have hsdU : ((Grid.construct width height edgeLength radius noData outputTypes
      windowSize).updates i j vs).m_stdDev.isSome = true := by
    apply wf_isSome_stdDev hwfU
    rw [(layout_config hlU).2.2.2.2]
    exact hsd
  have hcell' := hcell
  simp only [Grid.cell, Prod.mk.injEq] at hcell'
  refine ⟨hmean, hM2, ?_, ?_⟩
  · rw [hcell'.2.2.1, hmean]
  · have hflag : hasFlag (((Grid.construct width height edgeLength radius noData outputTypes
        windowSize).updates i j vs).finalize sqrt).m_outputTypes statStdDev = true := by
      rw [(layout_config hlF).2.2.2.2]
      exact hsd
    rw [Grid.stat, data_stdev _ hflag, hxF, hcell'.2.2.2.1, if_pos hsdU, hM2, hcount]

/-- C3.  IDW normalisation: on a fresh grid with `idw` requested, after `update` has been
applied to one cell with the (value, distance) pairs of a non-empty list, all distances
positive, and after `finalize`, the `idw` of the cell is the sum of the `value / distance`
divided by the sum of the `1 / distance`. -/
theorem C3_idw_normalisation (sqrt : α → α) (width height : Nat)
    (edgeLength radius noData : α) (outputTypes : Int) (windowSize : Nat) (i j : Nat)
    (vs : List (α × α)) (hsz : width * height < sizeMod) (hi : i < width) (hj : j < height)
    (hidw : hasFlag outputTypes statIdw = true) (hne : vs ≠ []) (_hd : ∀ p ∈ vs, 0 < p.2) :
    (((Grid.construct width height edgeLength radius noData outputTypes windowSize).updates
        i j vs).finalize sqrt).stat "idw" i j =
      (vs.map (fun p => p.1 / p.2)).sum / (vs.map (fun p => 1 / p.2)).sum := by
  obtain ⟨hwf0, hwfU, hlU, hlF, hxF, _, _, hcell⟩ :=
    fresh_updates_finalize sqrt width height edgeLength radius noData outputTypes windowSize i j
      vs hsz hi hj hne _ _ _ rfl rfl rfl
  obtain ⟨h1, h2⟩ := updates_idw width height edgeLength radius noData outputTypes
    windowSize i j hsz hi hj hidw vs _ rfl
  have hidwU : ((Grid.construct width height edgeLength radius noData outputTypes
      windowSize).updates i j vs).m_idw.isSome = true := by
    apply wf_isSome_idw hwfU
    rw [(layout_config hlU).2.2.2.2]
    exact hidw
  have hflag : hasFlag (((Grid.construct width height edgeLength radius noData outputTypes
      windowSize).updates i j vs).finalize sqrt).m_outputTypes statIdw = true := by
    rw [(layout_config hlF).2.2.2.2]
    exact hidw
  simp only [Grid.cell, Prod.mk.injEq] at hcell
  rw [Grid.stat, data_idw _ hflag, hxF, hcell.2.2.2.2.1, if_pos hidwU, h1, h2]

/-- C4.  Bounds of the running extrema: on a fresh grid with `min` and `max` requested, after
`update` has been applied to one cell with the values of a list and after `finalize`, the `min`
of the cell is at most every value of the list and every value is at most its `max`. -/
theorem C4_min_max_bounds (sqrt : α → α) (width height : Nat)
    (edgeLength radius noData : α) (outputTypes : Int) (windowSize : Nat) (i j : Nat)
    (vs : List (α × α)) (hsz : width * height < sizeMod) (hi : i < width) (hj : j < height)
    (hmin : hasFlag outputTypes statMin = true) (hmax : hasFlag outputTypes statMax = true)
    (p : α × α) (hp : p ∈ vs) :
    (((Grid.construct width height edgeLength radius noData outputTypes windowSize).updates
        i j vs).finalize sqrt).stat "min" i j ≤ p.1 ∧
      p.1 ≤ (((Grid.construct width height edgeLength radius noData outputTypes
        windowSize).updates i j vs).finalize sqrt).stat "max" i j := by
  have hne : vs ≠ [] := List.ne_nil_of_mem hp
  obtain ⟨hwf0, hwfU, hlU, hlF, hxF, _, _, hcell⟩ :=
    fresh_updates_finalize sqrt width height edgeLength radius noData outputTypes windowSize i j
      vs hsz hi hj hne _ _ _ rfl rfl rfl
  have hfmin : hasFlag (((Grid.construct width height edgeLength radius noData outputTypes
      windowSize).updates i j vs).finalize sqrt).m_outputTypes statMin = true := by
    rw [(layout_config hlF).2.2.2.2]
    exact hmin
  have hfmax : hasFlag (((Grid.construct width height edgeLength radius noData outputTypes
      windowSize).updates i j vs).finalize sqrt).m_outputTypes statMax = true := by
    rw [(layout_config hlF).2.2.2.2]
    exact hmax
  have hb := (updates_min_max _ hwf0 hi hj (wf_isSome_min hwf0 hmin) (wf_isSome_max hwf0 hmax)
    vs).2.2 p hp
  simp only [Grid.cell, Prod.mk.injEq] at hcell
  rw [Grid.stat, Grid.stat, data_min _ hfmin, data_max _ hfmax, hxF, hcell.1, hcell.2.1]
  exact hb

end ClaimsOneCell

/-- Witness of C2: the values 1, 2, 3 give the mean 2 and the standard deviation `sqrt (2/3)`. -/
theorem C2_welford_witness :
    rd ((Grid.construct 1 1 (1 : ℝ) 1 0 63 0).updates (0 : Nat) (0 : Nat)
        [(1, 1), (2, 1), (3, 1)]).m_mean 0 = 2 ∧
      (((Grid.construct 1 1 (1 : ℝ) 1 0 63 0).updates (0 : Nat) (0 : Nat)
        [(1, 1), (2, 1), (3, 1)]).finalize Real.sqrt).stat "stdev" 0 0 = Real.sqrt (2 / 3) := by
  have h := C2_welford_mean_stdDev Real.sqrt 1 1 (1 : ℝ) 1 0 63 0 0 0 [(1, 1), (2, 1), (3, 1)]
    (by decide) (by decide) (by decide) (by decide) (by simp)
  constructor
  · exact h.1.trans (by norm_num)
  · exact h.2.2.2.trans (by congr 1; norm_num)

/-- Witness of C3: two contributions. -/
theorem C3_idw_witness :
    (((Grid.construct 1 1 (1 : ℚ) 1 0 63 0).updates (0 : Nat) (0 : Nat)
        [(10, 2), (20, 4)]).finalize (fun q => q)).stat "idw" 0 0 =
      (10 / 2 + 20 / 4) / (1 / 2 + 1 / 4) := by
  have h := C3_idw_normalisation (fun q : ℚ => q) 1 1 (1 : ℚ) 1 0 63 0 0 0 [(10, 2), (20, 4)]
    (by decide) (by decide) (by decide) (by decide) (by simp) (by simp)
  rw [h]
  simp

/-- Witness of C4. -/
theorem C4_min_max_witness :
    (((Grid.construct 1 1 (1 : ℚ) 1 0 63 0).updates (0 : Nat) (0 : Nat)
        [(3, 1), (5, 1)]).finalize (fun q => q)).stat "min" 0 0 ≤ 5 ∧
      (5 : ℚ) ≤ (((Grid.construct 1 1 (1 : ℚ) 1 0 63 0).updates (0 : Nat) (0 : Nat)
        [(3, 1), (5, 1)]).finalize (fun q => q)).stat "max" 0 0 :=
  C4_min_max_bounds (fun q : ℚ => q) 1 1 (1 : ℚ) 1 0 63 0 0 0 [(3, 1), (5, 1)]
    (by decide) (by decide) (by decide) (by decide) (by decide) (5, 1) (by simp)

/-! ## The quadrant loops of `addPoint` -/

section Quadrants

/-- Every property that `update` keeps on the cells of the first quadrant is kept by the first
quadrant loop. -/
theorem quadrant1_invariant (sqrt : α → α) (g : Grid α) (x y z : α) (iOrigin i j : Int)
    (P : Grid α → Prop) (J : Int)
    (hP : ∀ (t : Grid α) (a b : Int) (d : α), P t → iOrigin < a → a < (t.m_width : Int) →
      0 ≤ b → b ≤ J → P (t.update a b z d))
    (h0 : P g) (hi : iOrigin < i) (hj : j ≤ J) :
    P (g.quadrant1 sqrt x y z iOrigin i j) := by
  induction g, x, y, z, iOrigin, i, j using Grid.quadrant1.induct sqrt with
  | case1 g x y z iOrigin i j hc d hd ih =>
    rw [Grid.quadrant1, if_pos hc]
    simp only
    rw [if_pos hd]
    exact ih hP (hP g i j _ h0 hi hc.1 hc.2 hj) (by omega) hj
  | case2 g x y z iOrigin j hc d hd =>
    rw [Grid.quadrant1, if_pos hc]
    simp only
    rw [if_neg hd, if_pos trivial]
    exact h0
  | case3 g x y z iOrigin i j hc d hd hne ih =>
    rw [Grid.quadrant1, if_pos hc]
    simp only
    rw [if_neg hd, if_neg hne]
    exact ih hP h0 (by omega) (by omega)
  | case4 g x y z iOrigin i j hc =>
    rw [Grid.quadrant1, if_neg hc]
    exact h0





/-- Second quadrant loop: see `quadrant1_invariant`. -/
theorem quadrant2_invariant (sqrt : α → α) (g : Grid α) (x y z : α) (jOrigin i j : Int)
    (P : Grid α → Prop) (I : Int)
    (hP : ∀ (t : Grid α) (a b : Int) (d : α), P t → 0 ≤ a → a ≤ I →
      0 ≤ b → b < jOrigin → P (t.update a b z d))
    (h0 : P g) (hi : i ≤ I) (hj : j < jOrigin) :
    P (g.quadrant2 sqrt x y z jOrigin i j) := by
  induction g, x, y, z, jOrigin, i, j using Grid.quadrant2.induct sqrt with
  | case1 g x y z jOrigin i j hc d hd ih =>
    rw [Grid.quadrant2, if_pos hc]
    simp only
    rw [if_pos hd]
    exact ih hP (hP g i j _ h0 hc.1 hi hc.2 hj) hi (by omega)
  | case2 g x y z jOrigin i hc d hd =>
    rw [Grid.quadrant2, if_pos hc]
    simp only
    rw [if_neg hd, if_pos trivial]
    exact h0
  | case3 g x y z jOrigin i j hc d hd hne ih =>
    rw [Grid.quadrant2, if_pos hc]
    simp only
    rw [if_neg hd, if_neg hne]
    exact ih hP h0 (by omega) (by omega)
  | case4 g x y z jOrigin i j hc =>
    rw [Grid.quadrant2, if_neg hc]
    exact h0

/-- Third quadrant loop: see `quadrant1_invariant`. -/
theorem quadrant3_invariant (sqrt : α → α) (g : Grid α) (x y z : α) (iOrigin i j : Int)
    (P : Grid α → Prop) (J : Int)
    (hP : ∀ (t : Grid α) (a b : Int) (d : α), P t → 0 ≤ a → a < iOrigin →
      J ≤ b → b < (t.m_height : Int) → P (t.update a b z d))
    (h0 : P g) (hi : i < iOrigin) (hj : J ≤ j) :
    P (g.quadrant3 sqrt x y z iOrigin i j) := by
  induction g, x, y, z, iOrigin, i, j using Grid.quadrant3.induct sqrt with
  | case1 g x y z iOrigin i j hc d hd ih =>
    rw [Grid.quadrant3, if_pos hc]
    simp only
    rw [if_pos hd]
    exact ih hP (hP g i j _ h0 hc.1 hi hj hc.2) (by omega) hj
  | case2 g x y z iOrigin j hc d hd =>
    rw [Grid.quadrant3, if_pos hc]
    simp only
    rw [if_neg hd, if_pos trivial]
    exact h0
  | case3 g x y z iOrigin i j hc d hd hne ih =>
    rw [Grid.quadrant3, if_pos hc]
    simp only
    rw [if_neg hd, if_neg hne]
    exact ih hP h0 (by omega) (by omega)
  | case4 g x y z iOrigin i j hc =>
    rw [Grid.quadrant3, if_neg hc]
    exact h0

/-- Fourth quadrant loop: see `quadrant1_invariant`. -/
theorem quadrant4_invariant (sqrt : α → α) (g : Grid α) (x y z : α) (jOrigin i j : Int)
    (P : Grid α → Prop) (I : Int)
    (hP : ∀ (t : Grid α) (a b : Int) (d : α), P t → I ≤ a → a < (t.m_width : Int) →
      jOrigin < b → b < (t.m_height : Int) → P (t.update a b z d))
    (h0 : P g) (hi : I ≤ i) (hj : jOrigin < j) :
    P (g.quadrant4 sqrt x y z jOrigin i j) := by
  induction g, x, y, z, jOrigin, i, j using Grid.quadrant4.induct sqrt with
  | case1 g x y z jOrigin i j hc d hd ih =>
    rw [Grid.quadrant4, if_pos hc]
    simp only
    rw [if_pos hd]
    exact ih hP (hP g i j _ h0 hi hc.1 hj hc.2) hi (by omega)
  | case2 g x y z jOrigin i hc d hd =>
    rw [Grid.quadrant4, if_pos hc]
    simp only
    rw [if_neg hd, if_pos trivial]
    exact h0
  | case3 g x y z jOrigin i j hc d hd hne ih =>
    rw [Grid.quadrant4, if_pos hc]
    simp only
    rw [if_neg hd, if_neg hne]
    exact ih hP h0 (by omega) (by omega)
  | case4 g x y z jOrigin i j hc =>
    rw [Grid.quadrant4, if_neg hc]
    exact h0

/-- The four quadrant loops keep every property that `update` keeps on the cells of the grid
other than the origin cell, for an origin cell inside the grid. -/
theorem addPointWalks_invariant (sqrt : α → α) (g : Grid α) (x y z : α) (iOrigin jOrigin : Int)
    (P : Grid α → Prop) (hi0 : 0 ≤ iOrigin) (hiw : iOrigin < (g.m_width : Int))
    (hj0 : 0 ≤ jOrigin) (hjh : jOrigin < (g.m_height : Int))
    (hP : ∀ (t : Grid α) (a b : Int) (d : α), t.layout = g.layout → P t → 0 ≤ a →
      a < (g.m_width : Int) → 0 ≤ b → b < (g.m_height : Int) → (a ≠ iOrigin ∨ b ≠ jOrigin) →
      P (t.update a b z d))
    (h0 : P g) :
    (g.addPointWalks sqrt x y z iOrigin jOrigin).layout = g.layout ∧
      P (g.addPointWalks sqrt x y z iOrigin jOrigin) := by
  simp only [Grid.addPointWalks]
  apply quadrant4_invariant sqrt _ x y z jOrigin iOrigin (jOrigin + 1)
    (fun t => t.layout = g.layout ∧ P t) iOrigin
  · intro t a b d ht ha1 ha2 hb1 hb2
    rw [layout_width ht.1] at ha2
    rw [layout_height ht.1] at hb2
    exact ⟨(layout_update t a b z d).trans ht.1,
      hP t a b d ht.1 ht.2 (by omega) ha2 (by omega) hb2 (Or.inr (by omega))⟩
  · apply quadrant3_invariant sqrt _ x y z iOrigin (iOrigin - 1) jOrigin
      (fun t => t.layout = g.layout ∧ P t) jOrigin
    · intro t a b d ht ha1 ha2 hb1 hb2
      rw [layout_height ht.1] at hb2
      exact ⟨(layout_update t a b z d).trans ht.1,
        hP t a b d ht.1 ht.2 ha1 (by omega) (by omega) hb2 (Or.inl (by omega))⟩
    · apply quadrant2_invariant sqrt _ x y z jOrigin iOrigin (jOrigin - 1)
        (fun t => t.layout = g.layout ∧ P t) iOrigin
      · intro t a b d ht ha1 ha2 hb1 hb2
        exact ⟨(layout_update t a b z d).trans ht.1,
          hP t a b d ht.1 ht.2 ha1 (by omega) hb1 (by omega) (Or.inr (by omega))⟩
      · apply quadrant1_invariant sqrt _ x y z iOrigin (iOrigin + 1) jOrigin
          (fun t => t.layout = g.layout ∧ P t) jOrigin
        · intro t a b d ht ha1 ha2 hb1 hb2
          rw [layout_width ht.1] at ha2
          exact ⟨(layout_update t a b z d).trans ht.1,
            hP t a b d ht.1 ht.2 (by omega) ha2 hb1 (by omega) (Or.inl (by omega))⟩
        · exact ⟨rfl, h0⟩
        · omega
        · omega
      · omega
      · omega
    · omega
    · omega
  · omega
  · omega

/-- The four quadrant loops keep the layout, wherever the origin cell is. -/
theorem layout_addPointWalks (sqrt : α → α) (g : Grid α) (x y z : α) (iOrigin jOrigin : Int) :
    (g.addPointWalks sqrt x y z iOrigin jOrigin).layout = g.layout := by
  simp only [Grid.addPointWalks]
  apply quadrant4_invariant sqrt _ x y z jOrigin iOrigin (jOrigin + 1)
    (fun t => t.layout = g.layout) iOrigin
  · intro t a b d ht _ _ _ _
    exact (layout_update t a b z d).trans ht
  · apply quadrant3_invariant sqrt _ x y z iOrigin (iOrigin - 1) jOrigin
      (fun t => t.layout = g.layout) jOrigin
    · intro t a b d ht _ _ _ _
      exact (layout_update t a b z d).trans ht
    · apply quadrant2_invariant sqrt _ x y z jOrigin iOrigin (jOrigin - 1)
        (fun t => t.layout = g.layout) iOrigin
      · intro t a b d ht _ _ _ _
        exact (layout_update t a b z d).trans ht
      · apply quadrant1_invariant sqrt _ x y z iOrigin (iOrigin + 1) jOrigin
          (fun t => t.layout = g.layout) jOrigin
        · intro t a b d ht _ _ _ _
          exact (layout_update t a b z d).trans ht
        · rfl
        · omega
        · omega
      · omega
      · omega
    · omega
    · omega
  · omega
  · omega

theorem layout_addPoint (sqrt : α → α) (g : Grid α) (x y z : α) :
    (g.addPoint sqrt x y z).layout = g.layout := by
  simp only [Grid.addPoint]
  split
  · exact (layout_update _ _ _ _ _).trans (layout_addPointWalks sqrt g x y z _ _)
  · exact layout_addPointWalks sqrt g x y z _ _

theorem layout_addPoints (sqrt : α → α) (g : Grid α) (pts : List (α × α × α)) :
    (g.addPoints sqrt pts).layout = g.layout := by
  simp only [Grid.addPoints]
  apply foldl_invariant (fun t : Grid α => t.layout = g.layout)
  · rfl
  · intro t p _ ht
    exact (layout_addPoint sqrt t _ _ _).trans ht

theorem layout_run (sqrt : α → α) (g : Grid α) (pts : List (α × α × α)) (fin : Bool) :
    (g.run sqrt pts fin).layout = g.layout := by
  simp only [Grid.run]
  split
  · exact (layout_finalize sqrt _).trans (layout_addPoints sqrt g pts)
  · exact layout_addPoints sqrt g pts

end Quadrants

/-! ## Coordinate mapping: claims C7 and C8 -/

section Coordinates

theorem truncToInt_natCast_add_half (i : Nat) : truncToInt ((i : α) + 1 / 2) = (i : Int) := by
  have h0 : (0 : α) ≤ (i : α) + 1 / 2 := by positivity
  simp only [truncToInt, if_pos h0]
  rw [Int.floor_eq_iff]
  constructor
  · simp
  · simp
    norm_num

theorem horizontalIndex_horizontalPos (g : Grid α) (i : Nat) (he : 0 < g.m_edgeLength) :
    g.horizontalIndex (g.horizontalPos i) = (i : Int) := by
  have hne : g.m_edgeLength ≠ 0 := ne_of_gt he
  simp only [Grid.horizontalIndex, Grid.horizontalPos]
  rw [mul_div_assoc, div_self hne, mul_one]
  exact truncToInt_natCast_add_half i

theorem verticalIndex_verticalPos_succ (g : Grid α) (j : Nat) (he : 0 < g.m_edgeLength) :
    g.verticalIndex (g.verticalPos (j + 1)) = (j : Int) := by
  have hne : g.m_edgeLength ≠ 0 := ne_of_gt he
  simp only [Grid.verticalIndex, Grid.verticalPos]
  rw [mul_div_assoc, div_self hne, mul_one]
  have : (g.m_height : α) - ((g.m_height : α) - (((j + 1 : Nat) : α) + 1 / 2)) - 1 = (j : α) + 1 / 2 := by
    push_cast; ring
  rw [this]
  exact truncToInt_natCast_add_half j

theorem verticalIndex_verticalPos_zero (g : Grid α) (he : 0 < g.m_edgeLength) :
    g.verticalIndex (g.verticalPos 0) = 0 := by
  have hne : g.m_edgeLength ≠ 0 := ne_of_gt he
  simp only [Grid.verticalIndex, Grid.verticalPos]
  rw [mul_div_assoc, div_self hne, mul_one]
  have : (g.m_height : α) - ((g.m_height : α) - (((0 : Nat) : α) + 1 / 2)) - 1 = -(1 / 2) := by
    push_cast; ring
  rw [this]
  have hneg : ¬ (0 : α) ≤ -(1 / 2) := by norm_num
  simp only [truncToInt, if_neg hneg]
  rw [Int.ceil_eq_iff]
  constructor <;> norm_num

/-- C7.  Horizontal round trip: for a positive edge length and a column `i` of the grid,
`horizontalIndex (horizontalPos i)` is `i`. -/
theorem C7_horizontal_round_trip (g : Grid α) (i : Nat) (he : 0 < g.m_edgeLength)
    (_hi : i < g.m_width) : g.horizontalIndex (g.horizontalPos i) = (i : Int) :=
  horizontalIndex_horizontalPos g i he

/-- Witness of C7: column 1 of a grid of two columns with edge length 1/2. -/
theorem C7_horizontal_round_trip_witness :
    (Grid.construct 2 2 (1 / 2 : ℚ) 1 0 63 0).horizontalIndex
      ((Grid.construct 2 2 (1 / 2 : ℚ) 1 0 63 0).horizontalPos 1) = ((1 : Nat) : Int) :=
  C7_horizontal_round_trip (Grid.construct 2 2 (1 / 2 : ℚ) 1 0 63 0) 1
    (by norm_num [Grid.construct]) (by decide)

/-- C8, evaluation of the code: in a grid of two rows with edge length 1, the centre of row 1
(the bottom row, `y = 1/2`) is mapped to row 0 by `verticalIndex`. -/
theorem C8_vertical_round_trip_row1 :
    (Grid.construct 2 2 (1 : ℚ) 1 0 63 0).verticalIndex
      ((Grid.construct 2 2 (1 : ℚ) 1 0 63 0).verticalPos 1) = 0 :=
  verticalIndex_verticalPos_succ (Grid.construct 2 2 (1 : ℚ) 1 0 63 0) 0
    (by norm_num [Grid.construct])

end Coordinates

/-! ## Band export: claims C9 and C10 -/

section Bands

theorem construct_isSome (width height : Nat) (edgeLength radius noData : α)
    (outputTypes : Int) (windowSize : Nat) (g : Grid α)
    (hl : g.layout =
      (Grid.construct width height edgeLength radius noData outputTypes windowSize).layout) :
    g.m_outputTypes = outputTypes ∧
      g.m_min.isSome = hasFlag outputTypes statMin ∧
      g.m_max.isSome = hasFlag outputTypes statMax ∧
      g.m_mean.isSome = (hasFlag outputTypes statMean || hasFlag outputTypes statStdDev) ∧
      g.m_stdDev.isSome = hasFlag outputTypes statStdDev ∧
      g.m_idw.isSome = hasFlag outputTypes statIdw ∧
      g.m_idwDist.isSome = hasFlag outputTypes statIdw := by
  have hs := layout_shapes hl
  have hc := layout_config hl
  refine ⟨hc.2.2.2.2, ?_, ?_, ?_, ?_, ?_, ?_⟩
  · rw [isSome_of_shape_eq hs.1]
    simp only [Grid.construct]
    split <;> simp [*]
  · rw [isSome_of_shape_eq hs.2.1]
    simp only [Grid.construct]
    split <;> simp [*]
  · rw [isSome_of_shape_eq hs.2.2.1]
    simp only [Grid.construct]
    split <;> simp_all
  · rw [isSome_of_shape_eq hs.2.2.2.1]
    simp only [Grid.construct]
    split <;> simp [*]
  · rw [isSome_of_shape_eq hs.2.2.2.2.1]
    simp only [Grid.construct]
    split <;> simp [*]
  · rw [isSome_of_shape_eq hs.2.2.2.2.2]
    simp only [Grid.construct]
    split <;> simp [*]

/-- Which buffers `data` returns, for a grid that has the layout of a constructed one. -/
theorem data_isSome (width height : Nat) (edgeLength radius noData : α)
    (outputTypes : Int) (windowSize : Nat) (g : Grid α)
    (hl : g.layout =
      (Grid.construct width height edgeLength radius noData outputTypes windowSize).layout) :
    (g.data "count").isSome = hasFlag outputTypes statCount ∧
      (g.data "min").isSome = hasFlag outputTypes statMin ∧
      (g.data "max").isSome = hasFlag outputTypes statMax ∧
      (g.data "mean").isSome = hasFlag outputTypes statMean ∧
      (g.data "idw").isSome = hasFlag outputTypes statIdw ∧
      (g.data "stdev").isSome = hasFlag outputTypes statStdDev := by
  obtain ⟨ht, h1, h2, h3, h4, h5, _⟩ :=
    construct_isSome width height edgeLength radius noData outputTypes windowSize g hl
  refine ⟨?_, ?_, ?_, ?_, ?_, ?_⟩
  · simp only [Grid.data, ht, if_true]
    cases hasFlag outputTypes statCount <;> simp
  · simp only [Grid.data, ht, if_true, if_neg (show ¬ "min" = "count" by decide)]
    cases h : hasFlag outputTypes statMin <;> simp [h1, h]
  · simp only [Grid.data, ht, if_true, if_neg (show ¬ "max" = "count" by decide),
      if_neg (show ¬ "max" = "min" by decide)]
    cases h : hasFlag outputTypes statMax <;> simp [h2, h]
  · simp only [Grid.data, ht, if_true, if_neg (show ¬ "mean" = "count" by decide),
      if_neg (show ¬ "mean" = "min" by decide), if_neg (show ¬ "mean" = "max" by decide)]
    cases h : hasFlag outputTypes statMean <;> simp [h3, h]
  · simp only [Grid.data, ht, if_true, if_neg (show ¬ "idw" = "count" by decide),
      if_neg (show ¬ "idw" = "min" by decide), if_neg (show ¬ "idw" = "max" by decide),
      if_neg (show ¬ "idw" = "mean" by decide)]
    cases h : hasFlag outputTypes statIdw <;> simp [h5, h]
  · simp only [Grid.data, ht, if_true, if_neg (show ¬ "stdev" = "count" by decide),
      if_neg (show ¬ "stdev" = "min" by decide), if_neg (show ¬ "stdev" = "max" by decide),
      if_neg (show ¬ "stdev" = "mean" by decide), if_neg (show ¬ "stdev" = "idw" by decide)]
    cases h : hasFlag outputTypes statStdDev <;> simp [h4, h]

/-- C9.  Band isolation: for a grid constructed with any `outputTypes`, after any points have
been added and whether or not `finalize` has run, `data` returns a buffer for "count", "min",
"max", "mean", "idw", "stdev" exactly when the flag of that statistic is set in `outputTypes`
(the `mean` buffer itself exists as soon as `mean` or `stdDev` is set), and returns null for
every other name. -/
theorem C9_band_isolation (sqrt : α → α) (width height : Nat) (edgeLength radius noData : α)
    (outputTypes : Int) (windowSize : Nat) (pts : List (α × α × α)) (fin : Bool) :
    (((Grid.construct width height edgeLength radius noData outputTypes windowSize).run sqrt pts
        fin).data "count").isSome = hasFlag outputTypes statCount ∧
      (((Grid.construct width height edgeLength radius noData outputTypes windowSize).run sqrt pts
        fin).data "min").isSome = hasFlag outputTypes statMin ∧
      (((Grid.construct width height edgeLength radius noData outputTypes windowSize).run sqrt pts
        fin).data "max").isSome = hasFlag outputTypes statMax ∧
      (((Grid.construct width height edgeLength radius noData outputTypes windowSize).run sqrt pts
        fin).data "mean").isSome = hasFlag outputTypes statMean ∧
      (((Grid.construct width height edgeLength radius noData outputTypes windowSize).run sqrt pts
        fin).data "idw").isSome = hasFlag outputTypes statIdw ∧
      (((Grid.construct width height edgeLength radius noData outputTypes windowSize).run sqrt pts
        fin).data "stdev").isSome = hasFlag outputTypes statStdDev ∧
      ((Grid.construct width height edgeLength radius noData outputTypes windowSize).run sqrt pts
        fin).m_mean.isSome = (hasFlag outputTypes statMean || hasFlag outputTypes statStdDev) ∧
      ∀ name : String, name ∉ ["count", "min", "max", "mean", "idw", "stdev"] →
        ((Grid.construct width height edgeLength radius noData outputTypes windowSize).run sqrt
          pts fin).data name = none := by
  have hl := layout_run sqrt
    (Grid.construct width height edgeLength radius noData outputTypes windowSize) pts fin
  obtain ⟨h1, h2, h3, h4, h5, h6⟩ :=
    data_isSome width height edgeLength radius noData outputTypes windowSize _ hl
  refine ⟨h1, h2, h3, h4, h5, h6,
    (construct_isSome width height edgeLength radius noData outputTypes windowSize _ hl).2.2.2.1,
    ?_⟩
  intro name hname
  simp only [List.mem_cons, List.mem_singleton, List.not_mem_nil, or_false, not_or] at hname
  simp only [Grid.data, if_neg hname.1, if_neg hname.2.1, if_neg hname.2.2.1,
    if_neg hname.2.2.2.1, if_neg hname.2.2.2.2.1, if_neg hname.2.2.2.2.2]

/-- C10.  The result of `numBands` is the number of the six statistic flags set in
`outputTypes`, which is also the number of the six names for which `data` returns a buffer. -/
theorem C10_numBands (sqrt : α → α) (width height : Nat) (edgeLength radius noData : α)
    (outputTypes : Int) (windowSize : Nat) (pts : List (α × α × α)) (fin : Bool) :
    ((Grid.construct width height edgeLength radius noData outputTypes windowSize).run sqrt pts
        fin).numBands =
        (([statCount, statMin, statMax, statMean, statStdDev, statIdw].filter
          (fun f => hasFlag outputTypes f)).length : Int) ∧
      ((Grid.construct width height edgeLength radius noData outputTypes windowSize).run sqrt pts
        fin).numBands =
        ((["count", "min", "max", "mean", "stdev", "idw"].filter
          (fun name => (((Grid.construct width height edgeLength radius noData outputTypes
            windowSize).run sqrt pts fin).data name).isSome)).length : Int) := by
  have hl := layout_run sqrt
    (Grid.construct width height edgeLength radius noData outputTypes windowSize) pts fin
  obtain ⟨h1, h2, h3, h4, h5, h6⟩ :=
    data_isSome width height edgeLength radius noData outputTypes windowSize _ hl
  have ht := (layout_config hl).2.2.2.2
  have htypes : (Grid.construct width height edgeLength radius noData outputTypes
      windowSize).m_outputTypes = outputTypes := rfl
  simp only [List.filter_cons, List.filter_nil, h1, h2, h3, h4, h5, h6, Grid.numBands, ht,
    htypes]
  cases hasFlag outputTypes statCount <;> cases hasFlag outputTypes statMin <;>
    cases hasFlag outputTypes statMax <;> cases hasFlag outputTypes statMean <;>
    cases hasFlag outputTypes statStdDev <;> cases hasFlag outputTypes statIdw <;>
    simp

end Bands

/-! ## Gap filling of an empty cell -/

section GapFill

theorem shape_some_of_isSome {p : DataPtr α} (h : p.isSome = true) :
    ∃ n, shape p = some n := by
  cases p with
  | none => simp at h
  | some v => exact ⟨v.length, rfl⟩

theorem rd_wr_filled (p : DataPtr α) (idx : Nat) (x : α) (hin : ∀ n, shape p = some n → idx < n)
    (h : p.isSome = true) : rd (wr p idx x) idx = x := by
  obtain ⟨n, hn⟩ := shape_some_of_isSome h
  exact rd_wr_same p idx n x hn (hin n hn)

theorem inBuffers_of_layout {g g' : Grid α} (h : g'.layout = g.layout) {idx : Nat}
    (hin : g.InBuffers idx) : g'.InBuffers idx := by
  have hs := layout_shapes h
  simp only [Grid.InBuffers] at hin ⊢
  rw [hs.1, hs.2.1, hs.2.2.1, hs.2.2.2.1, hs.2.2.2.2.1]
  exact hin

theorem filledAt_of_keeps {g g' : Grid α} {idx : Nat} {x : α} (h : Grid.Keeps idx g g')
    (hf : g.FilledAt idx x) : g'.FilledAt idx x := by
  have hs := layout_shapes h.1
  have hc := (cell_eq_iff g g' idx idx).mp h.2.2
  simp only [Grid.FilledAt] at hf ⊢
  rw [isSome_of_shape_eq hs.1, isSome_of_shape_eq hs.2.1, isSome_of_shape_eq hs.2.2.1,
    isSome_of_shape_eq hs.2.2.2.1, isSome_of_shape_eq hs.2.2.2.2.1, hc.1, hc.2.1, hc.2.2.1,
    hc.2.2.2.1, hc.2.2.2.2.1]
  exact hf

/-- Method `fillNodata` writes the sentinel into each allocated value buffer. -/
theorem fillNodata_filledAt (g : Grid α) (idx : Nat) (hin : g.InBuffers idx) :
    (g.fillNodata idx).FilledAt idx g.m_noData := by
  obtain ⟨h1, h2, h3, h4, h5⟩ := hin
  simp only [Grid.FilledAt, Grid.fillNodata, ite_isSome_wr]
  refine ⟨?_, ?_, ?_, ?_, ?_⟩ <;> intro h
  · exact rd_wr_filled _ _ _ h1 (by rw [← isSome_of_shape_eq (shape_wr _ _ _)]; exact h)
  · exact rd_wr_filled _ _ _ h2 (by rw [← isSome_of_shape_eq (shape_wr _ _ _)]; exact h)
  · exact rd_wr_filled _ _ _ h3 (by rw [← isSome_of_shape_eq (shape_wr _ _ _)]; exact h)
  · exact rd_wr_filled _ _ _ h4 (by rw [← isSome_of_shape_eq (shape_wr _ _ _)]; exact h)
  · exact rd_wr_filled _ _ _ h5 (by rw [← isSome_of_shape_eq (shape_wr _ _ _)]; exact h)

/-- Variant of `foldl_keeps_split` whose steps may use that the layout is that of `g`. -/
theorem foldl_keeps_split_layout (idx : Nat) {β : Type} (f : Grid α → β → Grid α) (a : β)
    (l : List β) (g : Grid α)
    (hother : ∀ t b, t.layout = g.layout → b ∈ l → b ≠ a → Grid.Keeps idx t (f t b))
    (hstep : ∀ t, t.layout = g.layout → (f t a).layout = g.layout) (hnd : l.Nodup)
    (ha : a ∈ l) : ∃ g1, Grid.Keeps idx g g1 ∧ Grid.Keeps idx (f g1 a) (l.foldl f g) := by
  obtain ⟨s1, h1, h2⟩ := (foldl_split
    (fun t t' : Grid α => t.layout = g.layout → Grid.Keeps idx t t')
    (fun s _ => Grid.Keeps.refl_keeps idx s)
    (fun s t u hst htu hs => (hst hs).trans_keeps (htu ((hst hs).1.trans hs))) f a l g
    (fun t b hb hne ht => hother t b ht hb hne)).2 hnd ha
  have hk := h1 rfl
  exact ⟨s1, hk, h2 (hstep s1 hk.1)⟩

/-- The sentinel fill of `finalize` at an empty cell. -/
theorem finalizeNodata_filledAt (g : Grid α) (idx : Nat) (hlen : idx < g.m_count.length)
    (hin : g.InBuffers idx) (he : g.empty idx = true) :
    g.finalizeNodata.FilledAt idx g.m_noData := by
  simp only [Grid.finalizeNodata]
  obtain ⟨g1, h1, h2⟩ := foldl_keeps_split idx
    (fun (g : Grid α) i => if g.empty i = true then g.fillNodata i else g) idx
    (List.range g.m_count.length) g
    (fun t b _ hb => by
      simp only
      split
      · exact fillNodata_keeps t b idx (Ne.symm hb)
      · exact Grid.Keeps.refl_keeps idx t)
    (List.nodup_range _) (List.mem_range.mpr hlen)
  apply filledAt_of_keeps h2
  have he1 : g1.empty idx = true := by rw [same_empty h1.to_same, he]
  simp only [he1, if_true]
  rw [← (layout_config h1.1).2.2.2.1]
  exact fillNodata_filledAt g1 idx (inBuffers_of_layout h1.1 hin)

end GapFill

/-! ## Claim C5: a grid without points -/

section EmptyGrid

theorem finalize_eq_finalizeNodata (sqrt : α → α) (g : Grid α) (hws : g.m_windowSize = 0) :
    ∃ g2, Grid.Same g g2 ∧ g.finalize sqrt = g2.finalizeNodata := by
  simp only [Grid.finalize]
  have h1 : Grid.Same g (if g.m_stdDev.isSome = true then g.finalizeStdDev sqrt else g) := by
    split
    · exact finalizeStdDev_same sqrt g
    · exact Grid.Same.refl_same g
  generalize (if g.m_stdDev.isSome = true then g.finalizeStdDev sqrt else g) = g1 at h1
  have h2 : Grid.Same g1 (if g1.m_idw.isSome = true then g1.finalizeIdw else g1) := by
    split
    · exact finalizeIdw_same g1
    · exact Grid.Same.refl_same g1
  generalize (if g1.m_idw.isSome = true then g1.finalizeIdw else g1) = g2 at h2
  have h12 := h1.trans_same h2
  have hw : ¬ g2.m_windowSize > 0 := by
    rw [(layout_config h12.1).1, hws]
    exact lt_irrefl 0
  rw [if_neg hw]
  exact ⟨g2, h12, rfl⟩

theorem finalize_eq_windowFill (sqrt : α → α) (g : Grid α) (hws : 0 < g.m_windowSize) :
    ∃ g2, Grid.Same g g2 ∧ g.finalize sqrt = g2.windowFill := by
  simp only [Grid.finalize]
  have h1 : Grid.Same g (if g.m_stdDev.isSome = true then g.finalizeStdDev sqrt else g) := by
    split
    · exact finalizeStdDev_same sqrt g
    · exact Grid.Same.refl_same g
  generalize (if g.m_stdDev.isSome = true then g.finalizeStdDev sqrt else g) = g1 at h1
  have h2 : Grid.Same g1 (if g1.m_idw.isSome = true then g1.finalizeIdw else g1) := by
    split
    · exact finalizeIdw_same g1
    · exact Grid.Same.refl_same g1
  generalize (if g1.m_idw.isSome = true then g1.finalizeIdw else g1) = g2 at h2
  have h12 := h1.trans_same h2
  have hw : g2.m_windowSize > 0 := by
    rw [(layout_config h12.1).1]
    exact hws
  rw [if_pos hw]
  exact ⟨g2, h12, rfl⟩

/-- A buffer of length `n` that reads `x` everywhere is `n` copies of `x`. -/
theorem buffer_eq_replicate (p : DataPtr α) (n : Nat) (x : α) (hs : shape p = some n)
    (h : ∀ idx, idx < n → rd p idx = x) : p = some (List.replicate n x) := by
  cases p with
  | none => simp [shape] at hs
  | some v =>
    simp only [shape, Option.some.injEq] at hs
    congr 1
    apply List.ext_getElem
    · simp [hs]
    · intro i h1 h2
      have := h i (by omega)
      simp only [rd, List.getD_eq_getElem?_getD, List.getElem?_eq_getElem h1,
        Option.getD_some] at this
      simp [this]

theorem buffer_eq_none (p : DataPtr α) (hs : shape p = none) : p = none := by
  cases p with
  | none => rfl
  | some v => simp [shape] at hs

theorem construct_inBuffers (width height : Nat) (edgeLength radius noData : α)
    (outputTypes : Int) (windowSize idx : Nat) (h : idx < width * height % sizeMod) :
    (Grid.construct width height edgeLength radius noData outputTypes windowSize).InBuffers
      idx := by
  simp only [Grid.InBuffers, Grid.construct]
  refine ⟨?_, ?_, ?_, ?_, ?_⟩ <;> intro n <;> split <;> simp [shape] <;> omega

/-- The value buffers of a grid without points after `finalize`, for `windowSize = 0`. -/
theorem empty_grid_buffers (sqrt : α → α) (width height : Nat) (edgeLength radius noData : α)
    (outputTypes : Int) (gF : Grid α)
    (hF : gF = (Grid.construct width height edgeLength radius noData outputTypes 0).finalize
      sqrt) :
    gF.m_min = (if hasFlag outputTypes statMin = true then
        some (List.replicate (width * height % sizeMod) noData) else none) ∧
      gF.m_max = (if hasFlag outputTypes statMax = true then
        some (List.replicate (width * height % sizeMod) noData) else none) ∧
      gF.m_mean = (if (hasFlag outputTypes statMean || hasFlag outputTypes statStdDev) = true then
        some (List.replicate (width * height % sizeMod) noData) else none) ∧
      gF.m_idw = (if hasFlag outputTypes statIdw = true then
        some (List.replicate (width * height % sizeMod) noData) else none) ∧
      gF.m_stdDev = (if hasFlag outputTypes statStdDev = true then
        some (List.replicate (width * height % sizeMod) noData) else none) := by
  obtain ⟨g2, h2, hfin⟩ := finalize_eq_finalizeNodata sqrt
    (Grid.construct width height edgeLength radius noData outputTypes 0) rfl
  rw [← hF] at hfin
  have hl2 : gF.layout = g2.layout := by rw [hfin]; exact (finalizeNodata_same g2).1
  have hl : gF.layout =
      (Grid.construct width height edgeLength radius noData outputTypes 0).layout :=
    hl2.trans h2.1
  have hfill : ∀ idx, idx < width * height % sizeMod → gF.FilledAt idx noData := by
    intro idx hidx
    have hnd : g2.m_noData = noData := (layout_config h2.1).2.2.2.1
    rw [hfin, ← hnd]
    apply finalizeNodata_filledAt g2 idx
    · rw [layout_count_length h2.1]
      simpa [Grid.construct] using hidx
    · exact inBuffers_of_layout h2.1 (construct_inBuffers _ _ _ _ _ _ _ _ hidx)
    · rw [same_empty h2]
      simp only [Grid.empty, construct_count]
      exact decide_eq_true (le_refl 0)
  have hs := layout_shapes hl
  have hsome := construct_isSome width height edgeLength radius noData outputTypes 0 gF hl
  refine ⟨?_, ?_, ?_, ?_, ?_⟩
  · split
    · rename_i hflag
      apply buffer_eq_replicate
      · rw [hs.1]; simp [Grid.construct, hflag, shape]
      · intro idx hidx
        exact (hfill idx hidx).1 (by rw [hsome.2.1, hflag])
    · rename_i hflag
      apply buffer_eq_none
      rw [hs.1]; simp [Grid.construct, hflag, shape]
  · split
    · rename_i hflag
      apply buffer_eq_replicate
      · rw [hs.2.1]; simp [Grid.construct, hflag, shape]
      · intro idx hidx
        exact (hfill idx hidx).2.1 (by rw [hsome.2.2.1, hflag])
    · rename_i hflag
      apply buffer_eq_none
      rw [hs.2.1]; simp [Grid.construct, hflag, shape]
  · split
    · rename_i hflag
      apply buffer_eq_replicate
      · rw [hs.2.2.1]
        simp only [Grid.construct]
        rw [if_pos hflag]
        simp [shape]
      · intro idx hidx
        exact (hfill idx hidx).2.2.1 (by rw [hsome.2.2.2.1, hflag])
    · rename_i hflag
      apply buffer_eq_none
      rw [hs.2.2.1]
      simp only [Grid.construct]
      rw [if_neg hflag]
      rfl
  · split
    · rename_i hflag
      apply buffer_eq_replicate
      · rw [hs.2.2.2.2.1]; simp [Grid.construct, hflag, shape]
      · intro idx hidx
        exact (hfill idx hidx).2.2.2.1 (by rw [hsome.2.2.2.2.2.1, hflag])
    · rename_i hflag
      apply buffer_eq_none
      rw [hs.2.2.2.2.1]; simp [Grid.construct, hflag, shape]
  · split
    · rename_i hflag
      apply buffer_eq_replicate
      · rw [hs.2.2.2.1]; simp [Grid.construct, hflag, shape]
      · intro idx hidx
        exact (hfill idx hidx).2.2.2.2 (by rw [hsome.2.2.2.2.1, hflag])
    · rename_i hflag
      apply buffer_eq_none
      rw [hs.2.2.2.1]; simp [Grid.construct, hflag, shape]

/-- C5, as amended.  A grid constructed with `windowSize = 0` into which no point has been added
holds after `finalize`, for each requested statistic among `min`, `max`, `mean`, `idw` and
`stdDev`, a buffer `data(name)` of `noData` in every cell; the buffer of a requested `count`
holds 0 in every cell. -/
theorem C5_empty_grid_fill (sqrt : α → α) (width height : Nat) (edgeLength radius noData : α)
    (outputTypes : Int) :
    ((Grid.construct width height edgeLength radius noData outputTypes 0).finalize sqrt).data
        "min" = (if hasFlag outputTypes statMin = true then
          some (List.replicate (width * height % sizeMod) noData) else none) ∧
      ((Grid.construct width height edgeLength radius noData outputTypes 0).finalize sqrt).data
        "max" = (if hasFlag outputTypes statMax = true then
          some (List.replicate (width * height % sizeMod) noData) else none) ∧
      ((Grid.construct width height edgeLength radius noData outputTypes 0).finalize sqrt).data
        "mean" = (if hasFlag outputTypes statMean = true then
          some (List.replicate (width * height % sizeMod) noData) else none) ∧
      ((Grid.construct width height edgeLength radius noData outputTypes 0).finalize sqrt).data
        "idw" = (if hasFlag outputTypes statIdw = true then
          some (List.replicate (width * height % sizeMod) noData) else none) ∧
      ((Grid.construct width height edgeLength radius noData outputTypes 0).finalize sqrt).data
        "stdev" = (if hasFlag outputTypes statStdDev = true then
          some (List.replicate (width * height % sizeMod) noData) else none) ∧
      ((Grid.construct width height edgeLength radius noData outputTypes 0).finalize sqrt).data
        "count" = (if hasFlag outputTypes statCount = true then
          some (List.replicate (width * height % sizeMod) 0) else none) := by
  obtain ⟨h1, h2, h3, h4, h5⟩ :=
    empty_grid_buffers sqrt width height edgeLength radius noData outputTypes _ rfl
  have ht : ((Grid.construct width height edgeLength radius noData outputTypes 0).finalize
      sqrt).m_outputTypes = outputTypes := (layout_config (layout_finalize sqrt _)).2.2.2.2
  have hc : ((Grid.construct width height edgeLength radius noData outputTypes 0).finalize
      sqrt).m_count = List.replicate (width * height % sizeMod) 0 := by
    rw [finalize_count]
    rfl
  refine ⟨?_, ?_, ?_, ?_, ?_, ?_⟩
  · simp only [Grid.data, ht, h1, if_neg (show ¬ "min" = "count" by decide), if_true]
    split <;> rfl
  · simp only [Grid.data, ht, h2, if_neg (show ¬ "max" = "count" by decide),
      if_neg (show ¬ "max" = "min" by decide), if_true]
    split <;> rfl
  · simp only [Grid.data, ht, h3, if_neg (show ¬ "mean" = "count" by decide),
      if_neg (show ¬ "mean" = "min" by decide), if_neg (show ¬ "mean" = "max" by decide),
      if_true]
    cases hasFlag outputTypes statMean <;> simp
  · simp only [Grid.data, ht, h4, if_neg (show ¬ "idw" = "count" by decide),
      if_neg (show ¬ "idw" = "min" by decide), if_neg (show ¬ "idw" = "max" by decide),
      if_neg (show ¬ "idw" = "mean" by decide), if_true]
    split <;> rfl
  · simp only [Grid.data, ht, h5, if_neg (show ¬ "stdev" = "count" by decide),
      if_neg (show ¬ "stdev" = "min" by decide), if_neg (show ¬ "stdev" = "max" by decide),
      if_neg (show ¬ "stdev" = "mean" by decide), if_neg (show ¬ "stdev" = "idw" by decide),
      if_true]
    split <;> rfl
  · simp only [Grid.data, ht, hc, if_true]

/-- C5, counterexample: a grid of one cell with only `count` requested and `noData = -9999`,
no point added: after `finalize` the buffer `data("count")` holds 0, not `noData`. -/
theorem C5_count_counterexample :
    hasFlag 1 statCount = true ∧
      ((Grid.construct 1 1 (1 : ℚ) 1 (-9999) 1 0).finalize (fun q => q)).data "count"
        = some [0] ∧
      ((Grid.construct 1 1 (1 : ℚ) 1 (-9999) 1 0).finalize (fun q => q)).data "count"
        ≠ some [(Grid.construct 1 1 (1 : ℚ) 1 (-9999) 1 0).m_noData] := by
  have hc : ((Grid.construct 1 1 (1 : ℚ) 1 (-9999) 1 0).finalize (fun q => q)).data "count"
      = some [0] := by
    have ht : ((Grid.construct 1 1 (1 : ℚ) 1 (-9999) 1 0).finalize
        (fun q => q)).m_outputTypes = 1 := (layout_config (layout_finalize _ _)).2.2.2.2
    simp only [Grid.data, ht, if_true, finalize_count]
    rfl
  refine ⟨by decide, hc, ?_⟩
  rw [hc]
  simp [Grid.construct]

end EmptyGrid

/-! ## Claim C6: the window fill without a usable neighbour -/

section WindowFallback

theorem sizeMod_eq : sizeMod = 18446744073709551616 := by
  simp only [sizeMod]
  norm_num

/-- The window of `windowFill(dstI, dstJ)` on one axis lies inside the grid and within
`windowSize` steps of the destination. -/
theorem window_bounds (d ws w i : Nat) (hd : d < sizeMod)
    (h1 : stdMax 0 (subSizeT d ws) ≤ i) (h2 : i < stdMin w (addSizeT (addSizeT d ws) 1)) :
    i < w ∧ i ≤ d + ws ∧ d ≤ i + ws := by
  simp only [stdMax, stdMin, subSizeT, addSizeT, sizeMod_eq] at h1 h2 hd
  split at h1 <;> split at h2 <;> omega

/-- When every cell of its window is empty, `windowFill(dstI, dstJ)` writes the sentinel. -/
theorem windowFillAt_no_source (t : Grid α) (dstI dstJ : Nat)
    (hin : t.InBuffers (t.index dstI dstJ))
    (hempty : ∀ i j, stdMax 0 (subSizeT dstI t.m_windowSize) ≤ i →
      i < stdMin t.width (addSizeT (addSizeT dstI t.m_windowSize) 1) →
      stdMax 0 (subSizeT dstJ t.m_windowSize) ≤ j →
      j < stdMin t.height (addSizeT (addSizeT dstJ t.m_windowSize) 1) →
      t.emptyCell i j = true) :
    (t.windowFillAt dstI dstJ).FilledAt (t.index dstI dstJ) t.m_noData := by
  have hscan : (t.windowFillInit (t.index dstI dstJ)).windowFillScan 0 dstI dstJ
      (t.index dstI dstJ) = (t.windowFillInit (t.index dstI dstJ), 0) := by
    simp only [Grid.windowFillScan]
    apply foldl_invariant
      (fun s : Grid α × α => s = (t.windowFillInit (t.index dstI dstJ), 0))
    · rfl
    · intro s i hi hs
      apply foldl_invariant
        (fun s : Grid α × α => s = (t.windowFillInit (t.index dstI dstJ), 0))
      · exact hs
      · intro u j hj hu
        rw [List.mem_range'_1] at hi hj
        have e1 : (t.windowFillInit (t.index dstI dstJ)).m_windowSize = t.m_windowSize := rfl
        have e2 : (t.windowFillInit (t.index dstI dstJ)).width = t.width := rfl
        have e3 : (t.windowFillInit (t.index dstI dstJ)).height = t.height := rfl
        rw [e1, e2] at hi
        rw [e1, e3] at hj
        simp only [Grid.windowFillBody]
        rw [if_pos]
        · exact hu
        · right
          rw [hu]
          exact hempty i j hi.1 (by have := hi.2; omega) hj.1 (by have := hj.2; omega)
  simp only [Grid.windowFillAt, hscan]
  rw [if_neg (lt_irrefl (0 : α))]
  exact fillNodata_filledAt (t.windowFillInit (t.index dstI dstJ)) (t.index dstI dstJ)
    (inBuffers_of_layout (windowFillInit_same t _).1 hin)

theorem wf_inBuffers {g : Grid α} (hwf : g.WellFormed) {idx : Nat}
    (h : idx < g.m_width * g.m_height) : g.InBuffers idx := by
  refine ⟨?_, ?_, ?_, ?_, ?_⟩ <;> intro n hn
  · have := wf_shape_min hwf (isSome_of_shape hn)
    rw [hn] at this
    simp only [Option.some.injEq] at this
    omega
  · have := wf_shape_max hwf (isSome_of_shape hn)
    rw [hn] at this
    simp only [Option.some.injEq] at this
    omega
  · have := wf_shape_mean hwf (isSome_of_shape hn)
    rw [hn] at this
    simp only [Option.some.injEq] at this
    omega
  · have := wf_shape_idw hwf (isSome_of_shape hn)
    rw [hn] at this
    simp only [Option.some.injEq] at this
    omega
  · have := wf_shape_stdDev hwf (isSome_of_shape hn)
    rw [hn] at this
    simp only [Option.some.injEq] at this
    omega

theorem same_emptyCell {g g' : Grid α} (h : Grid.Same g g') (i j : Nat) :
    g'.emptyCell i j = g.emptyCell i j := by
  simp only [Grid.emptyCell, layout_index h.1, same_empty h]

/-- The window fill of the whole grid, seen from an empty cell whose window is empty. -/
theorem windowFill_filledAt (g : Grid α) (dstI dstJ : Nat) (hwf : g.WellFormed)
    (hi : dstI < g.m_width) (hj : dstJ < g.m_height)
    (hempty : ∀ i j, i < g.m_width → j < g.m_height → i ≤ dstI + g.m_windowSize →
      dstI ≤ i + g.m_windowSize → j ≤ dstJ + g.m_windowSize → dstJ ≤ j + g.m_windowSize →
      g.emptyCell i j = true) :
    g.windowFill.FilledAt (g.index dstI dstJ) g.m_noData := by
  have hsz := hwf.size_lt
  -- a step at another cell keeps the destination
  have hcell : ∀ (t : Grid α) (i j : Nat), t.layout = g.layout → i < g.m_width →
      j < g.m_height → (i ≠ dstI ∨ j ≠ dstJ) →
      Grid.Keeps (g.index dstI dstJ) t (if t.emptyCell i j = true then t.windowFillAt i j
        else t) := by
    intro t i j ht hi' hj' hne
    split
    · apply windowFillAt_keeps
      rw [layout_index ht]
      intro hc
      have := index_inj g hsz hi hj hi' hj' hc
      omega
    · exact Grid.Keeps.refl_keeps _ t
  have hcol : ∀ (t : Grid α) (i : Nat), t.layout = g.layout → i < g.m_width → i ≠ dstI →
      Grid.Keeps (g.index dstI dstJ) t (t.windowFillColumn i) := by
    intro t i ht hi' hne
    unfold Grid.windowFillColumn
    apply foldl_invariant (fun s => Grid.Keeps (g.index dstI dstJ) t s)
    · exact Grid.Keeps.refl_keeps _ t
    · intro u j hj' hu
      rw [List.mem_range, Grid.height, layout_height ht] at hj'
      exact hu.trans_keeps (hcell u i j (hu.1.trans ht) hi' hj' (Or.inl hne))
  simp only [Grid.windowFill]
  obtain ⟨g1, h1, h2⟩ := foldl_keeps_split_layout (g.index dstI dstJ)
    (fun (t : Grid α) i => t.windowFillColumn i) dstI (List.range g.width) g
    (fun t i ht hi' hne => hcol t i ht (List.mem_range.mp hi') hne)
    (fun t ht => (windowFillColumn_same t dstI).1.trans ht)
    (List.nodup_range _) (List.mem_range.mpr hi)
  apply filledAt_of_keeps h2
  simp only [Grid.windowFillColumn]
  obtain ⟨g3, h3, h4⟩ := foldl_keeps_split_layout (g.index dstI dstJ)
    (fun (t : Grid α) j => if t.emptyCell dstI j = true then t.windowFillAt dstI j else t) dstJ
    (List.range g1.height) g1
    (fun t j ht hj' hne => by
      rw [List.mem_range, Grid.height, layout_height h1.1] at hj'
      exact hcell t dstI j (ht.trans h1.1) hi hj' (Or.inr hne))
    (fun t ht => by
      simp only
      split
      · exact (windowFillAt_same t dstI dstJ).1.trans ht
      · exact ht)
    (List.nodup_range _)
    (List.mem_range.mpr (by rw [Grid.height, layout_height h1.1]; exact hj))
  apply filledAt_of_keeps h4
  have h13 : Grid.Same g g3 := h1.to_same.trans_same h3.to_same
  have he3 : g3.emptyCell dstI dstJ = true := by
    rw [same_emptyCell h13]
    exact hempty dstI dstJ hi hj (by omega) (by omega) (by omega) (by omega)
  simp only [he3, if_true]
  have hcfg := layout_config h13.1
  rw [← layout_index h13.1, ← hcfg.2.2.2.1]
  apply windowFillAt_no_source
  · apply inBuffers_of_layout h13.1
    rw [layout_index h13.1]
    exact wf_inBuffers hwf (index_lt g hsz hi hj)
  · intro i j hi1 hi2 hj1 hj2
    rw [hcfg.1] at hi1 hi2 hj1 hj2
    rw [Grid.width, layout_width h13.1] at hi2
    rw [Grid.height, layout_height h13.1] at hj2
    have hbi := window_bounds dstI g.m_windowSize g.m_width i
      (lt_trans hi (width_lt_sizeMod g hsz hj)) hi1 hi2
    have hbj := window_bounds dstJ g.m_windowSize g.m_height j
      (lt_trans hj (height_lt_sizeMod g hsz hi)) hj1 hj2
    rw [same_emptyCell h13]
    exact hempty i j hbi.1 hbj.1 hbi.2.1 hbi.2.2 hbj.2.1 hbj.2.2

/-- C6.  Window-fill fallback: in a well-formed grid with `windowSize >= 1`, an empty cell
`(dstI, dstJ)` that has no non-empty cell within `windowSize` grid steps on either axis holds,
after `finalize`, `noData` in each requested value statistic (`min`, `max`, `mean`, `idw`,
`stdev`). -/
theorem C6_window_fill_fallback (sqrt : α → α) (g : Grid α) (dstI dstJ : Nat)
    (hwf : g.WellFormed) (hws : 0 < g.m_windowSize) (hi : dstI < g.m_width)
    (hj : dstJ < g.m_height)
    (hempty : ∀ i j, i < g.m_width → j < g.m_height → i ≤ dstI + g.m_windowSize →
      dstI ≤ i + g.m_windowSize → j ≤ dstJ + g.m_windowSize → dstJ ≤ j + g.m_windowSize →
      g.emptyCell i j = true) :
    (hasFlag g.m_outputTypes statMin = true →
        (g.finalize sqrt).stat "min" dstI dstJ = g.m_noData) ∧
      (hasFlag g.m_outputTypes statMax = true →
        (g.finalize sqrt).stat "max" dstI dstJ = g.m_noData) ∧
      (hasFlag g.m_outputTypes statMean = true →
        (g.finalize sqrt).stat "mean" dstI dstJ = g.m_noData) ∧
      (hasFlag g.m_outputTypes statIdw = true →
        (g.finalize sqrt).stat "idw" dstI dstJ = g.m_noData) ∧
      (hasFlag g.m_outputTypes statStdDev = true →
        (g.finalize sqrt).stat "stdev" dstI dstJ = g.m_noData) := by
  obtain ⟨g2, h2, hfin⟩ := finalize_eq_windowFill sqrt g hws
  have hcfg := layout_config h2.1
  have hwf2 : g2.WellFormed := wellFormed_of_layout h2.1 hwf
  have hfill : (g.finalize sqrt).FilledAt (g.index dstI dstJ) g.m_noData := by
    rw [hfin, ← layout_index h2.1, ← hcfg.2.2.2.1]
    apply windowFill_filledAt g2 dstI dstJ hwf2
    · rw [layout_width h2.1]; exact hi
    · rw [layout_height h2.1]; exact hj
    · intro i j hi' hj' a b c d
      rw [layout_width h2.1] at hi'
      rw [layout_height h2.1] at hj'
      rw [hcfg.1] at a b c d
      rw [same_emptyCell h2]
      exact hempty i j hi' hj' a b c d
  have hlF : (g.finalize sqrt).layout = g.layout := layout_finalize sqrt g
  have hwfF : (g.finalize sqrt).WellFormed := wellFormed_of_layout hlF hwf
  have ht := (layout_config hlF).2.2.2.2
  have hx := layout_index hlF dstI dstJ
  obtain ⟨f1, f2, f3, f4, f5⟩ := hfill
  refine ⟨?_, ?_, ?_, ?_, ?_⟩ <;> intro hflag <;> rw [← ht] at hflag
  · rw [Grid.stat, data_min _ hflag, hx]
    exact f1 (wf_isSome_min hwfF hflag)
  · rw [Grid.stat, data_max _ hflag, hx]
    exact f2 (wf_isSome_max hwfF hflag)
  · rw [Grid.stat, data_mean _ hflag, hx]
    apply f3
    apply isSome_of_shape
    rw [hwfF.mean_shape, hflag, Bool.true_or, if_pos rfl]
  · rw [Grid.stat, data_idw _ hflag, hx]
    exact f4 (wf_isSome_idw hwfF hflag)
  · rw [Grid.stat, data_stdev _ hflag, hx]
    exact f5 (wf_isSome_stdDev hwfF hflag)

/-- Witness of C6: a grid of one row and three columns with `windowSize = 1`, one value in the
cell `(0, 0)`; the cell `(2, 0)` has only empty cells within one step. -/
theorem C6_window_fill_fallback_witness :
    (((Grid.construct 3 1 (1 : ℚ) 1 (-9999) 63 1).update 0 0 5 1).finalize
        (fun q => q)).stat "min" 2 0 = -9999 ∧
      (((Grid.construct 3 1 (1 : ℚ) 1 (-9999) 63 1).update 0 0 5 1).finalize
        (fun q => q)).stat "mean" 2 0 = -9999 ∧
      (((Grid.construct 3 1 (1 : ℚ) 1 (-9999) 63 1).update 0 0 5 1).finalize
        (fun q => q)).stat "stdev" 2 0 = -9999 := by
  have h := C6_window_fill_fallback (fun q : ℚ => q)
    ((Grid.construct 3 1 (1 : ℚ) 1 (-9999) 63 1).update 0 0 5 1) 2 0
    (wellFormed_of_layout (layout_update _ _ _ _ _)
      (construct_wellFormed 3 1 1 1 (-9999) 63 1 (by decide)))
    (by decide) (by decide) (by decide)
    (by
      intro i j hi hj _ h1 _ _
      have hj0 : j = 0 := by
        simp only [Grid.update, Grid.construct] at hj
        omega
      have hi' : i = 1 ∨ i = 2 := by
        simp only [Grid.update, Grid.construct] at hi h1
        omega
      subst hj0
      rcases hi' with rfl | rfl <;>
        simp [Grid.emptyCell, Grid.empty, Grid.index, Grid.update, Grid.construct, toSizeT,
          sizeMod])
  exact ⟨h.1 (by decide), h.2.2.1 (by decide), h.2.2.2.2 (by decide)⟩

end WindowFallback

/-! ## Claim C1: the count of the origin cell -/

section CountOrigin

theorem horizontalIndex_layout {g g' : Grid α} (h : g'.layout = g.layout) (x : α) :
    g'.horizontalIndex x = g.horizontalIndex x := by
  simp only [Grid.horizontalIndex, (layout_config h).2.1]

theorem verticalIndex_layout {g g' : Grid α} (h : g'.layout = g.layout) (y : α) :
    g'.verticalIndex y = g.verticalIndex y := by
  simp only [Grid.verticalIndex, (layout_config h).2.1, layout_height h]

theorem distance_layout (sqrt : α → α) {g g' : Grid α} (h : g'.layout = g.layout) (i j : Nat)
    (x y : α) : g'.distance sqrt i j x y = g.distance sqrt i j x y := by
  simp only [Grid.distance, Grid.horizontalPos, Grid.verticalPos, (layout_config h).2.1,
    layout_height h]

/-- A point whose origin cell `(i0, j0)` lies in the grid, at a distance below the radius from
the centre of that cell, adds exactly one to the count of that cell: the quadrant loops never
visit the origin cell and the final check updates it. -/
theorem addPoint_count_origin (sqrt : α → α) (g : Grid α) (x y z : α) (i0 j0 : Nat)
    (hwf : g.WellFormed) (hi : i0 < g.m_width) (hj : j0 < g.m_height)
    (hx : g.horizontalIndex x = (i0 : Int)) (hy : g.verticalIndex y = (j0 : Int))
    (hd : g.distance sqrt i0 j0 x y < g.m_radius) :
    (g.addPoint sqrt x y z).m_count.getD (g.index i0 j0) 0 =
      g.m_count.getD (g.index i0 j0) 0 + 1 := by
  have hsz := hwf.size_lt
  obtain ⟨hl, hc⟩ := addPointWalks_invariant sqrt g x y z (i0 : Int) (j0 : Int)
    (fun t => t.m_count.getD (g.index i0 j0) 0 = g.m_count.getD (g.index i0 j0) 0)
    (by omega) (by omega) (by omega) (by omega)
    (by
      intro t a b d ht hPt ha0 haw hb0 hbh hne
      obtain ⟨a', rfl⟩ := Int.eq_ofNat_of_zero_le ha0
      obtain ⟨b', rfl⟩ := Int.eq_ofNat_of_zero_le hb0
      have ha' : a' < g.m_width := by omega
      have hb' : b' < g.m_height := by omega
      have hsz' : t.m_width * t.m_height < sizeMod := by
        rw [layout_width ht, layout_height ht]; exact hsz
      rw [count_update_ne, hPt]
      rw [update_offset t hsz' (by rw [layout_width ht]; exact ha')
        (by rw [layout_height ht]; exact hb'), layout_index ht]
      intro hcontra
      have := index_inj g hsz hi hj ha' hb' hcontra
      omega)
    rfl
  simp only [Grid.addPoint, hx, hy]
  generalize g.addPointWalks sqrt x y z (i0 : Int) (j0 : Int) = g4 at hl hc
  have hwf4 : g4.WellFormed := wellFormed_of_layout hl hwf
  have hi4 : i0 < g4.m_width := by rw [layout_width hl]; exact hi
  have hj4 : j0 < g4.m_height := by rw [layout_height hl]; exact hj
  have hd4 : g4.distance sqrt (toSizeT (i0 : Int)) (toSizeT (j0 : Int)) x y < g4.m_radius := by
    rw [toSizeT_natCast i0 (lt_trans hi (width_lt_sizeMod g hsz hj)),
      toSizeT_natCast j0 (lt_trans hj (height_lt_sizeMod g hsz hi)), distance_layout sqrt hl,
      (layout_config hl).2.2.1]
    exact hd
  rw [if_pos hd4, ← layout_index hl, update_count_at g4 hwf4 hi4 hj4, layout_index hl, hc]

/-- The count of the common origin cell after a list of points. -/
theorem addPoints_count_origin (sqrt : α → α) (g0 : Grid α) (i0 j0 : Nat)
    (hwf : g0.WellFormed) (hi : i0 < g0.m_width) (hj : j0 < g0.m_height)
    (pts : List (α × α × α))
    (hpts : ∀ p ∈ pts, g0.horizontalIndex p.1 = (i0 : Int) ∧
      g0.verticalIndex p.2.1 = (j0 : Int) ∧ g0.distance sqrt i0 j0 p.1 p.2.1 < g0.m_radius)
    (g : Grid α) (hl : g.layout = g0.layout) :
    (g.addPoints sqrt pts).m_count.getD (g0.index i0 j0) 0 =
      g.m_count.getD (g0.index i0 j0) 0 + (pts.length : α) := by
  induction pts generalizing g with
  | nil => simp [Grid.addPoints]
  | cons p pts ih =>
    have hp := hpts p (List.mem_cons_self p pts)
    have hstep := addPoint_count_origin sqrt g p.1 p.2.1 p.2.2 i0 j0
      (wellFormed_of_layout hl hwf) (by rw [layout_width hl]; exact hi)
      (by rw [layout_height hl]; exact hj) (by rw [horizontalIndex_layout hl]; exact hp.1)
      (by rw [verticalIndex_layout hl]; exact hp.2.1)
      (by rw [distance_layout sqrt hl, (layout_config hl).2.2.1]; exact hp.2.2)
    rw [layout_index hl] at hstep
    have := ih (fun q hq => hpts q (List.mem_cons_of_mem p hq)) (g.addPoint sqrt p.1 p.2.1 p.2.2)
      ((layout_addPoint sqrt g _ _ _).trans hl)
    simp only [Grid.addPoints, List.foldl_cons] at this ⊢
    rw [this, hstep]
    simp only [List.length_cons]
    push_cast
    ring

/-- C1, as amended.  Count of the origin cell: for a fresh grid and a list of `N` points whose
origin cell, the cell `(horizontalIndex x, verticalIndex y)` that `addPoint` computes, is one
fixed cell `(i, j)` of the grid, each at a distance below `radius` from the centre of that cell,
the count of `(i, j)` after `addPoint` on every point and `finalize` is `N`. -/
theorem C1_count_origin_cell (sqrt : α → α) (width height : Nat) (edgeLength radius noData : α)
    (outputTypes : Int) (windowSize : Nat) (i j : Nat) (pts : List (α × α × α))
    (hsz : width * height < sizeMod) (hi : i < width) (hj : j < height)
    (hpts : ∀ p ∈ pts,
      (Grid.construct width height edgeLength radius noData outputTypes
        windowSize).horizontalIndex p.1 = (i : Int) ∧
      (Grid.construct width height edgeLength radius noData outputTypes
        windowSize).verticalIndex p.2.1 = (j : Int) ∧
      (Grid.construct width height edgeLength radius noData outputTypes
        windowSize).distance sqrt i j p.1 p.2.1 < radius) :
    (((Grid.construct width height edgeLength radius noData outputTypes windowSize).addPoints
        sqrt pts).finalize sqrt).m_count.getD (j * width + i) 0 = (pts.length : α) := by
  have hwf := construct_wellFormed width height edgeLength radius noData outputTypes windowSize
    hsz
  have hidx : (Grid.construct width height edgeLength radius noData outputTypes
      windowSize).index i j = j * width + i := index_eq _ hwf.size_lt hi hj
  have h := addPoints_count_origin sqrt _ i j hwf hi hj pts hpts _ rfl
  rw [hidx, construct_count, zero_add] at h
  rw [finalize_count, h]

/-- Witness of C1 as amended: two points at the centre of the cell `(0, 0)`. -/
theorem C1_count_origin_cell_witness :
    (((Grid.construct 2 2 (1 : ℝ) 1 0 63 0).addPoints Real.sqrt
        [(1 / 2, 3 / 2, 7), (1 / 2, 3 / 2, 9)]).finalize Real.sqrt).m_count.getD 0 0 = 2 := by
  have hx : (Grid.construct 2 2 (1 : ℝ) 1 0 63 0).horizontalIndex (1 / 2) = ((0 : Nat) : Int) := by
    have h := horizontalIndex_horizontalPos (Grid.construct 2 2 (1 : ℝ) 1 0 63 0) 0
      (by norm_num [Grid.construct])
    norm_num [Grid.horizontalPos, Grid.construct] at h
    simpa using h
  have hy : (Grid.construct 2 2 (1 : ℝ) 1 0 63 0).verticalIndex (3 / 2) = ((0 : Nat) : Int) := by
    have h := verticalIndex_verticalPos_zero (Grid.construct 2 2 (1 : ℝ) 1 0 63 0)
      (by norm_num [Grid.construct])
    norm_num [Grid.verticalPos, Grid.construct] at h
    simpa using h
  have hd : (Grid.construct 2 2 (1 : ℝ) 1 0 63 0).distance Real.sqrt 0 0 (1 / 2) (3 / 2)
      < 1 := by
    norm_num [Grid.distance, Grid.horizontalPos, Grid.verticalPos, Grid.construct]
  have h := C1_count_origin_cell Real.sqrt 2 2 (1 : ℝ) 1 0 63 0 0 0
    [(1 / 2, 3 / 2, 7), (1 / 2, 3 / 2, 9)] (by decide) (by decide) (by decide)
    (by
      intro p hp
      simp only [List.mem_cons, List.mem_singleton, List.not_mem_nil, or_false] at hp
      rcases hp with rfl | rfl <;> exact ⟨hx, hy, hd⟩)
  exact h.trans (by norm_num)

/-- Evaluation of `addPoint` for the point `(1/2, 3/2)` in a grid of two rows and two columns
with edge length 1 and radius 2: the cells `(1, 0)`, `(0, 1)` and `(0, 0)` are updated, and no
other cell. -/
theorem addPoint_two_by_two (g : Grid ℝ) (z : ℝ) (hw : g.m_width = 2) (hh : g.m_height = 2)
    (he : g.m_edgeLength = 1) (hr : g.m_radius = 2) :
    g.addPoint Real.sqrt (1 / 2) (3 / 2) z =
      ((g.update 1 0 z 1).update 0 1 z 1).update 0 0 z 0 := by
  have hx : g.horizontalIndex (1 / 2) = 0 := by
    have h := horizontalIndex_horizontalPos g 0 (by rw [he]; norm_num)
    norm_num [Grid.horizontalPos, he] at h
    exact h
  have hy : g.verticalIndex (3 / 2) = 0 := by
    have h := verticalIndex_verticalPos_zero g (by rw [he]; norm_num)
    norm_num [Grid.verticalPos, he, hh] at h
    exact h
  have hs1 : toSizeT 1 = 1 := by decide
  have hs0 : toSizeT 0 = 0 := by decide
  have hdist : ∀ (t : Grid ℝ) (i j : Nat), t.layout = g.layout →
      t.distance Real.sqrt i j (1 / 2) (3 / 2) =
        Real.sqrt (((i : ℝ) + 1 / 2 - 1 / 2) ^ 2 + ((2 - ((j : ℝ) + 1 / 2)) - 3 / 2) ^ 2) := by
    intro t i j ht
    rw [distance_layout Real.sqrt ht]
    simp only [Grid.distance, Grid.horizontalPos, Grid.verticalPos, he, hh, mul_one]
    norm_num
  have hd10 : ∀ t : Grid ℝ, t.layout = g.layout →
      t.distance Real.sqrt 1 0 (1 / 2) (3 / 2) = 1 := by
    intro t ht
    rw [hdist t 1 0 ht]
    norm_num
  have hd01 : ∀ t : Grid ℝ, t.layout = g.layout →
      t.distance Real.sqrt 0 1 (1 / 2) (3 / 2) = 1 := by
    intro t ht
    rw [hdist t 0 1 ht]
    norm_num
  have hd00 : ∀ t : Grid ℝ, t.layout = g.layout →
      t.distance Real.sqrt 0 0 (1 / 2) (3 / 2) = 0 := by
    intro t ht
    rw [hdist t 0 0 ht]
    norm_num
  have hl1 : (g.update 1 0 z 1).layout = g.layout := layout_update _ _ _ _ _
  have hl2 : ((g.update 1 0 z 1).update 0 1 z 1).layout = g.layout :=
    (layout_update _ _ _ _ _).trans hl1
  have q1 : g.quadrant1 Real.sqrt (1 / 2) (3 / 2) z 0 1 0 = g.update 1 0 z 1 := by
    rw [Grid.quadrant1, if_pos ⟨by rw [hw]; norm_num, by norm_num⟩]
    simp only [hs1, hs0]
    rw [hd10 g rfl, hr, if_pos (by norm_num)]
    rw [Grid.quadrant1, if_neg (by rw [layout_width hl1, hw]; norm_num)]
  have q2 : ∀ t : Grid ℝ, t.quadrant2 Real.sqrt (1 / 2) (3 / 2) z 0 0 (-1) = t := by
    intro t
    rw [Grid.quadrant2, if_neg (by norm_num)]
  have q3 : ∀ t : Grid ℝ, t.quadrant3 Real.sqrt (1 / 2) (3 / 2) z 0 (-1) 0 = t := by
    intro t
    rw [Grid.quadrant3, if_neg (by norm_num)]
  have q4 : (g.update 1 0 z 1).quadrant4 Real.sqrt (1 / 2) (3 / 2) z 0 0 1 =
      (g.update 1 0 z 1).update 0 1 z 1 := by
    rw [Grid.quadrant4, if_pos ⟨by rw [layout_width hl1, hw]; norm_num,
      by rw [layout_height hl1, hh]; norm_num⟩]
    simp only [hs1, hs0]
    rw [hd01 _ hl1, (layout_config hl1).2.2.1, hr, if_pos (by norm_num)]
    rw [Grid.quadrant4, if_neg (by rw [layout_height hl2, hh]; norm_num)]
  simp only [Grid.addPoint, hx, hy, Grid.addPointWalks, zero_add, zero_sub, q1, q2, q3, q4, hs0]
  rw [hd00 _ hl2, (layout_config hl2).2.2.1, hr, if_pos (by norm_num)]

/-- C1, counterexample: a grid of two rows and two columns with edge length 1 and radius 2, and
the single point `(1/2, 3/2)`, which lies inside the grid at distance `sqrt 2 < 2` from the
centre of the cell `(1, 1)`: after `addPoint` and `finalize` the count of `(1, 1)` is 0, not
1 (the fourth quadrant loop ends at the bottom row of column 0). -/
theorem C1_count_counterexample :
    ((0 : ℝ) ≤ 1 / 2 ∧ (1 / 2 : ℝ) < 2 * 1 ∧ (0 : ℝ) ≤ 3 / 2 ∧ (3 / 2 : ℝ) < 2 * 1) ∧
      (Grid.construct 2 2 (1 : ℝ) 2 0 1 0).distance Real.sqrt 1 1 (1 / 2) (3 / 2) <
        (Grid.construct 2 2 (1 : ℝ) 2 0 1 0).m_radius ∧
      (((Grid.construct 2 2 (1 : ℝ) 2 0 1 0).addPoints Real.sqrt
        [(1 / 2, 3 / 2, 0)]).finalize Real.sqrt).m_count.getD
          ((Grid.construct 2 2 (1 : ℝ) 2 0 1 0).index 1 1) 0 = 0 := by
  refine ⟨by norm_num, ?_, ?_⟩
  · simp only [Grid.distance, Grid.horizontalPos, Grid.verticalPos, Grid.construct]
    rw [Real.sqrt_lt' (by norm_num)]
    norm_num
  · rw [finalize_count]
    simp only [Grid.addPoints, List.foldl_cons, List.foldl_nil]
    rw [addPoint_two_by_two _ 0 rfl rfl rfl rfl]
    have hidx : (Grid.construct 2 2 (1 : ℝ) 2 0 1 0).index 1 1 = 3 := by decide
    rw [hidx, count_update_ne, count_update_ne, count_update_ne, construct_count]
    · decide
    · decide
    · decide

end CountOrigin

/-! ## Construction and allocation: claims C11 and C12 -/

section Construction

/-- C11, as amended.  The constructor validates nothing: for every width, height and edge
length, zero and negative values included, it produces a grid whose members are the arguments
and whose count buffer holds `width * height` (modulo `2 ^ 64`) zeros; it never fails with a
configuration error. -/
theorem C11_construct_total (width height : Nat) (edgeLength radius noData : α)
    (outputTypes : Int) (windowSize : Nat) :
    Grid.tryConstruct width height edgeLength radius noData outputTypes windowSize =
        Except.ok (Grid.construct width height edgeLength radius noData outputTypes windowSize) ∧
      (Grid.construct width height edgeLength radius noData outputTypes windowSize).m_width
        = width ∧
      (Grid.construct width height edgeLength radius noData outputTypes windowSize).m_height
        = height ∧
      (Grid.construct width height edgeLength radius noData outputTypes windowSize).m_edgeLength
        = edgeLength ∧
      (Grid.construct width height edgeLength radius noData outputTypes windowSize).m_count
        = List.replicate (width * height % sizeMod) 0 :=
  ⟨rfl, rfl, rfl, rfl, rfl⟩

/-- C11, counterexample: width 0, height 0 and edge length 0 give a grid, with an empty count
buffer, and no error. -/
theorem C11_construct_counterexample :
    (Grid.tryConstruct 0 0 (0 : ℚ) 1 0 63 0).isOk = true ∧
      (Grid.tryConstruct 0 0 (0 : ℚ) 1 0 63 0).toOption =
        some (Grid.construct 0 0 (0 : ℚ) 1 0 63 0) ∧
      (Grid.construct 0 0 (0 : ℚ) 1 0 63 0).m_count = [] :=
  ⟨rfl, rfl, rfl⟩

theorem layout_ingested (sqrt : α → α) (g0 g : Grid α) (h : Grid.Ingested sqrt g0 g) :
    g.layout = g0.layout := by
  induction h with
  | fresh => rfl
  | update g i j val dist _ ih => exact (layout_update g i j val dist).trans ih
  | addPoint g x y z _ ih => exact (layout_addPoint sqrt g x y z).trans ih

theorem layout_reachable (sqrt : α → α) (g0 g : Grid α) (h : Grid.Reachable sqrt g0 g) :
    g.layout = g0.layout := by
  induction h with
  | fresh => rfl
  | update g i j val dist _ ih => exact (layout_update g i j val dist).trans ih
  | addPoint g x y z _ ih => exact (layout_addPoint sqrt g x y z).trans ih
  | finalize g _ ih => exact (layout_finalize sqrt g).trans ih

theorem isSome_false_eq_none {p : DataPtr α} (h : p.isSome = false) : p = none := by
  cases p with
  | none => rfl
  | some v => simp at h

/-- C12, as amended.  In every state that a constructed grid reaches by `update`, `addPoint`
and `finalize`, the buffers of `min`, `max`, `stdDev` and `idw` (with `idwDist`) are null when
the statistic is not in `outputTypes`, so that nothing is ever written to them; the `mean`
buffer is null when neither `mean` nor `stdDev` is requested and allocated as soon as `stdDev`
is; the `count` buffer is always allocated, with `width * height` (modulo `2 ^ 64`) values. -/
theorem C12_unrequested_buffers (sqrt : α → α) (width height : Nat)
    (edgeLength radius noData : α) (outputTypes : Int) (windowSize : Nat) (g : Grid α)
    (hg : Grid.Reachable sqrt
      (Grid.construct width height edgeLength radius noData outputTypes windowSize) g) :
    (hasFlag outputTypes statMin = false → g.m_min = none) ∧
      (hasFlag outputTypes statMax = false → g.m_max = none) ∧
      (hasFlag outputTypes statStdDev = false → g.m_stdDev = none) ∧
      (hasFlag outputTypes statIdw = false → g.m_idw = none ∧ g.m_idwDist = none) ∧
      (hasFlag outputTypes statMean = false → hasFlag outputTypes statStdDev = false →
        g.m_mean = none) ∧
      (hasFlag outputTypes statStdDev = true → g.m_mean.isSome = true) ∧
      g.m_count.length = width * height % sizeMod := by
  have hl := layout_reachable sqrt _ g hg
  obtain ⟨_, h1, h2, h3, h4, h5, h6⟩ :=
    construct_isSome width height edgeLength radius noData outputTypes windowSize g hl
  refine ⟨?_, ?_, ?_, ?_, ?_, ?_, ?_⟩
  · intro h
    exact isSome_false_eq_none (by rw [h1, h])
  · intro h
    exact isSome_false_eq_none (by rw [h2, h])
  · intro h
    exact isSome_false_eq_none (by rw [h4, h])
  · intro h
    exact ⟨isSome_false_eq_none (by rw [h5, h]), isSome_false_eq_none (by rw [h6, h])⟩
  · intro h h'
    exact isSome_false_eq_none (by rw [h3, h, h']; rfl)
  · intro h
    rw [h3, h, Bool.or_true]
  · rw [layout_count_length hl]
    simp [Grid.construct]

/-- Witness of C12 as amended: a grid with only `stdDev` requested, after one `update` and
`finalize`. -/
theorem C12_unrequested_buffers_witness :
    (((Grid.construct 1 1 (1 : ℚ) 1 0 16 0).update 0 0 5 1).finalize (fun q => q)).m_min = none ∧
      (((Grid.construct 1 1 (1 : ℚ) 1 0 16 0).update 0 0 5 1).finalize (fun q => q)).m_idw
        = none ∧
      (((Grid.construct 1 1 (1 : ℚ) 1 0 16 0).update 0 0 5 1).finalize
        (fun q => q)).m_mean.isSome = true := by
  have h := C12_unrequested_buffers (fun q : ℚ => q) 1 1 (1 : ℚ) 1 0 16 0 _
    (Grid.Reachable.finalize _ (Grid.Reachable.update _ 0 0 5 1 Grid.Reachable.fresh))
  exact ⟨h.1 (by decide), (h.2.2.2.1 (by decide)).1, h.2.2.2.2.2.1 (by decide)⟩

/-- C12, counterexample: with no statistic requested the count buffer is allocated and `update`
writes it; with only `stdDev` requested the `mean` buffer is allocated and `update` writes
it. -/
theorem C12_count_mean_counterexample :
    hasFlag 0 statCount = false ∧
      (Grid.construct 1 1 (1 : ℚ) 1 0 0 0).m_count = [0] ∧
      ((Grid.construct 1 1 (1 : ℚ) 1 0 0 0).update 0 0 5 1).m_count = [1] ∧
      hasFlag 16 statMean = false ∧
      (Grid.construct 1 1 (1 : ℚ) 1 0 16 0).m_mean = some [0] ∧
      ((Grid.construct 1 1 (1 : ℚ) 1 0 16 0).update 0 0 5 1).m_mean = some [5] := by
  refine ⟨by decide, rfl, ?_, by decide, rfl, ?_⟩
  · norm_num [Grid.update, Grid.construct, Grid.index, toSizeT, sizeMod]
  · have h1 : hasFlag 16 statMean = false := by decide
    have h2 : hasFlag 16 statStdDev = true := by decide
    norm_num [Grid.update, Grid.construct, Grid.index, toSizeT, sizeMod, h1, h2, rd, wr]

end Construction

/-! ## Claim C15: `mean` without `stdDev` -/

section MeanOnly

/-- The four quadrant loops keep every property that `update` keeps. -/
theorem addPointWalks_preserves (sqrt : α → α) (g : Grid α) (x y z : α) (iOrigin jOrigin : Int)
    (P : Grid α → Prop) (hP : ∀ (t : Grid α) (a b : Int) (d : α), P t → P (t.update a b z d))
    (h0 : P g) : P (g.addPointWalks sqrt x y z iOrigin jOrigin) := by
  simp only [Grid.addPointWalks]
  apply quadrant4_invariant sqrt _ x y z jOrigin iOrigin (jOrigin + 1) P iOrigin
    (fun t a b d ht _ _ _ _ => hP t a b d ht)
  · apply quadrant3_invariant sqrt _ x y z iOrigin (iOrigin - 1) jOrigin P jOrigin
      (fun t a b d ht _ _ _ _ => hP t a b d ht)
    · apply quadrant2_invariant sqrt _ x y z jOrigin iOrigin (jOrigin - 1) P iOrigin
        (fun t a b d ht _ _ _ _ => hP t a b d ht)
      · apply quadrant1_invariant sqrt _ x y z iOrigin (iOrigin + 1) jOrigin P jOrigin
          (fun t a b d ht _ _ _ _ => hP t a b d ht) h0
        · omega
        · omega
      · omega
      · omega
    · omega
    · omega
  · omega
  · omega

/-- Method `addPoint` keeps every property that `update` keeps. -/
theorem addPoint_preserves (sqrt : α → α) (g : Grid α) (x y z : α) (P : Grid α → Prop)
    (hP : ∀ (t : Grid α) (a b : Int) (d : α), P t → P (t.update a b z d)) (h0 : P g) :
    P (g.addPoint sqrt x y z) := by
  have hw := addPointWalks_preserves sqrt g x y z (g.horizontalIndex x) (g.verticalIndex y) P
    hP h0
  simp only [Grid.addPoint]
  split
  · exact hP _ _ _ _ hw
  · exact hw

/-- Without a `stdDev` buffer `update` leaves the `mean` buffer as it is. -/
theorem update_mean_of_no_stdDev (g : Grid α) (i j : Int) (val dist : α)
    (h : g.m_stdDev = none) :
    (g.update i j val dist).m_mean = g.m_mean ∧ (g.update i j val dist).m_stdDev = none := by
  simp [Grid.update, h]

theorem ingested_mean_of_no_stdDev (sqrt : α → α) (g0 g : Grid α) (h0 : g0.m_stdDev = none)
    (hg : Grid.Ingested sqrt g0 g) : g.m_mean = g0.m_mean ∧ g.m_stdDev = none := by
  induction hg with
  | fresh => exact ⟨rfl, h0⟩
  | update g i j val dist _ ih =>
    have h := update_mean_of_no_stdDev g i j val dist ih.2
    exact ⟨h.1.trans ih.1, h.2⟩
  | addPoint g x y z _ ih =>
    exact addPoint_preserves sqrt g x y z
      (fun t => t.m_mean = g0.m_mean ∧ t.m_stdDev = none)
      (fun t a b d ht => by
        have h := update_mean_of_no_stdDev t a b z d ht.2
        exact ⟨h.1.trans ht.1, h.2⟩) ih

/-- The loops of `finalize` that normalise `stdDev` and `idw` leave the buffers of `min`, `max`
and `mean` as they are. -/
theorem finalizeStdDev_buffers (sqrt : α → α) (g : Grid α) :
    (g.finalizeStdDev sqrt).m_min = g.m_min ∧ (g.finalizeStdDev sqrt).m_max = g.m_max ∧
      (g.finalizeStdDev sqrt).m_mean = g.m_mean := by
  simp only [Grid.finalizeStdDev]
  apply foldl_invariant
    (fun s : Grid α => s.m_min = g.m_min ∧ s.m_max = g.m_max ∧ s.m_mean = g.m_mean)
  · exact ⟨rfl, rfl, rfl⟩
  · intro t i _ ht
    split
    · exact ht
    · exact ht

theorem finalizeIdw_buffers (g : Grid α) :
    g.finalizeIdw.m_min = g.m_min ∧ g.finalizeIdw.m_max = g.m_max ∧
      g.finalizeIdw.m_mean = g.m_mean := by
  simp only [Grid.finalizeIdw]
  apply foldl_invariant
    (fun s : Grid α => s.m_min = g.m_min ∧ s.m_max = g.m_max ∧ s.m_mean = g.m_mean)
  · exact ⟨rfl, rfl, rfl⟩
  · intro t i _ ht
    split
    · exact ht
    · exact ht

/-- In every grid state, `finalize` leaves `min`, `max` and `mean` of a non-empty cell as they
are. -/
theorem finalize_keeps_values (sqrt : α → α) (g : Grid α) (idx : Nat)
    (hne : g.empty idx = false) :
    rd (g.finalize sqrt).m_min idx = rd g.m_min idx ∧
      rd (g.finalize sqrt).m_max idx = rd g.m_max idx ∧
      rd (g.finalize sqrt).m_mean idx = rd g.m_mean idx := by
  simp only [Grid.finalize]
  have h1 : Grid.Same g (if g.m_stdDev.isSome = true then g.finalizeStdDev sqrt else g) ∧
      (if g.m_stdDev.isSome = true then g.finalizeStdDev sqrt else g).m_min = g.m_min ∧
      (if g.m_stdDev.isSome = true then g.finalizeStdDev sqrt else g).m_max = g.m_max ∧
      (if g.m_stdDev.isSome = true then g.finalizeStdDev sqrt else g).m_mean = g.m_mean := by
    split
    · exact ⟨finalizeStdDev_same sqrt g, finalizeStdDev_buffers sqrt g⟩
    · exact ⟨Grid.Same.refl_same g, rfl, rfl, rfl⟩
  generalize (if g.m_stdDev.isSome = true then g.finalizeStdDev sqrt else g) = g1 at h1
  have h2 : Grid.Same g1 (if g1.m_idw.isSome = true then g1.finalizeIdw else g1) ∧
      (if g1.m_idw.isSome = true then g1.finalizeIdw else g1).m_min = g1.m_min ∧
      (if g1.m_idw.isSome = true then g1.finalizeIdw else g1).m_max = g1.m_max ∧
      (if g1.m_idw.isSome = true then g1.finalizeIdw else g1).m_mean = g1.m_mean := by
    split
    · exact ⟨finalizeIdw_same g1, finalizeIdw_buffers g1⟩
    · exact ⟨Grid.Same.refl_same g1, rfl, rfl, rfl⟩
  generalize (if g1.m_idw.isSome = true then g1.finalizeIdw else g1) = g2 at h2
  have hne2 : g2.empty idx = false := by
    rw [same_empty (h1.1.trans_same h2.1), hne]
  have hk : ∀ g3 : Grid α, Grid.Keeps idx g2 g3 →
      rd g3.m_min idx = rd g.m_min idx ∧ rd g3.m_max idx = rd g.m_max idx ∧
        rd g3.m_mean idx = rd g.m_mean idx := by
    intro g3 h3
    have hc := (cell_eq_iff g2 g3 idx idx).mp h3.2.2
    rw [hc.1, hc.2.1, hc.2.2.1, h2.2.1, h2.2.2.1, h2.2.2.2, h1.2.1, h1.2.2.1, h1.2.2.2]
    exact ⟨rfl, rfl, rfl⟩
  split
  · exact hk _ (windowFill_keeps g2 idx hne2)
  · exact hk _ (finalizeNodata_keeps g2 idx hne2)

/-- C15.  Mean without `stdDev`: on a grid constructed with `mean` requested and `stdDev` not,
in every state reached by `update` and `addPoint`, `update` does not change the `mean` buffer,
which still holds its initial zeros, and after `finalize` the `mean` of every non-empty cell
is 0. -/
theorem C15_mean_without_stdDev (sqrt : α → α) (width height : Nat)
    (edgeLength radius noData : α) (outputTypes : Int) (windowSize : Nat) (g : Grid α)
    (hmean : hasFlag outputTypes statMean = true) (hsd : hasFlag outputTypes statStdDev = false)
    (hg : Grid.Ingested sqrt
      (Grid.construct width height edgeLength radius noData outputTypes windowSize) g) :
    (∀ (i j : Int) (val dist : α), (g.update i j val dist).m_mean = g.m_mean) ∧
      g.m_mean = some (List.replicate (width * height % sizeMod) 0) ∧
      ∀ idx, g.empty idx = false → rd ((g.finalize sqrt).data "mean") idx = 0 := by
  have h0 : (Grid.construct width height edgeLength radius noData outputTypes
      windowSize).m_stdDev = none := by
    simp [Grid.construct, hsd]
  have hm0 : (Grid.construct width height edgeLength radius noData outputTypes
      windowSize).m_mean = some (List.replicate (width * height % sizeMod) 0) := by
    simp [Grid.construct, hmean]
  obtain ⟨hm, hs⟩ := ingested_mean_of_no_stdDev sqrt _ g h0 hg
  refine ⟨fun i j val dist => (update_mean_of_no_stdDev g i j val dist hs).1, hm.trans hm0, ?_⟩
  intro idx hne
  have hl := (layout_finalize sqrt g).trans (layout_ingested sqrt _ g hg)
  have hflag : hasFlag (g.finalize sqrt).m_outputTypes statMean = true := by
    rw [(layout_config hl).2.2.2.2]
    exact hmean
  rw [data_mean _ hflag, (finalize_keeps_values sqrt g idx hne).2.2, hm, hm0]
  exact getD_replicate_zero _ _

/-- Witness of C15: one cell, `mean` requested alone, the value 5 added: the mean of the cell
after `finalize` is 0. -/
theorem C15_mean_without_stdDev_witness :
    ((Grid.construct 1 1 (1 : ℚ) 1 0 8 0).update 0 0 5 1).m_mean = some [0] ∧
      rd ((((Grid.construct 1 1 (1 : ℚ) 1 0 8 0).update 0 0 5 1).finalize
        (fun q => q)).data "mean") 0 = 0 := by
  have h := C15_mean_without_stdDev (fun q : ℚ => q) 1 1 (1 : ℚ) 1 0 8 0 _ (by decide)
    (by decide) (Grid.Ingested.update _ 0 0 5 1 Grid.Ingested.fresh)
  refine ⟨h.2.1, h.2.2 0 ?_⟩
  norm_num [Grid.empty, Grid.update, Grid.construct, Grid.index, toSizeT, sizeMod]

end MeanOnly

/-! ## The window of `windowFill(dstI, dstJ)`: claims C13 and C19 -/

section Window

theorem foldl_flatMap_eq {σ β γ : Type} (f : σ → γ → σ) (h : β → List γ) (l : List β) (s : σ) :
    (l.flatMap h).foldl f s = l.foldl (fun s a => (h a).foldl f s) s := by
  induction l generalizing s with
  | nil => rfl
  | cons a l ih => simp only [List.flatMap_cons, List.foldl_append, List.foldl_cons, ih]

/-- The nested loops of `windowFill(dstI, dstJ)` are one loop over `windowCells`. -/
theorem windowFillScan_eq (g : Grid α) (x : α) (dstI dstJ d : Nat) :
    g.windowFillScan x dstI dstJ d =
      (g.windowCells dstI dstJ).foldl (fun s c => Grid.windowFillBody dstI dstJ d s c.1 c.2)
        (g, x) := by
  simp only [Grid.windowFillScan, Grid.windowCells, foldl_flatMap_eq, List.foldl_map]

theorem mem_windowCells (g : Grid α) (dstI dstJ : Nat) (c : Nat × Nat) :
    c ∈ g.windowCells dstI dstJ ↔
      (stdMax 0 (subSizeT dstI g.m_windowSize) ≤ c.1 ∧
        c.1 < stdMin g.width (addSizeT (addSizeT dstI g.m_windowSize) 1)) ∧
      (stdMax 0 (subSizeT dstJ g.m_windowSize) ≤ c.2 ∧
        c.2 < stdMin g.height (addSizeT (addSizeT dstJ g.m_windowSize) 1)) := by
  obtain ⟨i, j⟩ := c
  simp only [Grid.windowCells, List.mem_flatMap, List.mem_map, List.mem_range'_1, Prod.mk.injEq]
  constructor
  · rintro ⟨a, ha, b, hb, rfl, rfl⟩
    exact ⟨⟨ha.1, by omega⟩, ⟨hb.1, by omega⟩⟩
  · rintro ⟨hi, hj⟩
    exact ⟨i, ⟨hi.1, by omega⟩, j, ⟨hj.1, by omega⟩, rfl, rfl⟩

/-- Away from the left and top edges and from the end of `size_t`, the window is the square of
`windowSize` steps around the destination, cut at the right and bottom edges of the grid. -/
theorem mem_windowCells_inner (g : Grid α) (dstI dstJ : Nat) (c : Nat × Nat)
    (hi : g.m_windowSize ≤ dstI) (hj : g.m_windowSize ≤ dstJ)
    (hi' : dstI + g.m_windowSize + 1 < sizeMod) (hj' : dstJ + g.m_windowSize + 1 < sizeMod) :
    c ∈ g.windowCells dstI dstJ ↔
      (dstI - g.m_windowSize ≤ c.1 ∧ c.1 < min g.m_width (dstI + g.m_windowSize + 1)) ∧
      (dstJ - g.m_windowSize ≤ c.2 ∧ c.2 < min g.m_height (dstJ + g.m_windowSize + 1)) := by
  rw [mem_windowCells]
  simp only [stdMax, stdMin, subSizeT, addSizeT, sizeMod_eq, Grid.width, Grid.height] at hi' hj' ⊢
  constructor
  · rintro ⟨⟨h1, h2⟩, ⟨h3, h4⟩⟩
    split at h1 <;> split at h2 <;> split at h3 <;> split at h4 <;> omega
  · rintro ⟨⟨h1, h2⟩, ⟨h3, h4⟩⟩
    refine ⟨⟨?_, ?_⟩, ⟨?_, ?_⟩⟩ <;> split <;> omega

/-- The distance that `windowFill` computes is positive for every source with `i != j`. -/
theorem windowDistance_pos (dstI dstJ i j : Nat) (hdi : dstI < sizeMod) (hdj : dstJ < sizeMod)
    (hi : i < sizeMod) (hj : j < sizeMod) (hne : i ≠ j) : 0 < windowDistance dstI dstJ i j := by
  simp only [windowDistance, stdMax, subSizeT, sizeMod_eq] at hdi hdj hi hj ⊢
  split <;> split <;> split <;> omega

/-- C13, evaluation of the code: in a grid of three rows and three columns with
`windowSize = 1`, `windowFill(0, 0)` examines no cell at all (`0 - 1` wraps to `2 ^ 64 - 1`, the
start of both loops), where the clamped window of the specification has the four cells
`(0..1, 0..1)`; `windowFill(1, 0)` examines none either, where the clamped window has six
cells; `windowFill(1, 1)` examines the nine cells of the grid, as the specification says. -/
theorem C13_window_wraps_at_edge :
    (Grid.construct 3 3 (1 : ℚ) 1 0 63 1).windowCells 0 0 = [] ∧
      clampedWindowSpec 3 3 1 0 0 = [(0, 0), (0, 1), (1, 0), (1, 1)] ∧
      (Grid.construct 3 3 (1 : ℚ) 1 0 63 1).windowCells 1 0 = [] ∧
      clampedWindowSpec 3 3 1 1 0 = [(0, 0), (0, 1), (1, 0), (1, 1), (2, 0), (2, 1)] ∧
      (Grid.construct 3 3 (1 : ℚ) 1 0 63 1).windowCells 1 1 =
        [(0, 0), (0, 1), (0, 2), (1, 0), (1, 1), (1, 2), (2, 0), (2, 1), (2, 2)] ∧
      clampedWindowSpec 3 3 1 1 1 =
        [(0, 0), (0, 1), (0, 2), (1, 0), (1, 1), (1, 2), (2, 0), (2, 1), (2, 2)] := by
  refine ⟨?_, ?_, ?_, ?_, ?_, ?_⟩ <;> decide

theorem windowFillBody_sum (dstI dstJ d : Nat) (s : Grid α × α) (i j : Nat) :
    s.2 ≤ (Grid.windowFillBody dstI dstJ d s i j).2 ∧
      (i ≠ j → s.1.empty (s.1.index i j) = false → 0 < windowDistance dstI dstJ i j →
        s.2 < (Grid.windowFillBody dstI dstJ d s i j).2) := by
  simp only [Grid.windowFillBody]
  have hnn : (0 : α) ≤ 1 / (windowDistance dstI dstJ i j : α) := by positivity
  constructor
  · split
    · exact le_refl _
    · simp only
      linarith
  · intro hne he hd
    have hpos : (0 : α) < 1 / (windowDistance dstI dstJ i j : α) := by
      have : (0 : α) < (windowDistance dstI dstJ i j : α) := by exact_mod_cast hd
      positivity
    rw [if_neg (by simp [hne, he])]
    simp only
    linarith

/-- The sum `distSum` over a list of cells: it never decreases, and it increases when a cell of
the list is not skipped. -/
theorem scan_sum (g : Grid α) (dstI dstJ d : Nat) (l : List (Nat × Nat))
    (hpos : ∀ c ∈ l, c.1 ≠ c.2 → 0 < windowDistance dstI dstJ c.1 c.2) (s : Grid α × α)
    (hs : Grid.Same g s.1) :
    s.2 ≤ (l.foldl (fun s c => Grid.windowFillBody dstI dstJ d s c.1 c.2) s).2 ∧
      ((∃ c ∈ l, c.1 ≠ c.2 ∧ g.empty (g.index c.1 c.2) = false) →
        s.2 < (l.foldl (fun s c => Grid.windowFillBody dstI dstJ d s c.1 c.2) s).2) := by
  induction l generalizing s with
  | nil =>
    refine ⟨le_refl _, ?_⟩
    rintro ⟨c, hc, _⟩
    simp at hc
  | cons c l ih =>
    simp only [List.foldl_cons]
    have hb := windowFillBody_sum dstI dstJ d s c.1 c.2
    have hs' : Grid.Same g (Grid.windowFillBody dstI dstJ d s c.1 c.2).1 :=
      hs.trans_same (windowFillBody_same dstI dstJ d s c.1 c.2)
    have ih' := ih (fun c' hc' => hpos c' (List.mem_cons_of_mem c hc')) _ hs'
    refine ⟨le_trans hb.1 ih'.1, ?_⟩
    rintro ⟨c', hc', hne, he⟩
    rcases List.mem_cons.mp hc' with rfl | hmem
    · have he' : s.1.empty (s.1.index c'.1 c'.2) = false := by
        rw [layout_index hs.1, same_empty hs, he]
      exact lt_of_lt_of_le (hb.2 hne he' (hpos c' (List.mem_cons_self c' l) hne)) ih'.1
    · exact lt_of_le_of_lt hb.1 (ih'.2 ⟨c', hmem, hne, he⟩)

/-- C19.  The window fill never divides by zero: for values of `size_t`, the distance that
`windowFill(dstI, dstJ)` computes for a source cell `(i, j)` with `i != j`, in arithmetic
modulo `2 ^ 64`, is not zero; so the divisor of `srcStat / distance` and of `1 / distance` is
not zero for the cells that are not skipped, `distSum` never decreases, and it is positive
after the loops as soon as one cell of the window is not skipped. -/
theorem C19_window_distance_nonzero (g : Grid α) (dstI dstJ d : Nat)
    (hw : g.m_width < sizeMod) (hh : g.m_height < sizeMod) (hdi : dstI < sizeMod)
    (hdj : dstJ < sizeMod) :
    (∀ i j, i < sizeMod → j < sizeMod → i ≠ j →
        0 < windowDistance dstI dstJ i j ∧ (windowDistance dstI dstJ i j : α) ≠ 0) ∧
      0 ≤ (g.windowFillScan 0 dstI dstJ d).2 ∧
      ((∃ c ∈ g.windowCells dstI dstJ, c.1 ≠ c.2 ∧ g.empty (g.index c.1 c.2) = false) →
        0 < (g.windowFillScan 0 dstI dstJ d).2) := by
  have hpos : ∀ c ∈ g.windowCells dstI dstJ, c.1 ≠ c.2 →
      0 < windowDistance dstI dstJ c.1 c.2 := by
    intro c hc hne
    rw [mem_windowCells] at hc
    have h1 : c.1 < g.m_width := by
      have := hc.1.2
      simp only [stdMin, Grid.width] at this
      split at this <;> omega
    have h2 : c.2 < g.m_height := by
      have := hc.2.2
      simp only [stdMin, Grid.height] at this
      split at this <;> omega
    exact windowDistance_pos dstI dstJ c.1 c.2 hdi hdj (lt_trans h1 hw) (lt_trans h2 hh) hne
  have hsum := scan_sum g dstI dstJ d (g.windowCells dstI dstJ) hpos (g, 0)
    (Grid.Same.refl_same g)
  rw [← windowFillScan_eq] at hsum
  refine ⟨?_, hsum.1, hsum.2⟩
  intro i j hi hj hne
  have h := windowDistance_pos dstI dstJ i j hdi hdj hi hj hne
  exact ⟨h, by exact_mod_cast (Nat.pos_iff_ne_zero.mp h)⟩

/-- Witness of C19: three rows and three columns with `windowSize = 1`, the destination
`(1, 1)` and the non-empty cell `(2, 1)`, at the computed distance 1. -/
theorem C19_window_distance_witness :
    0 < windowDistance 1 1 2 1 ∧
      0 < (((Grid.construct 3 3 (1 : ℚ) 1 0 63 1).update 2 1 5 1).windowFillScan 0 1 1 4).2 := by
  have h := C19_window_distance_nonzero ((Grid.construct 3 3 (1 : ℚ) 1 0 63 1).update 2 1 5 1)
    1 1 4 (by decide) (by decide) (by decide) (by decide)
  refine ⟨(h.1 2 1 (by decide) (by decide) (by decide)).1,
    h.2.2 ⟨(2, 1), by decide, by decide, ?_⟩⟩
  have h2 : Int.toNat 2 = 2 := rfl
  norm_num [Grid.empty, Grid.update, Grid.construct, Grid.index, toSizeT, sizeMod,
    List.replicate, List.set, h2]

end Window

/-! ## Claim C20: what `finalize` leaves alone -/

section FinalizeFrame

theorem rd_wr_congr (p p' : DataPtr α) (d idx : Nat) (v : α) (hs : shape p' = shape p)
    (hr : rd p' idx = rd p idx) : rd (wr p' d v) idx = rd (wr p d v) idx := by
  by_cases h : idx = d
  · subst h
    cases p with
    | none =>
      cases p' with
      | none => rfl
      | some w => simp [shape] at hs
    | some u =>
      cases p' with
      | none => simp [shape] at hs
      | some w =>
        simp only [shape, Option.some.injEq] at hs
        by_cases hlt : idx < u.length
        · rw [rd_wr_same (some u) idx u.length v rfl hlt,
            rd_wr_same (some w) idx w.length v rfl (by omega)]
        · simp only [wr, rd, List.getD_eq_getElem?_getD]
          rw [List.getElem?_eq_none (by simp; omega), List.getElem?_eq_none (by simp; omega)]
  · rw [rd_wr_ne _ _ _ _ h, rd_wr_ne _ _ _ _ h, hr]

/-- The same write in two grids that agree in a cell gives grids that agree in that cell. -/
theorem cell_writeAt_congr (g g' : Grid α) (d idx : Nat) (a : α × α × α × α × α)
    (hl : g'.layout = g.layout) (hc : g'.cell idx = g.cell idx) :
    (g'.writeAt d a).cell idx = (g.writeAt d a).cell idx := by
  have hs := layout_shapes hl
  have hc' := (cell_eq_iff g g' idx idx).mp hc
  simp only [Grid.cell, Grid.writeAt, Prod.mk.injEq]
  exact ⟨rd_wr_congr _ _ _ _ _ hs.1 hc'.1, rd_wr_congr _ _ _ _ _ hs.2.1 hc'.2.1,
    rd_wr_congr _ _ _ _ _ hs.2.2.1 hc'.2.2.1, rd_wr_congr _ _ _ _ _ hs.2.2.2.1 hc'.2.2.2.1,
    rd_wr_congr _ _ _ _ _ hs.2.2.2.2.1 hc'.2.2.2.2.1, hc'.2.2.2.2.2⟩

theorem layout_writeAt (g : Grid α) (d : Nat) (a : α × α × α × α × α) :
    (g.writeAt d a).layout = g.layout := by
  simp [Grid.layout, Grid.writeAt]

theorem wr_rd_self (p : DataPtr α) (d : Nat) : wr p d (rd p d) = p := by
  cases p with
  | none => rfl
  | some u =>
    simp only [wr, rd, Option.some.injEq]
    apply List.ext_getElem
    · simp
    · intro i h1 h2
      by_cases h : d = i
      · subst h
        simp [List.getD_eq_getElem?_getD, List.getElem?_eq_getElem h2]
      · simp [List.getElem_set_ne h]

theorem fillNodata_eq_writeAt (g : Grid α) (d : Nat) :
    g.fillNodata d = g.writeAt d (g.m_noData, g.m_noData, g.m_noData, g.m_noData, g.m_noData) := by
  simp only [Grid.fillNodata, Grid.writeAt, ite_isSome_wr]

theorem windowFillCell_eq_writeAt (g : Grid α) (s d : Nat) (x : α) :
    g.windowFillCell s d x =
      g.writeAt d (rd g.m_min d + rd g.m_min s / x, rd g.m_max d + rd g.m_max s / x,
        rd g.m_mean d + rd g.m_mean s / x, rd g.m_idw d + rd g.m_idw s / x,
        rd g.m_stdDev d + rd g.m_stdDev s / x) := by
  simp only [Grid.windowFillCell, Grid.writeAt, ite_isSome_wr]

theorem windowFillDivide_eq_writeAt (g : Grid α) (d : Nat) (x : α) :
    g.windowFillDivide d x =
      g.writeAt d (rd g.m_min d / x, rd g.m_max d / x, rd g.m_mean d / x, rd g.m_idw d / x,
        rd g.m_stdDev d / x) := by
  simp only [Grid.windowFillDivide, Grid.writeAt, ite_isSome_wr]

theorem windowFillInit_eq_writeAt (g : Grid α) (d : Nat) :
    g.windowFillInit d = g.writeAt d (0, 0, rd g.m_mean d, rd g.m_idw d, rd g.m_stdDev d) := by
  simp only [Grid.windowFillInit, Grid.writeAt, ite_isSome_wr, wr_rd_self]

theorem Grid.AgreeFor.refl_agree (d : Nat) (g : Grid α) : Grid.AgreeFor d g g :=
  ⟨rfl, rfl, rfl, fun _ _ => rfl⟩

theorem Grid.AgreeFor.trans_agree {d : Nat} {g g' g'' : Grid α} (h : Grid.AgreeFor d g g')
    (h' : Grid.AgreeFor d g' g'') : Grid.AgreeFor d g g'' := by
  refine ⟨h'.1.trans h.1, h'.2.1.trans h.2.1, h'.2.2.1.trans h.2.2.1, ?_⟩
  intro idx hidx
  have he : g'.empty idx = false := by rw [same_empty ⟨h.1, h.2.1⟩, hidx]
  exact (h'.2.2.2 idx he).trans (h.2.2.2 idx hidx)

/-- The same write at `d`, with values that agree, keeps the agreement of two grids. -/
theorem agreeFor_writeAt (d : Nat) (g g' : Grid α) (a : α × α × α × α × α)
    (h : Grid.AgreeFor d g g') : Grid.AgreeFor d (g.writeAt d a) (g'.writeAt d a) := by
  refine ⟨(layout_writeAt g' d a).trans (h.1.trans (layout_writeAt g d a).symm), h.2.1,
    cell_writeAt_congr g g' d d a h.1 h.2.2.1, ?_⟩
  intro idx hidx
  exact cell_writeAt_congr g g' d idx a h.1 (h.2.2.2 idx hidx)

end FinalizeFrame

section FinalizeFrame2

theorem foldl_rel {σ β : Type} (R : σ → σ → Prop) (f : σ → β → σ) (l : List β) (s s' : σ)
    (h : R s s') (hstep : ∀ t t' b, R t t' → R (f t b) (f t' b)) :
    R (l.foldl f s) (l.foldl f s') := by
  induction l generalizing s s' with
  | nil => exact h
  | cons b l ih => exact ih _ _ (hstep s s' b h)

theorem windowCells_layout {g g' : Grid α} (h : g'.layout = g.layout) (dstI dstJ : Nat) :
    g'.windowCells dstI dstJ = g.windowCells dstI dstJ := by
  simp only [Grid.windowCells, Grid.width, Grid.height, layout_width h, layout_height h,
    (layout_config h).1]

theorem agreeFor_init (d : Nat) (g g' : Grid α) (h : Grid.AgreeFor d g g') :
    Grid.AgreeFor d (g.windowFillInit d) (g'.windowFillInit d) := by
  have hc := (cell_eq_iff g g' d d).mp h.2.2.1
  rw [windowFillInit_eq_writeAt, windowFillInit_eq_writeAt, hc.2.2.1, hc.2.2.2.1,
    hc.2.2.2.2.1]
  exact agreeFor_writeAt d g g' _ h

theorem agreeFor_body (dstI dstJ d : Nat) (s s' : Grid α × α) (i j : Nat)
    (h : Grid.AgreeFor d s.1 s'.1 ∧ s'.2 = s.2) :
    Grid.AgreeFor d (Grid.windowFillBody dstI dstJ d s i j).1
        (Grid.windowFillBody dstI dstJ d s' i j).1 ∧
      (Grid.windowFillBody dstI dstJ d s' i j).2 = (Grid.windowFillBody dstI dstJ d s i j).2 := by
  obtain ⟨ha, h2⟩ := h
  have hidx : s'.1.index i j = s.1.index i j := layout_index ha.1 i j
  have hemp : s'.1.empty (s.1.index i j) = s.1.empty (s.1.index i j) :=
    same_empty ⟨ha.1, ha.2.1⟩ _
  simp only [Grid.windowFillBody, hidx, hemp]
  split
  · exact ⟨ha, h2⟩
  · rename_i hskip
    have hne : s.1.empty (s.1.index i j) = false := by
      cases hb : s.1.empty (s.1.index i j) with
      | false => rfl
      | true => exact absurd (Or.inr hb) hskip
    have hcd := (cell_eq_iff s.1 s'.1 d d).mp ha.2.2.1
    have hcs := (cell_eq_iff s.1 s'.1 (s.1.index i j) (s.1.index i j)).mp (ha.2.2.2 _ hne)
    simp only [windowFillCell_eq_writeAt, hcd.1, hcd.2.1, hcd.2.2.1, hcd.2.2.2.1, hcd.2.2.2.2.1,
      hcs.1, hcs.2.1, hcs.2.2.1, hcs.2.2.2.1, hcs.2.2.2.2.1, h2, and_true]
    exact agreeFor_writeAt d s.1 s'.1 _ ha

/-- The window fill of a cell gives, in two grids that agree in that cell and in the non-empty
cells, grids that agree in the same way. -/
theorem windowFillAt_congr (dstI dstJ : Nat) (g g' : Grid α)
    (h : Grid.AgreeFor (g.index dstI dstJ) g g') :
    Grid.AgreeFor (g.index dstI dstJ) (g.windowFillAt dstI dstJ) (g'.windowFillAt dstI dstJ) := by
  have hidx : g'.index dstI dstJ = g.index dstI dstJ := layout_index h.1 dstI dstJ
  have hinit := agreeFor_init _ g g' h
  have hscan : Grid.AgreeFor (g.index dstI dstJ)
      ((g.windowFillInit (g.index dstI dstJ)).windowFillScan 0 dstI dstJ (g.index dstI dstJ)).1
      ((g'.windowFillInit (g.index dstI dstJ)).windowFillScan 0 dstI dstJ (g.index dstI dstJ)).1 ∧
      ((g'.windowFillInit (g.index dstI dstJ)).windowFillScan 0 dstI dstJ (g.index dstI dstJ)).2 =
      ((g.windowFillInit (g.index dstI dstJ)).windowFillScan 0 dstI dstJ (g.index dstI dstJ)).2 := by
    rw [windowFillScan_eq, windowFillScan_eq, windowCells_layout hinit.1]
    exact foldl_rel (fun s s' : Grid α × α => Grid.AgreeFor (g.index dstI dstJ) s.1 s'.1 ∧
        s'.2 = s.2) _ _ _ _ ⟨hinit, rfl⟩
      (fun t t' c ht => agreeFor_body dstI dstJ _ t t' c.1 c.2 ht)
  simp only [Grid.windowFillAt, hidx]
  obtain ⟨hs1, hs2⟩ := hscan
  rw [hs2]
  have hcd := (cell_eq_iff _ _ (g.index dstI dstJ) (g.index dstI dstJ)).mp hs1.2.2.1
  split
  · simp only [windowFillDivide_eq_writeAt, hcd.1, hcd.2.1, hcd.2.2.1, hcd.2.2.2.1,
      hcd.2.2.2.2.1]
    exact agreeFor_writeAt _ _ _ _ hs1
  · simp only [fillNodata_eq_writeAt, (layout_config hs1.1).2.2.2.1]
    exact agreeFor_writeAt _ _ _ _ hs1

/-- The window fill of another, empty, cell keeps the agreement. -/
theorem agreeFor_windowFillAt_other (d : Nat) (t : Grid α) (i j : Nat)
    (he : t.emptyCell i j = true) (hne : d ≠ t.index i j) :
    Grid.AgreeFor d t (t.windowFillAt i j) := by
  have hk := windowFillAt_keeps t i j d hne
  refine ⟨hk.1, hk.2.1, hk.2.2, ?_⟩
  intro idx hidx
  have hne' : idx ≠ t.index i j := by
    intro hc
    rw [Grid.emptyCell, ← hc, hidx] at he
    exact Bool.false_ne_true he
  exact (windowFillAt_keeps t i j idx hne').2.2

/-- Order independence: whatever the order in which the empty cells of a list are filled, the
accumulators that the window fill leaves in an empty cell of the list are those that
`windowFill(i, j)` computes on the grid as it was before any cell was filled. -/
theorem windowFillOrder_cell (g : Grid α) (order : List (Nat × Nat))
    (hnd : (order.map (fun c => g.index c.1 c.2)).Nodup) (c : Nat × Nat) (hc : c ∈ order)
    (he : g.emptyCell c.1 c.2 = true) :
    (g.windowFillOrder order).cell (g.index c.1 c.2) =
      (g.windowFillAt c.1 c.2).cell (g.index c.1 c.2) := by
  have hinj := List.inj_on_of_nodup_map hnd
  obtain ⟨g1, h1, h2⟩ := (foldl_split
    (fun t t' : Grid α => t.layout = g.layout → Grid.AgreeFor (g.index c.1 c.2) t t')
    (fun s _ => Grid.AgreeFor.refl_agree _ s)
    (fun s t u hst htu hs => (hst hs).trans_agree (htu ((hst hs).1.trans hs)))
    (fun (t : Grid α) (b : Nat × Nat) =>
      if t.emptyCell b.1 b.2 = true then t.windowFillAt b.1 b.2 else t) c order g
    (fun t b hb hne ht => by
      simp only
      split
      · rename_i heb
        apply agreeFor_windowFillAt_other _ t b.1 b.2 heb
        rw [layout_index ht]
        intro hcontra
        exact hne (hinj hb hc hcontra.symm)
      · exact Grid.AgreeFor.refl_agree _ t)).2 (List.Nodup.of_map _ hnd) hc
  have ha1 := h1 rfl
  have he1 : g1.emptyCell c.1 c.2 = true := by
    rw [same_emptyCell ⟨ha1.1, ha1.2.1⟩, he]
  simp only [he1, if_true] at h2
  have hcongr := windowFillAt_congr c.1 c.2 g g1 ha1
  have h2' := h2 (hcongr.1.trans (windowFillAt_same g c.1 c.2).1)
  simp only [Grid.windowFillOrder]
  rw [h2'.2.2.1, hcongr.2.2.1]

end FinalizeFrame2

section FinalizeFrame3

theorem foldl_congr_invariant {σ β : Type} (I : σ → Prop) (f f' : σ → β → σ) (l : List β)
    (s : σ) (h0 : I s) (hI : ∀ t b, I t → I (f t b)) (hff : ∀ t b, I t → f' t b = f t b) :
    l.foldl f' s = l.foldl f s := by
  induction l generalizing s with
  | nil => rfl
  | cons b l ih =>
    simp only [List.foldl_cons]
    rw [hff s b h0]
    exact ih _ (hI s b h0)

/-- Method `windowFill()` fills the empty cells in the order of `allCells`. -/
theorem windowFill_eq_windowFillOrder (g : Grid α) :
    g.windowFill = g.windowFillOrder g.allCells := by
  simp only [Grid.windowFillOrder, Grid.allCells, foldl_flatMap_eq, List.foldl_map,
    Grid.windowFill]
  apply foldl_congr_invariant (fun t : Grid α => t.layout = g.layout)
  · rfl
  · intro t i ht
    apply foldl_invariant (fun s : Grid α => s.layout = g.layout)
    · exact ht
    · intro u j _ hu
      split
      · exact (windowFillAt_same u i j).1.trans hu
      · exact hu
  · intro t i ht
    simp only [Grid.windowFillColumn, Grid.height, layout_height ht]

/-- In a well-formed grid the cells of `allCells` have distinct storage indices. -/
theorem allCells_nodup_index (g : Grid α) (hwf : g.WellFormed) :
    (g.allCells.map (fun c => g.index c.1 c.2)).Nodup := by
  have hnd : g.allCells.Nodup := by
    have := List.Nodup.product (List.nodup_range g.width) (List.nodup_range g.height)
    simpa [Grid.allCells, List.product] using this
  apply List.Nodup.map_on _ hnd
  intro a ha b hb hab
  have hmem : ∀ c ∈ g.allCells, c.1 < g.m_width ∧ c.2 < g.m_height := by
    intro c hc
    simp only [Grid.allCells, List.mem_flatMap, List.mem_map, List.mem_range] at hc
    obtain ⟨i, hi, j, hj, rfl⟩ := hc
    exact ⟨hi, hj⟩
  have h := index_inj g hwf.size_lt (hmem a ha).1 (hmem a ha).2 (hmem b hb).1 (hmem b hb).2 hab
  exact Prod.ext h.1 h.2

theorem mem_allCells (g : Grid α) (c : Nat × Nat) :
    c ∈ g.allCells ↔ c.1 < g.m_width ∧ c.2 < g.m_height := by
  obtain ⟨i, j⟩ := c
  simp only [Grid.allCells, List.mem_flatMap, List.mem_map, List.mem_range, Prod.mk.injEq,
    Grid.width, Grid.height]
  constructor
  · rintro ⟨a, ha, b, hb, rfl, rfl⟩
    exact ⟨ha, hb⟩
  · rintro ⟨hi, hj⟩
    exact ⟨i, hi, j, hj, rfl, rfl⟩

/-- C20.  The frame of `finalize`, in every grid state and for every `windowSize`: the counts
are unchanged; `min`, `max` and `mean` of every non-empty cell are unchanged; the gap filling,
by `fillNodata` or by the window fill, leaves every accumulator of every non-empty cell
unchanged, so it writes to empty cells only; and the value that the window fill leaves in an
empty cell does not depend on the order in which the empty cells are filled: for every order
of cells with distinct storage indices it is the value that `windowFill(i, j)` computes on the
grid as it was before the pass, and `windowFill()` is the fill in the order of `allCells`. -/
theorem C20_finalize_frame (sqrt : α → α) (g : Grid α) :
    (g.finalize sqrt).m_count = g.m_count ∧
      (∀ idx, g.empty idx = false →
        rd (g.finalize sqrt).m_min idx = rd g.m_min idx ∧
        rd (g.finalize sqrt).m_max idx = rd g.m_max idx ∧
        rd (g.finalize sqrt).m_mean idx = rd g.m_mean idx) ∧
      (∀ idx, g.empty idx = false →
        g.windowFill.cell idx = g.cell idx ∧ g.finalizeNodata.cell idx = g.cell idx) ∧
      g.windowFill = g.windowFillOrder g.allCells ∧
      (∀ (order : List (Nat × Nat)) (c : Nat × Nat),
        (order.map (fun c => g.index c.1 c.2)).Nodup → c ∈ order → g.emptyCell c.1 c.2 = true →
        (g.windowFillOrder order).cell (g.index c.1 c.2) =
          (g.windowFillAt c.1 c.2).cell (g.index c.1 c.2)) ∧
      (g.WellFormed → ∀ i j, i < g.m_width → j < g.m_height → g.emptyCell i j = true →
        g.windowFill.cell (g.index i j) = (g.windowFillAt i j).cell (g.index i j)) := by
  refine ⟨finalize_count sqrt g, fun idx h => finalize_keeps_values sqrt g idx h,
    fun idx h => ⟨(windowFill_keeps g idx h).2.2, (finalizeNodata_keeps g idx h).2.2⟩,
    windowFill_eq_windowFillOrder g,
    fun order c hnd hc he => windowFillOrder_cell g order hnd c hc he, ?_⟩
  intro hwf i j hi hj he
  rw [windowFill_eq_windowFillOrder]
  exact windowFillOrder_cell g g.allCells (allCells_nodup_index g hwf) (i, j)
    ((mem_allCells g (i, j)).mpr ⟨hi, hj⟩) he

end FinalizeFrame3

/-! ## Claim C14: the weights of the window fill -/

section WindowLaw

theorem windowFillBody_min (dstI dstJ d : Nat) (s : Grid α × α) (i j n : Nat)
    (hs : shape s.1.m_min = some n) (hd : d < n) :
    rd (Grid.windowFillBody dstI dstJ d s i j).1.m_min d =
        (if i = j ∨ s.1.empty (s.1.index i j) = true then rd s.1.m_min d
          else rd s.1.m_min d +
            rd s.1.m_min (s.1.index i j) / (windowDistance dstI dstJ i j : α)) ∧
      (Grid.windowFillBody dstI dstJ d s i j).2 =
        (if i = j ∨ s.1.empty (s.1.index i j) = true then s.2
          else s.2 + 1 / (windowDistance dstI dstJ i j : α)) := by
  simp only [Grid.windowFillBody]
  split
  · exact ⟨rfl, rfl⟩
  · refine ⟨?_, rfl⟩
    have hsome : s.1.m_min.isSome = true := by rw [← shape_isSome, hs]; rfl
    simp only [Grid.windowFillCell, hsome, if_true]
    exact rd_wr_same _ _ n _ hs hd

theorem scan_min (g : Grid α) (dstI dstJ d n : Nat) (hd : d < n) (he : g.empty d = true)
    (l : List (Nat × Nat)) (s : Grid α × α) (hsame : Grid.Same g s.1)
    (hshape : shape s.1.m_min = some n)
    (hk : ∀ idx, idx ≠ d → rd s.1.m_min idx = rd g.m_min idx) :
    rd (l.foldl (fun s c => Grid.windowFillBody dstI dstJ d s c.1 c.2) s).1.m_min d =
        rd s.1.m_min d +
          ((g.sourcesOf dstI dstJ l).map (fun t => rd g.m_min t.1 / (t.2 : α))).sum ∧
      (l.foldl (fun s c => Grid.windowFillBody dstI dstJ d s c.1 c.2) s).2 =
        s.2 + ((g.sourcesOf dstI dstJ l).map (fun t => 1 / (t.2 : α))).sum := by
  induction l generalizing s with
  | nil => simp [Grid.sourcesOf]
  | cons c l ih =>
    have hb := windowFillBody_min dstI dstJ d s c.1 c.2 n hshape hd
    have hsame' := hsame.trans_same (windowFillBody_same dstI dstJ d s c.1 c.2)
    have hshape' : shape (Grid.windowFillBody dstI dstJ d s c.1 c.2).1.m_min = some n := by
      rw [(layout_shapes (windowFillBody_same dstI dstJ d s c.1 c.2).1).1, hshape]
    have hk' : ∀ idx, idx ≠ d →
        rd (Grid.windowFillBody dstI dstJ d s c.1 c.2).1.m_min idx = rd g.m_min idx := by
      intro idx hidx
      have h := (windowFillBody_keeps dstI dstJ d s c.1 c.2 idx hidx).2.2
      rw [((cell_eq_iff _ _ idx idx).mp h).1]
      exact hk idx hidx
    have hi := ih (Grid.windowFillBody dstI dstJ d s c.1 c.2) hsame' hshape' hk'
    rw [List.foldl_cons, hi.1, hi.2, hb.1, hb.2]
    have hidx : s.1.index c.1 c.2 = g.index c.1 c.2 := layout_index hsame.1 c.1 c.2
    have hemp : s.1.empty (g.index c.1 c.2) = g.empty (g.index c.1 c.2) := same_empty hsame _
    rw [hidx, hemp]
    by_cases hskip : c.1 = c.2 ∨ g.empty (g.index c.1 c.2) = true
    · simp only [Grid.sourcesOf, List.filterMap_cons, if_pos hskip]
      exact ⟨trivial, trivial⟩
    · have hne : g.index c.1 c.2 ≠ d := by
        intro hcd
        rw [hcd] at hskip
        exact hskip (Or.inr he)
      simp only [Grid.sourcesOf, List.filterMap_cons, if_neg hskip, List.map_cons, List.sum_cons,
        hk _ hne]
      constructor <;> ring

/-- The value that `windowFill(dstI, dstJ)` leaves in the `min` buffer of an empty cell: the
sum of `min(src) / distance` over the sources that the scan does not skip, divided by the sum
of `1 / distance`, with the distance that the code computes; `noData` when that sum is not
positive. -/
theorem windowFillAt_min (g : Grid α) (dstI dstJ n : Nat) (hs : shape g.m_min = some n)
    (hd : g.index dstI dstJ < n) (he : g.empty (g.index dstI dstJ) = true) :
    rd (g.windowFillAt dstI dstJ).m_min (g.index dstI dstJ) =
      if 0 < ((g.windowSources dstI dstJ).map (fun t => 1 / (t.2 : α))).sum then
        ((g.windowSources dstI dstJ).map (fun t => rd g.m_min t.1 / (t.2 : α))).sum /
          ((g.windowSources dstI dstJ).map (fun t => 1 / (t.2 : α))).sum
      else g.m_noData := by
  have hsome : g.m_min.isSome = true := by rw [← shape_isSome, hs]; rfl
  have hinit := windowFillInit_same g (g.index dstI dstJ)
  have hshape : shape (g.windowFillInit (g.index dstI dstJ)).m_min = some n := by
    rw [(layout_shapes hinit.1).1, hs]
  have hk : ∀ idx, idx ≠ g.index dstI dstJ →
      rd (g.windowFillInit (g.index dstI dstJ)).m_min idx = rd g.m_min idx := by
    intro idx hidx
    have h := (windowFillInit_keeps g (g.index dstI dstJ) idx hidx).2.2
    exact ((cell_eq_iff _ _ idx idx).mp h).1
  have h0 : rd (g.windowFillInit (g.index dstI dstJ)).m_min (g.index dstI dstJ) = 0 := by
    simp only [Grid.windowFillInit, hsome, if_true]
    exact rd_wr_same _ _ n _ hs hd
  have hscan := scan_min g dstI dstJ (g.index dstI dstJ) n hd he
    ((g.windowFillInit (g.index dstI dstJ)).windowCells dstI dstJ)
    (g.windowFillInit (g.index dstI dstJ), 0) hinit hshape hk
  rw [← windowFillScan_eq, h0, zero_add, zero_add, windowCells_layout hinit.1] at hscan
  have hsc := windowFillScan_same (g.windowFillInit (g.index dstI dstJ)) 0 dstI dstJ
    (g.index dstI dstJ)
  have hshape2 := ((layout_shapes hsc.1).1).trans hshape
  have hsome2 : ((g.windowFillInit (g.index dstI dstJ)).windowFillScan 0 dstI dstJ
      (g.index dstI dstJ)).1.m_min.isSome = true := by rw [← shape_isSome, hshape2]; rfl
  have hnd : ((g.windowFillInit (g.index dstI dstJ)).windowFillScan 0 dstI dstJ
      (g.index dstI dstJ)).1.m_noData = g.m_noData :=
    ((layout_config hsc.1).2.2.2.1).trans (layout_config hinit.1).2.2.2.1
  simp only [Grid.windowFillAt, Grid.windowSources]
  rw [hscan.2]
  split
  · simp only [Grid.windowFillDivide, hsome2, if_true]
    rw [rd_wr_same _ _ n _ hshape2 hd, hscan.1]
  · simp only [Grid.fillNodata, hsome2, if_true]
    rw [rd_wr_same _ _ n _ hshape2 hd, hnd]

end WindowLaw

section WindowLaw2

theorem windowSources_same {g g' : Grid α} (h : Grid.Same g g') (dstI dstJ : Nat) :
    g'.windowSources dstI dstJ = g.windowSources dstI dstJ := by
  simp only [Grid.windowSources, Grid.sourcesOf, windowCells_layout h.1, layout_index h.1,
    same_empty h]

/-- The state in which `finalize` starts the window fill. -/
theorem finalize_fill_state (sqrt : α → α) (g : Grid α) (hws : 0 < g.m_windowSize) :
    ∃ g2 : Grid α, Grid.Same g g2 ∧ g2.m_min = g.m_min ∧ g.finalize sqrt = g2.windowFill := by
  simp only [Grid.finalize]
  have h1 : Grid.Same g (if g.m_stdDev.isSome = true then g.finalizeStdDev sqrt else g) ∧
      (if g.m_stdDev.isSome = true then g.finalizeStdDev sqrt else g).m_min = g.m_min := by
    split
    · exact ⟨finalizeStdDev_same sqrt g, (finalizeStdDev_buffers sqrt g).1⟩
    · exact ⟨Grid.Same.refl_same g, rfl⟩
  generalize (if g.m_stdDev.isSome = true then g.finalizeStdDev sqrt else g) = g1 at h1
  have h2 : Grid.Same g1 (if g1.m_idw.isSome = true then g1.finalizeIdw else g1) ∧
      (if g1.m_idw.isSome = true then g1.finalizeIdw else g1).m_min = g1.m_min := by
    split
    · exact ⟨finalizeIdw_same g1, (finalizeIdw_buffers g1).1⟩
    · exact ⟨Grid.Same.refl_same g1, rfl⟩
  generalize (if g1.m_idw.isSome = true then g1.finalizeIdw else g1) = g2 at h2
  have hs : Grid.Same g g2 := h1.1.trans_same h2.1
  refine ⟨g2, hs, h2.2.trans h1.2, ?_⟩
  rw [if_pos]
  rw [(layout_config hs.1).1]
  exact hws

/-- The value that `finalize` leaves in the `min` band for an empty cell `(i, j)` of a grid
with `windowSize > 0`: the average of the `min` values of the sources that
`windowFill(i, j)` does not skip, each weighted by the inverse of the distance that the code
computes for it, and `noData` when no source contributes. -/
theorem finalize_min_fill (sqrt : α → α) (g : Grid α) (hwf : g.WellFormed)
    (hws : 0 < g.m_windowSize) (hflag : hasFlag g.m_outputTypes statMin = true) (i j : Nat)
    (hi : i < g.m_width) (hj : j < g.m_height) (he : g.emptyCell i j = true) :
    (g.finalize sqrt).stat "min" i j =
      if 0 < ((g.windowSources i j).map (fun t => 1 / (t.2 : α))).sum then
        ((g.windowSources i j).map (fun t => rd g.m_min t.1 / (t.2 : α))).sum /
          ((g.windowSources i j).map (fun t => 1 / (t.2 : α))).sum
      else g.m_noData := by
  obtain ⟨g2, hs, hmin, hfin⟩ := finalize_fill_state sqrt g hws
  have hwf2 : g2.WellFormed := wellFormed_of_layout hs.1 hwf
  have hsw := windowFill_same g2
  have hflag2 : hasFlag g2.windowFill.m_outputTypes statMin = true := by
    rw [(layout_config hsw.1).2.2.2.2, (layout_config hs.1).2.2.2.2]
    exact hflag
  have hi2 : i < g2.m_width := by rw [layout_width hs.1]; exact hi
  have hj2 : j < g2.m_height := by rw [layout_height hs.1]; exact hj
  have he2 : g2.emptyCell i j = true := by rw [same_emptyCell hs]; exact he
  have hshape : shape g2.m_min = some (g2.m_width * g2.m_height) := by
    have h := hwf2.min_shape
    rw [(layout_config hs.1).2.2.2.2, hflag] at h
    simpa using h
  have hidx := index_lt g2 hwf2.size_lt hi2 hj2
  have hcell := windowFillOrder_cell g2 g2.allCells (allCells_nodup_index g2 hwf2) (i, j)
    ((mem_allCells g2 (i, j)).mpr ⟨hi2, hj2⟩) he2
  rw [← windowFill_eq_windowFillOrder] at hcell
  have hrd := ((cell_eq_iff _ _ _ _).mp hcell).1
  simp only [] at hrd
  rw [hfin, Grid.stat, data_min _ hflag2, layout_index hsw.1, hrd,
    windowFillAt_min g2 i j _ hshape hidx he2, windowSources_same hs, hmin,
    (layout_config hs.1).2.2.2.1]

end WindowLaw2

section WindowWeights

theorem dblMax_ge (v : ℚ) (h : v ≤ 3) : stdMin v dblMax = v := by
  have : (3 : ℚ) ≤ dblMax := by
    simp only [dblMax]
    norm_num
  simp only [stdMin]
  rw [if_neg (by linarith)]

/-- The grid of three rows and three columns with `min` requested and `windowSize = 1`, after
`update(0, 2, 3, 1)` and `update(2, 1, 0, 1)`. -/
theorem two_updates_state :
    ((Grid.construct 3 3 (1 : ℚ) 1 (-9999) 2 1).update 0 2 3 1).update 2 1 0 1 =
    { m_width := 3, m_height := 3, m_windowSize := 1, m_edgeLength := 1, m_radius := 1,
      m_noData := -9999, m_outputTypes := 2,
      m_count := [0, 0, 0, 0, 0, 1, 1, 0, 0],
      m_min := some [dblMax, dblMax, dblMax, dblMax, dblMax, 0, 3, dblMax, dblMax],
      m_max := none, m_mean := none, m_stdDev := none, m_idw := none, m_idwDist := none } := by
  have f1 : hasFlag 2 statMin = true := by decide
  have f2 : hasFlag 2 statMax = false := by decide
  have f3 : hasFlag 2 statMean = false := by decide
  have f4 : hasFlag 2 statStdDev = false := by decide
  have f5 : hasFlag 2 statIdw = false := by decide
  have t2 : Int.toNat 2 = 2 := rfl
  have t1 : Int.toNat 1 = 1 := rfl
  have t0 : Int.toNat 0 = 0 := rfl
  simp [Grid.update, Grid.construct, Grid.index, toSizeT, sizeMod, f1, f2, f3, f4, f5, rd, wr,
    List.replicate, t2, t1, t0, dblMax_ge]

theorem two_updates_sources :
    (((Grid.construct 3 3 (1 : ℚ) 1 (-9999) 2 1).update 0 2 3 1).update 2 1 0
      1).windowSources 1 2 = [(6, 2), (5, 1)] := by
  have hc : (((Grid.construct 3 3 (1 : ℚ) 1 (-9999) 2 1).update 0 2 3 1).update 2 1 0
      1).windowCells 1 2 = [(0, 1), (0, 2), (1, 1), (1, 2), (2, 1), (2, 2)] := by decide
  have d1 : windowDistance 1 2 0 2 = 2 := by decide
  have d2 : windowDistance 1 2 2 1 = 1 := by decide
  simp only [Grid.windowSources, hc]
  rw [two_updates_state]
  simp [Grid.sourcesOf, Grid.empty, Grid.index, sizeMod, d1, d2]

/-- C14, evaluation of the code.  Grid of three rows and three columns, `min` requested,
`windowSize = 1`, `noData = -9999`; `update(0, 2, 3, 1)` and `update(2, 1, 0, 1)` make the
cells `(0, 2)` and `(2, 1)` non-empty with `min` 3 and 0.  Both are at Chebyshev distance 1
from the empty cell `(1, 2)`, so the weighted average of the claim is `(3/1 + 0/1) / (1/1 +
1/1) = 3/2`.  The code computes the distance 2 for `(0, 2)` (its second term is `dstJ - i`,
not `dstI - i`) and `finalize` stores `(3/2 + 0/1) / (1/2 + 1/1) = 1`. -/
theorem C14_window_fill_weighting_eval :
    (∀ sqrt : ℚ → ℚ,
      ((((Grid.construct 3 3 (1 : ℚ) 1 (-9999) 2 1).update 0 2 3 1).update 2 1 0 1).finalize
        sqrt).stat "min" 1 2 = 1) ∧
      (((Grid.construct 3 3 (1 : ℚ) 1 (-9999) 2 1).update 0 2 3 1).update 2 1 0
        1).windowCells 1 2 = [(0, 1), (0, 2), (1, 1), (1, 2), (2, 1), (2, 2)] ∧
      (((Grid.construct 3 3 (1 : ℚ) 1 (-9999) 2 1).update 0 2 3 1).update 2 1 0
        1).windowSources 1 2 = [(6, 2), (5, 1)] ∧
      windowDistance 1 2 0 2 = 2 ∧ chebyshevDistance 1 2 0 2 = 1 ∧
      windowDistance 1 2 2 1 = 1 ∧ chebyshevDistance 1 2 2 1 = 1 ∧
      ((3 : ℚ) / (chebyshevDistance 1 2 0 2 : ℚ) + 0 / (chebyshevDistance 1 2 2 1 : ℚ)) /
        (1 / (chebyshevDistance 1 2 0 2 : ℚ) + 1 / (chebyshevDistance 1 2 2 1 : ℚ)) = 3 / 2 := by
  have c1 : chebyshevDistance 1 2 0 2 = 1 := by decide
  have c2 : chebyshevDistance 1 2 2 1 = 1 := by decide
  refine ⟨?_, by decide, two_updates_sources, by decide, c1, by decide, c2, ?_⟩
  · intro sqrt
    have hl : (((Grid.construct 3 3 (1 : ℚ) 1 (-9999) 2 1).update 0 2 3 1).update 2 1 0
        1).layout = (Grid.construct 3 3 (1 : ℚ) 1 (-9999) 2 1).layout := by
      rw [layout_update, layout_update]
    have hwf := wellFormed_of_layout hl
      (construct_wellFormed 3 3 (1 : ℚ) 1 (-9999) 2 1 (by decide))
    have he : (((Grid.construct 3 3 (1 : ℚ) 1 (-9999) 2 1).update 0 2 3 1).update 2 1 0
        1).emptyCell 1 2 = true := by
      have hidx : (((Grid.construct 3 3 (1 : ℚ) 1 (-9999) 2 1).update 0 2 3 1).update 2 1 0
          1).index 1 2 = 7 := by decide
      simp only [Grid.emptyCell, hidx]
      rw [two_updates_state]
      simp [Grid.empty]
    rw [finalize_min_fill sqrt _ hwf (by decide) (by decide) 1 2 (by decide) (by decide) he,
      two_updates_sources]
    rw [two_updates_state]
    norm_num [rd]
  · rw [c1, c2]
    norm_num

end WindowWeights

/-! ## Claim C16: termination of the loops -/

section Termination

theorem loopFuel_isSome {σ : Type} (step : σ → Option σ) (Inv : σ → Prop) (slow fast : σ → Nat)
    (F : Nat)
    (hstep : ∀ s s', Inv s → step s = some s' →
      Inv s' ∧ ((slow s' = slow s ∧ fast s' < fast s) ∨ (slow s' < slow s ∧ fast s' ≤ F)))
    (fuel : Nat) (s : σ) (hs : Inv s) (hf : slow s * (F + 1) + fast s < fuel) :
    (loopFuel step fuel s).isSome = true := by
  induction fuel generalizing s with
  | zero => omega
  | succ n ih =>
    simp only [loopFuel]
    cases hst : step s with
    | none => rfl
    | some s' =>
      simp only []
      obtain ⟨hinv, h⟩ := hstep s s' hs hst
      apply ih s' hinv
      rcases h with ⟨h1, h2⟩ | ⟨h1, h2⟩
      · rw [h1]
        omega
      · have hmul : (slow s' + 1) * (F + 1) ≤ slow s * (F + 1) := Nat.mul_le_mul_right _ h1
        rw [Nat.succ_mul] at hmul
        omega

/-- A loop that is left within the bound computes what the recursive form of the loop
computes. -/
theorem loopFuel_eq {σ τ : Type} (step : σ → Option σ) (rec out : σ → τ)
    (hrec : ∀ s, rec s = (step s).elim (out s) rec)
    (fuel : Nat) (s r : σ) (h : loopFuel step fuel s = some r) : out r = rec s := by
  induction fuel generalizing s with
  | zero => simp [loopFuel] at h
  | succ n ih =>
    simp only [loopFuel] at h
    rw [hrec s]
    cases hst : step s with
    | none =>
      rw [hst] at h
      simp only [Option.some.injEq] at h
      rw [h]
      rfl
    | some s' =>
      rw [hst] at h
      exact ih s' h

theorem loopFuel_result {σ τ : Type} (step : σ → Option σ) (rec out : σ → τ)
    (hrec : ∀ s, rec s = (step s).elim (out s) rec)
    (fuel : Nat) (s : σ) (h : (loopFuel step fuel s).isSome = true) :
    (loopFuel step fuel s).map out = some (rec s) := by
  obtain ⟨r, hr⟩ := Option.isSome_iff_exists.mp h
  rw [hr, Option.map_some', loopFuel_eq step rec out hrec fuel s r hr]

/-- A `for` loop over a counter is left after `n - i` iterations, with the result of the fold
over the values of the counter. -/
theorem forStep_fuel {σ : Type} (n : Nat) (body : σ → Nat → σ) (fuel i : Nat) (s : σ)
    (hf : n - i < fuel) :
    (loopFuel (forStep n body) fuel (i, s)).map Prod.snd =
      some ((List.range' i (n - i)).foldl body s) := by
  induction fuel generalizing i s with
  | zero => omega
  | succ k ih =>
    simp only [loopFuel, forStep]
    by_cases hin : i < n
    · rw [if_pos hin]
      simp only []
      rw [ih (i + 1) (body s i) (by omega)]
      have : n - i = (n - (i + 1)) + 1 := by omega
      rw [this, List.range'_succ, List.foldl_cons]
    · rw [if_neg hin]
      have : n - i = 0 := by omega
      simp [this]

theorem quadrant1_step (sqrt : α → α) (x y z : α) (iOrigin : Int) (s : Grid α × Int × Int) :
    s.1.quadrant1 sqrt x y z iOrigin s.2.1 s.2.2 =
      (Grid.quadrant1Step sqrt x y z iOrigin s).elim s.1
        (fun s' => s'.1.quadrant1 sqrt x y z iOrigin s'.2.1 s'.2.2) := by
  rw [Grid.quadrant1]
  simp only [Grid.quadrant1Step]
  split_ifs <;> rfl

theorem quadrant2_step (sqrt : α → α) (x y z : α) (jOrigin : Int) (s : Grid α × Int × Int) :
    s.1.quadrant2 sqrt x y z jOrigin s.2.1 s.2.2 =
      (Grid.quadrant2Step sqrt x y z jOrigin s).elim s.1
        (fun s' => s'.1.quadrant2 sqrt x y z jOrigin s'.2.1 s'.2.2) := by
  rw [Grid.quadrant2]
  simp only [Grid.quadrant2Step]
  split_ifs <;> rfl

theorem quadrant3_step (sqrt : α → α) (x y z : α) (iOrigin : Int) (s : Grid α × Int × Int) :
    s.1.quadrant3 sqrt x y z iOrigin s.2.1 s.2.2 =
      (Grid.quadrant3Step sqrt x y z iOrigin s).elim s.1
        (fun s' => s'.1.quadrant3 sqrt x y z iOrigin s'.2.1 s'.2.2) := by
  rw [Grid.quadrant3]
  simp only [Grid.quadrant3Step]
  split_ifs <;> rfl

theorem quadrant4_step (sqrt : α → α) (x y z : α) (jOrigin : Int) (s : Grid α × Int × Int) :
    s.1.quadrant4 sqrt x y z jOrigin s.2.1 s.2.2 =
      (Grid.quadrant4Step sqrt x y z jOrigin s).elim s.1
        (fun s' => s'.1.quadrant4 sqrt x y z jOrigin s'.2.1 s'.2.2) := by
  rw [Grid.quadrant4]
  simp only [Grid.quadrant4Step]
  split_ifs <;> rfl

theorem quadrant1_fuel (sqrt : α → α) (g : Grid α) (x y z : α) (iOrigin i j : Int) (fuel : Nat)
    (hf : (j + 1).toNat * (((g.m_width : Int) - iOrigin - 1).toNat + 1) +
      ((g.m_width : Int) - i).toNat < fuel) :
    (loopFuel (Grid.quadrant1Step sqrt x y z iOrigin) fuel (g, i, j)).map Prod.fst =
      some (g.quadrant1 sqrt x y z iOrigin i j) := by
  apply loopFuel_result (Grid.quadrant1Step sqrt x y z iOrigin)
    (fun s => s.1.quadrant1 sqrt x y z iOrigin s.2.1 s.2.2) Prod.fst
    (quadrant1_step sqrt x y z iOrigin) fuel (g, i, j)
  apply loopFuel_isSome (Grid.quadrant1Step sqrt x y z iOrigin)
    (fun s => s.1.m_width = g.m_width ∧ s.1.m_height = g.m_height)
    (fun s => (s.2.2 + 1).toNat) (fun s => ((g.m_width : Int) - s.2.1).toNat)
    (((g.m_width : Int) - iOrigin - 1).toNat) _ fuel (g, i, j) ⟨rfl, rfl⟩ hf
  intro s s' hinv hst
  simp only [Grid.quadrant1Step] at hst
  rw [hinv.1] at hst
  split_ifs at hst with h1 h2 h3
  · simp only [Option.some.injEq] at hst
    subst hst
    refine ⟨⟨by simp [Grid.update, hinv.1], by simp [Grid.update, hinv.2]⟩, Or.inl ?_⟩
    dsimp only
    omega
  · simp only [Option.some.injEq] at hst
    subst hst
    refine ⟨hinv, Or.inr ?_⟩
    dsimp only
    omega

theorem quadrant2_fuel (sqrt : α → α) (g : Grid α) (x y z : α) (jOrigin i j : Int) (fuel : Nat)
    (hf : (i + 1).toNat * (jOrigin.toNat + 1) + (j + 1).toNat < fuel) :
    (loopFuel (Grid.quadrant2Step sqrt x y z jOrigin) fuel (g, i, j)).map Prod.fst =
      some (g.quadrant2 sqrt x y z jOrigin i j) := by
  apply loopFuel_result (Grid.quadrant2Step sqrt x y z jOrigin)
    (fun s => s.1.quadrant2 sqrt x y z jOrigin s.2.1 s.2.2) Prod.fst
    (quadrant2_step sqrt x y z jOrigin) fuel (g, i, j)
  apply loopFuel_isSome (Grid.quadrant2Step sqrt x y z jOrigin)
    (fun _ => True)
    (fun s => (s.2.1 + 1).toNat) (fun s => (s.2.2 + 1).toNat)
    (jOrigin.toNat) _ fuel (g, i, j) trivial hf
  intro s s' _ hst
  simp only [Grid.quadrant2Step] at hst
  split_ifs at hst with h1 h2 h3
  · simp only [Option.some.injEq] at hst
    subst hst
    refine ⟨trivial, Or.inl ?_⟩
    dsimp only
    omega
  · simp only [Option.some.injEq] at hst
    subst hst
    refine ⟨trivial, Or.inr ?_⟩
    dsimp only
    omega

theorem quadrant3_fuel (sqrt : α → α) (g : Grid α) (x y z : α) (iOrigin i j : Int) (fuel : Nat)
    (hf : ((g.m_height : Int) - j).toNat * (iOrigin.toNat + 1) + (i + 1).toNat < fuel) :
    (loopFuel (Grid.quadrant3Step sqrt x y z iOrigin) fuel (g, i, j)).map Prod.fst =
      some (g.quadrant3 sqrt x y z iOrigin i j) := by
  apply loopFuel_result (Grid.quadrant3Step sqrt x y z iOrigin)
    (fun s => s.1.quadrant3 sqrt x y z iOrigin s.2.1 s.2.2) Prod.fst
    (quadrant3_step sqrt x y z iOrigin) fuel (g, i, j)
  apply loopFuel_isSome (Grid.quadrant3Step sqrt x y z iOrigin)
    (fun s => s.1.m_width = g.m_width ∧ s.1.m_height = g.m_height)
    (fun s => ((g.m_height : Int) - s.2.2).toNat) (fun s => (s.2.1 + 1).toNat)
    (iOrigin.toNat) _ fuel (g, i, j) ⟨rfl, rfl⟩ hf
  intro s s' hinv hst
  simp only [Grid.quadrant3Step] at hst
  rw [hinv.2] at hst
  split_ifs at hst with h1 h2 h3
  · simp only [Option.some.injEq] at hst
    subst hst
    refine ⟨⟨by simp [Grid.update, hinv.1], by simp [Grid.update, hinv.2]⟩, Or.inl ?_⟩
    dsimp only
    omega
  · simp only [Option.some.injEq] at hst
    subst hst
    refine ⟨hinv, Or.inr ?_⟩
    dsimp only
    omega

theorem quadrant4_fuel (sqrt : α → α) (g : Grid α) (x y z : α) (jOrigin i j : Int) (fuel : Nat)
    (hf : ((g.m_width : Int) - i).toNat * (((g.m_height : Int) - jOrigin - 1).toNat + 1) +
      ((g.m_height : Int) - j).toNat < fuel) :
    (loopFuel (Grid.quadrant4Step sqrt x y z jOrigin) fuel (g, i, j)).map Prod.fst =
      some (g.quadrant4 sqrt x y z jOrigin i j) := by
  apply loopFuel_result (Grid.quadrant4Step sqrt x y z jOrigin)
    (fun s => s.1.quadrant4 sqrt x y z jOrigin s.2.1 s.2.2) Prod.fst
    (quadrant4_step sqrt x y z jOrigin) fuel (g, i, j)
  apply loopFuel_isSome (Grid.quadrant4Step sqrt x y z jOrigin)
    (fun s => s.1.m_width = g.m_width ∧ s.1.m_height = g.m_height)
    (fun s => ((g.m_width : Int) - s.2.1).toNat) (fun s => ((g.m_height : Int) - s.2.2).toNat)
    (((g.m_height : Int) - jOrigin - 1).toNat) _ fuel (g, i, j) ⟨rfl, rfl⟩ hf
  intro s s' hinv hst
  simp only [Grid.quadrant4Step] at hst
  rw [hinv.1, hinv.2] at hst
  split_ifs at hst with h1 h2 h3
  · simp only [Option.some.injEq] at hst
    subst hst
    refine ⟨⟨by simp [Grid.update, hinv.1], by simp [Grid.update, hinv.2]⟩, Or.inl ?_⟩
    dsimp only
    omega
  · simp only [Option.some.injEq] at hst
    subst hst
    refine ⟨hinv, Or.inr ?_⟩
    dsimp only
    omega

end Termination

section TerminationClaim

/-- C16.  Termination.  For every grid and every point, each of the four quadrant loops of
`addPoint`, run as a loop from the position at which `addPoint` enters it, is left after at
most `slow * (fastMax + 1) + fast + 1` evaluations of its guard (`fast` counts the steps left
along the axis of the inner walk, `slow` those left on the other axis) and then holds the grid
that `addPoint` continues with; each `for` loop of `finalize`, of `windowFill()` and of
`windowFill(dstI, dstJ)` is left after `end - start` iterations, with the result of the
method. -/
theorem C16_loops_terminate (sqrt : α → α) (g : Grid α) (x y z : α) (iOrigin jOrigin : Int)
    (dstI dstJ dstIdx i : Nat) (distSum : α) (s : Grid α × α) (k : Nat) :
    (loopFuel (Grid.quadrant1Step sqrt x y z iOrigin)
        ((jOrigin + 1).toNat * (((g.m_width : Int) - iOrigin - 1).toNat + 1) +
          ((g.m_width : Int) - (iOrigin + 1)).toNat + 1 + k)
        (g, iOrigin + 1, jOrigin)).map Prod.fst =
        some (g.quadrant1 sqrt x y z iOrigin (iOrigin + 1) jOrigin) ∧
      (loopFuel (Grid.quadrant2Step sqrt x y z jOrigin)
        ((iOrigin + 1).toNat * (jOrigin.toNat + 1) + (jOrigin - 1 + 1).toNat + 1 + k)
        (g, iOrigin, jOrigin - 1)).map Prod.fst =
        some (g.quadrant2 sqrt x y z jOrigin iOrigin (jOrigin - 1)) ∧
      (loopFuel (Grid.quadrant3Step sqrt x y z iOrigin)
        (((g.m_height : Int) - jOrigin).toNat * (iOrigin.toNat + 1) +
          (iOrigin - 1 + 1).toNat + 1 + k)
        (g, iOrigin - 1, jOrigin)).map Prod.fst =
        some (g.quadrant3 sqrt x y z iOrigin (iOrigin - 1) jOrigin) ∧
      (loopFuel (Grid.quadrant4Step sqrt x y z jOrigin)
        (((g.m_width : Int) - iOrigin).toNat * (((g.m_height : Int) - jOrigin - 1).toNat + 1) +
          ((g.m_height : Int) - (jOrigin + 1)).toNat + 1 + k)
        (g, iOrigin, jOrigin + 1)).map Prod.fst =
        some (g.quadrant4 sqrt x y z jOrigin iOrigin (jOrigin + 1)) ∧
      (loopFuel (forStep g.m_count.length (fun (g : Grid α) i =>
          if !g.empty i then
            { g with m_stdDev := wr g.m_stdDev i (sqrt (rd g.m_stdDev i / g.m_count.getD i 0)) }
          else g)) (g.m_count.length + 1 + k) (0, g)).map Prod.snd =
        some (g.finalizeStdDev sqrt) ∧
      (loopFuel (forStep g.m_count.length (fun (g : Grid α) i =>
          if !g.empty i then { g with m_idw := wr g.m_idw i (rd g.m_idw i / rd g.m_idwDist i) }
          else g)) (g.m_count.length + 1 + k) (0, g)).map Prod.snd =
        some g.finalizeIdw ∧
      (loopFuel (forStep g.m_count.length (fun (g : Grid α) i =>
          if g.empty i then g.fillNodata i else g)) (g.m_count.length + 1 + k) (0, g)).map
          Prod.snd = some g.finalizeNodata ∧
      (loopFuel (forStep g.width (fun (g : Grid α) i => g.windowFillColumn i))
        (g.width + 1 + k) (0, g)).map Prod.snd = some g.windowFill ∧
      (loopFuel (forStep g.height (fun (g : Grid α) j =>
          if g.emptyCell i j then g.windowFillAt i j else g))
        (g.height + 1 + k) (0, g)).map Prod.snd = some (g.windowFillColumn i) ∧
      (loopFuel (forStep (stdMin g.width (addSizeT (addSizeT dstI g.m_windowSize) 1))
          (fun (s : Grid α × α) i =>
            (List.range' (stdMax 0 (subSizeT dstJ g.m_windowSize))
              (stdMin g.height (addSizeT (addSizeT dstJ g.m_windowSize) 1) -
                stdMax 0 (subSizeT dstJ g.m_windowSize))).foldl
              (fun s j => Grid.windowFillBody dstI dstJ dstIdx s i j) s))
        (stdMin g.width (addSizeT (addSizeT dstI g.m_windowSize) 1) -
          stdMax 0 (subSizeT dstI g.m_windowSize) + 1 + k)
        (stdMax 0 (subSizeT dstI g.m_windowSize), (g, distSum))).map Prod.snd =
        some (g.windowFillScan distSum dstI dstJ dstIdx) ∧
      (loopFuel (forStep (stdMin g.height (addSizeT (addSizeT dstJ g.m_windowSize) 1))
          (fun (s : Grid α × α) j => Grid.windowFillBody dstI dstJ dstIdx s i j))
        (stdMin g.height (addSizeT (addSizeT dstJ g.m_windowSize) 1) -
          stdMax 0 (subSizeT dstJ g.m_windowSize) + 1 + k)
        (stdMax 0 (subSizeT dstJ g.m_windowSize), s)).map Prod.snd =
        some ((List.range' (stdMax 0 (subSizeT dstJ g.m_windowSize))
          (stdMin g.height (addSizeT (addSizeT dstJ g.m_windowSize) 1) -
            stdMax 0 (subSizeT dstJ g.m_windowSize))).foldl
          (fun s j => Grid.windowFillBody dstI dstJ dstIdx s i j) s) := by
  refine ⟨quadrant1_fuel sqrt g x y z iOrigin _ _ _ (by omega),
    quadrant2_fuel sqrt g x y z jOrigin _ _ _ (by omega),
    quadrant3_fuel sqrt g x y z iOrigin _ _ _ (by omega),
    quadrant4_fuel sqrt g x y z jOrigin _ _ _ (by omega), ?_, ?_, ?_, ?_, ?_, ?_, ?_⟩
  · rw [forStep_fuel _ _ _ _ _ (by omega)]
    simp only [Grid.finalizeStdDev, List.range_eq_range', Nat.sub_zero]
  · rw [forStep_fuel _ _ _ _ _ (by omega)]
    simp only [Grid.finalizeIdw, List.range_eq_range', Nat.sub_zero]
  · rw [forStep_fuel _ _ _ _ _ (by omega)]
    simp only [Grid.finalizeNodata, List.range_eq_range', Nat.sub_zero]
  · rw [forStep_fuel _ _ _ _ _ (by omega)]
    simp only [Grid.windowFill, List.range_eq_range', Nat.sub_zero]
  · rw [forStep_fuel _ _ _ _ _ (by omega)]
    simp only [Grid.windowFillColumn, List.range_eq_range', Nat.sub_zero]
  · rw [forStep_fuel _ _ _ _ _ (by omega)]
    simp only [Grid.windowFillScan]
  · rw [forStep_fuel _ _ _ _ _ (by omega)]

end TerminationClaim

/-! ## The calls of `update` made by `addPoint`: claims C17 and C18 -/

section Calls

theorem applyCalls_nil (g : Grid α) (z : α) : g.applyCalls z [] = g := rfl

theorem applyCalls_cons (g : Grid α) (z : α) (c : Int × Int × α) (cs : List (Int × Int × α)) :
    g.applyCalls z (c :: cs) = (g.update c.1 c.2.1 z c.2.2).applyCalls z cs := rfl

theorem applyCalls_append (g : Grid α) (z : α) (cs cs' : List (Int × Int × α)) :
    g.applyCalls z (cs ++ cs') = (g.applyCalls z cs).applyCalls z cs' := by
  simp only [Grid.applyCalls, List.foldl_append]

theorem layout_applyCalls (g : Grid α) (z : α) (cs : List (Int × Int × α)) :
    (g.applyCalls z cs).layout = g.layout := by
  simp only [Grid.applyCalls]
  apply foldl_invariant (fun t : Grid α => t.layout = g.layout)
  · rfl
  · intro t c _ ht
    exact (layout_update t _ _ _ _).trans ht

/-- The calls of the first quadrant loop entered at `(i, j)` with `iOrigin < i`: the loop
computes what the calls compute; every call is at a cell `(a, b)` with `iOrigin < a < width`
and `0 ≤ b ≤ j`, in row `j` only at `a ≥ i`, with `d` the distance of the cell below the
radius; no cell is called twice. -/
theorem quadrant1Calls_spec (sqrt : α → α) (g0 g : Grid α) (x y z : α) (iOrigin i j : Int)
    (hl : g.layout = g0.layout) (hi : iOrigin < i) :
    g.quadrant1 sqrt x y z iOrigin i j =
        g.applyCalls z (g.quadrant1Calls sqrt x y z iOrigin i j) ∧
      (∀ c ∈ g.quadrant1Calls sqrt x y z iOrigin i j,
        iOrigin < c.1 ∧ c.1 < (g0.m_width : Int) ∧ 0 ≤ c.2.1 ∧
          (c.2.1 < j ∨ (c.2.1 = j ∧ i ≤ c.1)) ∧
          c.2.2 = g0.distance sqrt (toSizeT c.1) (toSizeT c.2.1) x y ∧ c.2.2 < g0.m_radius) ∧
      ((g.quadrant1Calls sqrt x y z iOrigin i j).map (fun c => (c.1, c.2.1))).Nodup := by
  induction g, x, y, z, iOrigin, i, j using Grid.quadrant1Calls.induct sqrt with
  | case1 g x y z iOrigin i j hc d hd ih =>
    have hl' : (g.update i j z d).layout = g0.layout := (layout_update g i j z d).trans hl
    obtain ⟨h1, h2, h3⟩ := ih hl' (by omega)
    rw [Grid.quadrant1, Grid.quadrant1Calls, if_pos hc, if_pos hc]
    simp only
    rw [if_pos hd, if_pos hd, applyCalls_cons]
    refine ⟨h1, ?_, ?_⟩
    · intro c hcm
      rcases List.mem_cons.mp hcm with rfl | hcm
      · rw [layout_width hl] at hc
        refine ⟨hi, hc.1, hc.2, Or.inr ⟨rfl, le_refl _⟩, (distance_layout sqrt hl _ _ x y), ?_⟩
        rw [← (layout_config hl).2.2.1]
        exact hd
      · obtain ⟨a1, a2, a3, a4, a5⟩ := h2 c hcm
        refine ⟨a1, a2, a3, ?_, a5⟩
        rcases a4 with a4 | ⟨a4, a4'⟩
        · exact Or.inl a4
        · exact Or.inr ⟨a4, by omega⟩
    · rw [List.map_cons, List.nodup_cons]
      refine ⟨?_, h3⟩
      intro hmem
      obtain ⟨c, hcm, hce⟩ := List.mem_map.mp hmem
      obtain ⟨_, _, _, a4, _⟩ := h2 c hcm
      simp only [Prod.mk.injEq] at hce
      omega
  | case2 g x y z iOrigin j hc d hd =>
    rw [Grid.quadrant1, Grid.quadrant1Calls, if_pos hc, if_pos hc]
    simp only
    rw [if_neg hd, if_neg hd, if_pos trivial, if_pos trivial]
    exact ⟨rfl, fun c hcm => absurd hcm (List.not_mem_nil c), List.nodup_nil⟩
  | case3 g x y z iOrigin i j hc d hd hne ih =>
    obtain ⟨h1, h2, h3⟩ := ih hl (by omega)
    rw [Grid.quadrant1, Grid.quadrant1Calls, if_pos hc, if_pos hc]
    simp only
    rw [if_neg hd, if_neg hd, if_neg hne, if_neg hne]
    refine ⟨h1, ?_, h3⟩
    intro c hcm
    obtain ⟨a1, a2, a3, a4, a5⟩ := h2 c hcm
    exact ⟨a1, a2, a3, Or.inl (by omega), a5⟩
  | case4 g x y z iOrigin i j hc =>
    rw [Grid.quadrant1, Grid.quadrant1Calls, if_neg hc, if_neg hc]
    exact ⟨rfl, fun c hcm => absurd hcm (List.not_mem_nil c), List.nodup_nil⟩

theorem quadrant2Calls_spec (sqrt : α → α) (g0 g : Grid α) (x y z : α) (jOrigin i j : Int)
    (hl : g.layout = g0.layout) (hj : j < jOrigin) :
    g.quadrant2 sqrt x y z jOrigin i j =
        g.applyCalls z (g.quadrant2Calls sqrt x y z jOrigin i j) ∧
      (∀ c ∈ g.quadrant2Calls sqrt x y z jOrigin i j,
        0 ≤ c.1 ∧ 0 ≤ c.2.1 ∧ c.2.1 < jOrigin ∧
          (c.1 < i ∨ (c.1 = i ∧ c.2.1 ≤ j)) ∧
          c.2.2 = g0.distance sqrt (toSizeT c.1) (toSizeT c.2.1) x y ∧ c.2.2 < g0.m_radius) ∧
      ((g.quadrant2Calls sqrt x y z jOrigin i j).map (fun c => (c.1, c.2.1))).Nodup := by
  induction g, x, y, z, jOrigin, i, j using Grid.quadrant2Calls.induct sqrt with
  | case1 g x y z jOrigin i j hc d hd ih =>
    have hl' : (g.update i j z d).layout = g0.layout := (layout_update g i j z d).trans hl
    obtain ⟨h1, h2, h3⟩ := ih hl' (by omega)
    rw [Grid.quadrant2, Grid.quadrant2Calls, if_pos hc, if_pos hc]
    simp only
    rw [if_pos hd, if_pos hd, applyCalls_cons]
    refine ⟨h1, ?_, ?_⟩
    · intro c hcm
      rcases List.mem_cons.mp hcm with rfl | hcm
      · try rw [layout_width hl] at hc
        try rw [layout_height hl] at hc
        refine ⟨hc.1, hc.2, hj, Or.inr ⟨rfl, le_refl _⟩,
          (distance_layout sqrt hl _ _ x y), ?_⟩
        rw [← (layout_config hl).2.2.1]
        exact hd
      · obtain ⟨a1, a2, a3, a4, a5⟩ := h2 c hcm
        refine ⟨a1, a2, a3, ?_, a5⟩
        rcases a4 with a4 | ⟨a4, a4'⟩
        · exact Or.inl a4
        · exact Or.inr ⟨a4, by omega⟩
    · rw [List.map_cons, List.nodup_cons]
      refine ⟨?_, h3⟩
      intro hmem
      obtain ⟨c, hcm, hce⟩ := List.mem_map.mp hmem
      obtain ⟨_, _, _, a4, _⟩ := h2 c hcm
      simp only [Prod.mk.injEq] at hce
      omega
  | case2 g x y z jOrigin i hc d hd =>
    rw [Grid.quadrant2, Grid.quadrant2Calls, if_pos hc, if_pos hc]
    simp only
    rw [if_neg hd, if_neg hd, if_pos trivial, if_pos trivial]
    exact ⟨rfl, fun c hcm => absurd hcm (List.not_mem_nil c), List.nodup_nil⟩
  | case3 g x y z jOrigin i j hc d hd hne ih =>
    obtain ⟨h1, h2, h3⟩ := ih hl (by omega)
    rw [Grid.quadrant2, Grid.quadrant2Calls, if_pos hc, if_pos hc]
    simp only
    rw [if_neg hd, if_neg hd, if_neg hne, if_neg hne]
    refine ⟨h1, ?_, h3⟩
    intro c hcm
    obtain ⟨a1, a2, a3, a4, a5⟩ := h2 c hcm
    exact ⟨a1, a2, a3, Or.inl (by omega), a5⟩
  | case4 g x y z jOrigin i j hc =>
    rw [Grid.quadrant2, Grid.quadrant2Calls, if_neg hc, if_neg hc]
    exact ⟨rfl, fun c hcm => absurd hcm (List.not_mem_nil c), List.nodup_nil⟩

theorem quadrant3Calls_spec (sqrt : α → α) (g0 g : Grid α) (x y z : α) (iOrigin i j : Int)
    (hl : g.layout = g0.layout) (hi : i < iOrigin) :
    g.quadrant3 sqrt x y z iOrigin i j =
        g.applyCalls z (g.quadrant3Calls sqrt x y z iOrigin i j) ∧
      (∀ c ∈ g.quadrant3Calls sqrt x y z iOrigin i j,
        0 ≤ c.1 ∧ c.1 < iOrigin ∧ c.2.1 < (g0.m_height : Int) ∧
          (j < c.2.1 ∨ (c.2.1 = j ∧ c.1 ≤ i)) ∧
          c.2.2 = g0.distance sqrt (toSizeT c.1) (toSizeT c.2.1) x y ∧ c.2.2 < g0.m_radius) ∧
      ((g.quadrant3Calls sqrt x y z iOrigin i j).map (fun c => (c.1, c.2.1))).Nodup := by
  induction g, x, y, z, iOrigin, i, j using Grid.quadrant3Calls.induct sqrt with
  | case1 g x y z iOrigin i j hc d hd ih =>
    have hl' : (g.update i j z d).layout = g0.layout := (layout_update g i j z d).trans hl
    obtain ⟨h1, h2, h3⟩ := ih hl' (by omega)
    rw [Grid.quadrant3, Grid.quadrant3Calls, if_pos hc, if_pos hc]
    simp only
    rw [if_pos hd, if_pos hd, applyCalls_cons]
    refine ⟨h1, ?_, ?_⟩
    · intro c hcm
      rcases List.mem_cons.mp hcm with rfl | hcm
      · try rw [layout_width hl] at hc
        try rw [layout_height hl] at hc
        refine ⟨hc.1, hi, hc.2, Or.inr ⟨rfl, le_refl _⟩,
          (distance_layout sqrt hl _ _ x y), ?_⟩
        rw [← (layout_config hl).2.2.1]
        exact hd
      · obtain ⟨a1, a2, a3, a4, a5⟩ := h2 c hcm
        refine ⟨a1, a2, a3, ?_, a5⟩
        rcases a4 with a4 | ⟨a4, a4'⟩
        · exact Or.inl a4
        · exact Or.inr ⟨a4, by omega⟩
    · rw [List.map_cons, List.nodup_cons]
      refine ⟨?_, h3⟩
      intro hmem
      obtain ⟨c, hcm, hce⟩ := List.mem_map.mp hmem
      obtain ⟨_, _, _, a4, _⟩ := h2 c hcm
      simp only [Prod.mk.injEq] at hce
      omega
  | case2 g x y z iOrigin j hc d hd =>
    rw [Grid.quadrant3, Grid.quadrant3Calls, if_pos hc, if_pos hc]
    simp only
    rw [if_neg hd, if_neg hd, if_pos trivial, if_pos trivial]
    exact ⟨rfl, fun c hcm => absurd hcm (List.not_mem_nil c), List.nodup_nil⟩
  | case3 g x y z iOrigin i j hc d hd hne ih =>
    obtain ⟨h1, h2, h3⟩ := ih hl (by omega)
    rw [Grid.quadrant3, Grid.quadrant3Calls, if_pos hc, if_pos hc]
    simp only
    rw [if_neg hd, if_neg hd, if_neg hne, if_neg hne]
    refine ⟨h1, ?_, h3⟩
    intro c hcm
    obtain ⟨a1, a2, a3, a4, a5⟩ := h2 c hcm
    exact ⟨a1, a2, a3, Or.inl (by omega), a5⟩
  | case4 g x y z iOrigin i j hc =>
    rw [Grid.quadrant3, Grid.quadrant3Calls, if_neg hc, if_neg hc]
    exact ⟨rfl, fun c hcm => absurd hcm (List.not_mem_nil c), List.nodup_nil⟩

theorem quadrant4Calls_spec (sqrt : α → α) (g0 g : Grid α) (x y z : α) (jOrigin i j : Int)
    (hl : g.layout = g0.layout) (hj : jOrigin < j) :
    g.quadrant4 sqrt x y z jOrigin i j =
        g.applyCalls z (g.quadrant4Calls sqrt x y z jOrigin i j) ∧
      (∀ c ∈ g.quadrant4Calls sqrt x y z jOrigin i j,
        c.1 < (g0.m_width : Int) ∧ jOrigin < c.2.1 ∧ c.2.1 < (g0.m_height : Int) ∧
          (i < c.1 ∨ (c.1 = i ∧ j ≤ c.2.1)) ∧
          c.2.2 = g0.distance sqrt (toSizeT c.1) (toSizeT c.2.1) x y ∧ c.2.2 < g0.m_radius) ∧
      ((g.quadrant4Calls sqrt x y z jOrigin i j).map (fun c => (c.1, c.2.1))).Nodup := by
  induction g, x, y, z, jOrigin, i, j using Grid.quadrant4Calls.induct sqrt with
  | case1 g x y z jOrigin i j hc d hd ih =>
    have hl' : (g.update i j z d).layout = g0.layout := (layout_update g i j z d).trans hl
    obtain ⟨h1, h2, h3⟩ := ih hl' (by omega)
    rw [Grid.quadrant4, Grid.quadrant4Calls, if_pos hc, if_pos hc]
    simp only
    rw [if_pos hd, if_pos hd, applyCalls_cons]
    refine ⟨h1, ?_, ?_⟩
    · intro c hcm
      rcases List.mem_cons.mp hcm with rfl | hcm
      · try rw [layout_width hl] at hc
        try rw [layout_height hl] at hc
        refine ⟨hc.1, hj, hc.2, Or.inr ⟨rfl, le_refl _⟩,
          (distance_layout sqrt hl _ _ x y), ?_⟩
        rw [← (layout_config hl).2.2.1]
        exact hd
      · obtain ⟨a1, a2, a3, a4, a5⟩ := h2 c hcm
        refine ⟨a1, a2, a3, ?_, a5⟩
        rcases a4 with a4 | ⟨a4, a4'⟩
        · exact Or.inl a4
        · exact Or.inr ⟨a4, by omega⟩
    · rw [List.map_cons, List.nodup_cons]
      refine ⟨?_, h3⟩
      intro hmem
      obtain ⟨c, hcm, hce⟩ := List.mem_map.mp hmem
      obtain ⟨_, _, _, a4, _⟩ := h2 c hcm
      simp only [Prod.mk.injEq] at hce
      omega
  | case2 g x y z jOrigin i hc d hd =>
    rw [Grid.quadrant4, Grid.quadrant4Calls, if_pos hc, if_pos hc]
    simp only
    rw [if_neg hd, if_neg hd, if_pos trivial, if_pos trivial]
    exact ⟨rfl, fun c hcm => absurd hcm (List.not_mem_nil c), List.nodup_nil⟩
  | case3 g x y z jOrigin i j hc d hd hne ih =>
    obtain ⟨h1, h2, h3⟩ := ih hl (by omega)
    rw [Grid.quadrant4, Grid.quadrant4Calls, if_pos hc, if_pos hc]
    simp only
    rw [if_neg hd, if_neg hd, if_neg hne, if_neg hne]
    refine ⟨h1, ?_, h3⟩
    intro c hcm
    obtain ⟨a1, a2, a3, a4, a5⟩ := h2 c hcm
    exact ⟨a1, a2, a3, Or.inl (by omega), a5⟩
  | case4 g x y z jOrigin i j hc =>
    rw [Grid.quadrant4, Grid.quadrant4Calls, if_neg hc, if_neg hc]
    exact ⟨rfl, fun c hcm => absurd hcm (List.not_mem_nil c), List.nodup_nil⟩

end Calls

section AddPointCalls

theorem nodup_map_append {β γ : Type} (f : β → γ) (l1 l2 : List β) (h1 : (l1.map f).Nodup)
    (h2 : (l2.map f).Nodup) (hd : ∀ a ∈ l1, ∀ b ∈ l2, f a ≠ f b) :
    ((l1 ++ l2).map f).Nodup := by
  rw [List.map_append]
  apply List.Nodup.append h1 h2
  intro v hv1 hv2
  obtain ⟨a, ha, rfl⟩ := List.mem_map.mp hv1
  obtain ⟨b, hb, hab⟩ := List.mem_map.mp hv2
  exact hd a ha b hb hab.symm

/-- With exact quotients, the origin cell of a point inside the extent of the grid is a cell
of the grid.  (With the rounding of `double` it need not be: see `horizontalIndex64`.) -/
theorem origin_in_range_exact (g : Grid α) (x y : α) (hx0 : 0 ≤ x)
    (hx1 : x < (g.m_width : α) * g.m_edgeLength) (hy0 : 0 ≤ y)
    (hy1 : y < (g.m_height : α) * g.m_edgeLength) :
    0 < g.m_edgeLength ∧
      (0 ≤ g.horizontalIndex x ∧ g.horizontalIndex x < (g.m_width : Int)) ∧
      0 ≤ g.verticalIndex y ∧ g.verticalIndex y < (g.m_height : Int) := by
  have hw0 : (0 : α) ≤ (g.m_width : α) := Nat.cast_nonneg _
  have he : 0 < g.m_edgeLength := by
    by_contra hne
    have : (g.m_width : α) * g.m_edgeLength ≤ 0 :=
      mul_nonpos_of_nonneg_of_nonpos hw0 (not_lt.mp hne)
    linarith
  have hxe : 0 ≤ x / g.m_edgeLength := div_nonneg hx0 (le_of_lt he)
  have hxw : x / g.m_edgeLength < (g.m_width : α) := (div_lt_iff₀ he).mpr hx1
  have hye : 0 ≤ y / g.m_edgeLength := div_nonneg hy0 (le_of_lt he)
  have hyh : y / g.m_edgeLength < (g.m_height : α) := (div_lt_iff₀ he).mpr hy1
  have hhpos : (0 : Int) < (g.m_height : Int) := by
    have : (0 : α) < (g.m_height : α) := lt_of_le_of_lt hye hyh
    exact_mod_cast this
  refine ⟨he, ⟨?_, ?_⟩, ?_, ?_⟩
  · simp only [Grid.horizontalIndex, truncToInt, if_pos hxe]
    exact Int.floor_nonneg.mpr hxe
  · simp only [Grid.horizontalIndex, truncToInt, if_pos hxe]
    rw [Int.floor_lt]
    exact_mod_cast hxw
  · simp only [Grid.verticalIndex, truncToInt]
    split
    · exact Int.floor_nonneg.mpr ‹_›
    · have h1 : ((-1 : Int) : α) < (g.m_height : α) - y / g.m_edgeLength - 1 := by
        push_cast
        linarith
      have := Int.lt_ceil.mpr h1
      omega
  · simp only [Grid.verticalIndex, truncToInt]
    split
    · rw [Int.floor_lt]
      push_cast
      linarith
    · have h1 : (g.m_height : α) - y / g.m_edgeLength - 1 ≤ ((0 : Int) : α) := by
        push_cast
        exact le_of_lt (not_le.mp ‹_›)
      have := Int.ceil_le.mpr h1
      omega

end AddPointCalls

section AddPointCalls2

theorem addPoint_eq_addPointAt (sqrt : α → α) (g : Grid α) (x y z : α) :
    g.addPoint sqrt x y z =
      g.addPointAt sqrt x y z (g.horizontalIndex x) (g.verticalIndex y) := rfl

/-- The calls of `addPoint` for an origin cell `(iO, jO)`, whatever it is: `addPoint` computes
what its calls compute; each call carries the distance of its cell, which is below the radius,
and lies in the region of its quadrant loop or is the call of the origin cell; no cell is
called twice. -/
theorem addPointCallsAt_spec (sqrt : α → α) (g : Grid α) (x y z : α) (iO jO : Int) :
    g.addPointAt sqrt x y z iO jO = g.applyCalls z (g.addPointCallsAt sqrt x y z iO jO) ∧
      (∀ c ∈ g.addPointCallsAt sqrt x y z iO jO,
        (c.2.2 = g.distance sqrt (toSizeT c.1) (toSizeT c.2.1) x y ∧ c.2.2 < g.m_radius) ∧
          ((iO < c.1 ∧ c.1 < (g.m_width : Int) ∧ 0 ≤ c.2.1 ∧ c.2.1 ≤ jO) ∨
            (0 ≤ c.1 ∧ c.1 ≤ iO ∧ 0 ≤ c.2.1 ∧ c.2.1 < jO) ∨
            (0 ≤ c.1 ∧ c.1 < iO ∧ jO ≤ c.2.1 ∧ c.2.1 < (g.m_height : Int)) ∨
            (iO ≤ c.1 ∧ c.1 < (g.m_width : Int) ∧ jO < c.2.1 ∧ c.2.1 < (g.m_height : Int)) ∨
            (c.1 = iO ∧ c.2.1 = jO))) ∧
      ((g.addPointCallsAt sqrt x y z iO jO).map (fun c => (c.1, c.2.1))).Nodup := by
  simp only [Grid.addPointAt, Grid.addPointWalks, Grid.addPointCallsAt]
  obtain ⟨e1, z1, n1⟩ := quadrant1Calls_spec sqrt g g x y z iO (iO + 1) jO rfl (by omega)
  have l1 : (g.quadrant1 sqrt x y z iO (iO + 1) jO).layout = g.layout := by
    rw [e1, layout_applyCalls]
  generalize g.quadrant1Calls sqrt x y z iO (iO + 1) jO = c1 at e1 z1 n1 ⊢
  generalize g.quadrant1 sqrt x y z iO (iO + 1) jO = g1 at e1 l1 ⊢
  obtain ⟨e2, z2, n2⟩ := quadrant2Calls_spec sqrt g g1 x y z jO iO (jO - 1) l1 (by omega)
  have l2 : (g1.quadrant2 sqrt x y z jO iO (jO - 1)).layout = g.layout := by
    rw [e2, layout_applyCalls, l1]
  generalize g1.quadrant2Calls sqrt x y z jO iO (jO - 1) = c2 at e2 z2 n2 ⊢
  generalize g1.quadrant2 sqrt x y z jO iO (jO - 1) = g2 at e2 l2 ⊢
  obtain ⟨e3, z3, n3⟩ := quadrant3Calls_spec sqrt g g2 x y z iO (iO - 1) jO l2 (by omega)
  have l3 : (g2.quadrant3 sqrt x y z iO (iO - 1) jO).layout = g.layout := by
    rw [e3, layout_applyCalls, l2]
  generalize g2.quadrant3Calls sqrt x y z iO (iO - 1) jO = c3 at e3 z3 n3 ⊢
  generalize g2.quadrant3 sqrt x y z iO (iO - 1) jO = g3 at e3 l3 ⊢
  obtain ⟨e4, z4, n4⟩ := quadrant4Calls_spec sqrt g g3 x y z jO iO (jO + 1) l3 (by omega)
  have l4 : (g3.quadrant4 sqrt x y z jO iO (jO + 1)).layout = g.layout := by
    rw [e4, layout_applyCalls, l3]
  generalize g3.quadrant4Calls sqrt x y z jO iO (jO + 1) = c4 at e4 z4 n4 ⊢
  generalize g3.quadrant4 sqrt x y z jO iO (jO + 1) = g4 at e4 l4 ⊢
  have hg4 : g4 = g.applyCalls z (c1 ++ c2 ++ c3 ++ c4) := by
    rw [applyCalls_append, applyCalls_append, applyCalls_append, ← e1, ← e2, ← e3, ← e4]
  have hd4 : g4.distance sqrt (toSizeT iO) (toSizeT jO) x y =
      g.distance sqrt (toSizeT iO) (toSizeT jO) x y := distance_layout sqrt l4 _ _ x y
  have hr4 : g4.m_radius = g.m_radius := (layout_config l4).2.2.1
  have hwalk : ∀ c ∈ c1 ++ c2 ++ c3 ++ c4,
      (c.2.2 = g.distance sqrt (toSizeT c.1) (toSizeT c.2.1) x y ∧ c.2.2 < g.m_radius) ∧
        ((iO < c.1 ∧ c.1 < (g.m_width : Int) ∧ 0 ≤ c.2.1 ∧ c.2.1 ≤ jO) ∨
          (0 ≤ c.1 ∧ c.1 ≤ iO ∧ 0 ≤ c.2.1 ∧ c.2.1 < jO) ∨
          (0 ≤ c.1 ∧ c.1 < iO ∧ jO ≤ c.2.1 ∧ c.2.1 < (g.m_height : Int)) ∨
          (iO ≤ c.1 ∧ c.1 < (g.m_width : Int) ∧ jO < c.2.1 ∧ c.2.1 < (g.m_height : Int))) := by
    intro c hc
    simp only [List.mem_append] at hc
    rcases hc with ((hc | hc) | hc) | hc
    · obtain ⟨a1, a2, a3, a4, a5⟩ := z1 c hc
      exact ⟨a5, Or.inl ⟨a1, a2, a3, by omega⟩⟩
    · obtain ⟨a1, a2, a3, a4, a5⟩ := z2 c hc
      exact ⟨a5, Or.inr (Or.inl ⟨a1, by omega, a2, a3⟩)⟩
    · obtain ⟨a1, a2, a3, a4, a5⟩ := z3 c hc
      exact ⟨a5, Or.inr (Or.inr (Or.inl ⟨a1, a2, by omega, a3⟩))⟩
    · obtain ⟨a1, a2, a3, a4, a5⟩ := z4 c hc
      exact ⟨a5, Or.inr (Or.inr (Or.inr ⟨by omega, a1, a2, a3⟩))⟩
  have hnd : ((c1 ++ c2 ++ c3 ++ c4).map (fun c => (c.1, c.2.1))).Nodup := by
    refine nodup_map_append _ _ _ ?_ n4 ?_
    · refine nodup_map_append _ _ _ ?_ n3 ?_
      · refine nodup_map_append _ _ _ n1 n2 ?_
        intro a ha b hb hab
        obtain ⟨a1, a2, a3, a4, a5⟩ := z1 a ha
        obtain ⟨b1, b2, b3, b4, b5⟩ := z2 b hb
        simp only [Prod.mk.injEq] at hab
        omega
      · intro a ha b hb hab
        obtain ⟨b1, b2, b3, b4, b5⟩ := z3 b hb
        simp only [Prod.mk.injEq] at hab
        rcases List.mem_append.mp ha with ha | ha
        · obtain ⟨a1, a2, a3, a4, a5⟩ := z1 a ha
          omega
        · obtain ⟨a1, a2, a3, a4, a5⟩ := z2 a ha
          omega
    · intro a ha b hb hab
      obtain ⟨b1, b2, b3, b4, b5⟩ := z4 b hb
      simp only [Prod.mk.injEq] at hab
      rcases List.mem_append.mp ha with ha | ha
      · rcases List.mem_append.mp ha with ha | ha
        · obtain ⟨a1, a2, a3, a4, a5⟩ := z1 a ha
          omega
        · obtain ⟨a1, a2, a3, a4, a5⟩ := z2 a ha
          omega
      · obtain ⟨a1, a2, a3, a4, a5⟩ := z3 a ha
        omega
  rw [hd4, hr4]
  split
  · rename_i hd
    refine ⟨?_, ?_, ?_⟩
    · rw [applyCalls_append, ← hg4]
      rfl
    · intro c hc
      rcases List.mem_append.mp hc with hc | hc
      · obtain ⟨a, b⟩ := hwalk c hc
        refine ⟨a, ?_⟩
        rcases b with b | b | b | b
        · exact Or.inl b
        · exact Or.inr (Or.inl b)
        · exact Or.inr (Or.inr (Or.inl b))
        · exact Or.inr (Or.inr (Or.inr (Or.inl b)))
      · rw [List.mem_singleton] at hc
        subst hc
        exact ⟨⟨rfl, hd⟩, Or.inr (Or.inr (Or.inr (Or.inr ⟨rfl, rfl⟩)))⟩
    · refine nodup_map_append _ _ _ hnd ?_ ?_
      · simp
      · intro a ha b hb hab
        rw [List.mem_singleton] at hb
        subst hb
        simp only [Prod.mk.injEq] at hab
        obtain ⟨_, hz⟩ := hwalk a ha
        omega
  · refine ⟨?_, ?_, ?_⟩
    · rw [List.append_nil, ← hg4]
    · intro c hc
      rw [List.append_nil] at hc
      obtain ⟨a, b⟩ := hwalk c hc
      refine ⟨a, ?_⟩
      rcases b with b | b | b | b
      · exact Or.inl b
      · exact Or.inr (Or.inl b)
      · exact Or.inr (Or.inr (Or.inl b))
      · exact Or.inr (Or.inr (Or.inr (Or.inl b)))
    · rw [List.append_nil]
      exact hnd

end AddPointCalls2

section IndexSafety

theorem int_cell_index (g : Grid α) (hwf : g.WellFormed) (a b : Int) (ha0 : 0 ≤ a)
    (ha : a < (g.m_width : Int)) (hb0 : 0 ≤ b) (hb : b < (g.m_height : Int)) :
    g.index (toSizeT a) (toSizeT b) = b.toNat * g.m_width + a.toNat ∧ a.toNat < g.m_width ∧
      b.toNat < g.m_height ∧ g.index (toSizeT a) (toSizeT b) = g.index a.toNat b.toNat ∧
      g.index (toSizeT a) (toSizeT b) < g.m_width * g.m_height := by
  obtain ⟨i, rfl⟩ := Int.eq_ofNat_of_zero_le ha0
  obtain ⟨j, rfl⟩ := Int.eq_ofNat_of_zero_le hb0
  have hi : i < g.m_width := by exact_mod_cast ha
  have hj : j < g.m_height := by exact_mod_cast hb
  rw [update_offset g hwf.size_lt hi hj, Int.toNat_ofNat, Int.toNat_ofNat]
  exact ⟨index_eq g hwf.size_lt hi hj, hi, hj, rfl, index_lt g hwf.size_lt hi hj⟩

theorem wf_idwDist_bound {g : Grid α} (hwf : g.WellFormed) {idx n : Nat}
    (h : idx < g.m_width * g.m_height) (hn : shape g.m_idwDist = some n) : idx < n := by
  have hs := hwf.idwDist_shape
  rw [hn] at hs
  split at hs
  · simp only [Option.some.injEq] at hs
    omega
  · simp at hs

/-- The calls of `addPoint` from an origin cell of the grid are at cells of the grid. -/
theorem addPointCallsAt_in_grid (sqrt : α → α) (g : Grid α) (x y z : α) (iOrigin jOrigin : Int)
    (hi0 : 0 ≤ iOrigin) (hi1 : iOrigin < (g.m_width : Int)) (hj0 : 0 ≤ jOrigin)
    (hj1 : jOrigin < (g.m_height : Int)) (c : Int × Int × α)
    (hc : c ∈ g.addPointCallsAt sqrt x y z iOrigin jOrigin) :
    (0 ≤ c.1 ∧ c.1 < (g.m_width : Int)) ∧ 0 ≤ c.2.1 ∧ c.2.1 < (g.m_height : Int) := by
  obtain ⟨_, hz⟩ := (addPointCallsAt_spec sqrt g x y z iOrigin jOrigin).2.1 c hc
  omega

/-- C17, as amended.  Index safety of `addPoint` from an origin cell of the grid.  For a grid
whose buffers are those of the constructor, if the origin cell `(iOrigin, jOrigin)` that
`addPoint` has computed satisfies `0 ≤ iOrigin < width` and `0 ≤ jOrigin < height`, then
`addPoint` is the sequence of its calls of `update`, which leave the layout of the buffers as
it is, and every call `update(i, j, ...)` of the four quadrant loops and of the final check has
`0 ≤ i < width` and `0 ≤ j < height`, so that the index `j * width + i` that it computes is
below `width * height`, the length of the count buffer and of every allocated buffer.  The
origin cell is a parameter: nothing is said about how it is computed from the point. -/
theorem C17_addPoint_index_safety (sqrt : α → α) (g : Grid α) (x y z : α)
    (iOrigin jOrigin : Int) (hwf : g.WellFormed) (hi0 : 0 ≤ iOrigin)
    (hi1 : iOrigin < (g.m_width : Int)) (hj0 : 0 ≤ jOrigin)
    (hj1 : jOrigin < (g.m_height : Int)) :
    g.addPoint sqrt x y z =
        g.addPointAt sqrt x y z (g.horizontalIndex x) (g.verticalIndex y) ∧
      g.addPointAt sqrt x y z iOrigin jOrigin =
        g.applyCalls z (g.addPointCallsAt sqrt x y z iOrigin jOrigin) ∧
      (∀ cs : List (Int × Int × α), (g.applyCalls z cs).layout = g.layout) ∧
      ∀ c ∈ g.addPointCallsAt sqrt x y z iOrigin jOrigin,
        ((0 ≤ c.1 ∧ c.1 < (g.m_width : Int)) ∧ 0 ≤ c.2.1 ∧ c.2.1 < (g.m_height : Int)) ∧
          g.callIndex c = c.2.1.toNat * g.m_width + c.1.toNat ∧
          g.callIndex c < g.m_width * g.m_height ∧ g.callIndex c < g.m_count.length ∧
          ∀ p ∈ [g.m_min, g.m_max, g.m_mean, g.m_stdDev, g.m_idw, g.m_idwDist],
            ∀ n, shape p = some n → g.callIndex c < n := by
  refine ⟨rfl, (addPointCallsAt_spec sqrt g x y z iOrigin jOrigin).1, layout_applyCalls g z, ?_⟩
  intro c hc
  have hr := addPointCallsAt_in_grid sqrt g x y z iOrigin jOrigin hi0 hi1 hj0 hj1 c hc
  obtain ⟨h1, _, _, _, h5⟩ := int_cell_index g hwf c.1 c.2.1 hr.1.1 hr.1.2 hr.2.1 hr.2.2
  have hin := wf_inBuffers hwf h5
  refine ⟨hr, h1, h5, by rw [hwf.count_len]; exact h5, ?_⟩
  intro p hp n hn
  simp only [List.mem_cons, List.mem_singleton, List.not_mem_nil, or_false] at hp
  rcases hp with rfl | rfl | rfl | rfl | rfl | rfl
  · exact hin.1 n hn
  · exact hin.2.1 n hn
  · exact hin.2.2.1 n hn
  · exact hin.2.2.2.2 n hn
  · exact hin.2.2.2.1 n hn
  · exact wf_idwDist_bound hwf h5 hn

/-- Witness of C17 as amended: the origin cell `(0, 1)` of a grid of two rows and two columns
with edge length 1, for the point `(1/2, 1/2)`. -/
theorem C17_addPoint_index_safety_witness :
    ((0 : Int) < ((Grid.construct 2 2 (1 : ℝ) 1 0 63 0).m_width : Int) ∧
        (1 : Int) < ((Grid.construct 2 2 (1 : ℝ) 1 0 63 0).m_height : Int)) ∧
      ∀ c ∈ (Grid.construct 2 2 (1 : ℝ) 1 0 63 0).addPointCallsAt Real.sqrt (1 / 2) (1 / 2) 7
          0 1,
        (Grid.construct 2 2 (1 : ℝ) 1 0 63 0).callIndex c < 2 * 2 := by
  have h := C17_addPoint_index_safety Real.sqrt (Grid.construct 2 2 (1 : ℝ) 1 0 63 0)
    (1 / 2) (1 / 2) 7 0 1 (construct_wellFormed 2 2 (1 : ℝ) 1 0 63 0 (by decide))
    (by decide) (by decide) (by decide) (by decide)
  exact ⟨⟨by decide, by decide⟩, fun c hc => (h.2.2.2 c hc).2.2.1⟩

end IndexSafety

section Footprint

theorem callIndex_layout {g g' : Grid α} (h : g'.layout = g.layout) (c : Int × Int × α) :
    g'.callIndex c = g.callIndex c := by
  simp only [Grid.callIndex, layout_index h]

/-- Calls at distinct cells of the grid have distinct storage indices. -/
theorem callIndex_inj (g : Grid α) (hwf : g.WellFormed) (c c' : Int × Int × α)
    (hc : (0 ≤ c.1 ∧ c.1 < (g.m_width : Int)) ∧ 0 ≤ c.2.1 ∧ c.2.1 < (g.m_height : Int))
    (hc' : (0 ≤ c'.1 ∧ c'.1 < (g.m_width : Int)) ∧ 0 ≤ c'.2.1 ∧ c'.2.1 < (g.m_height : Int))
    (h : g.callIndex c = g.callIndex c') : (c.1, c.2.1) = (c'.1, c'.2.1) := by
  obtain ⟨_, a1, a2, a3, _⟩ := int_cell_index g hwf c.1 c.2.1 hc.1.1 hc.1.2 hc.2.1 hc.2.2
  obtain ⟨_, b1, b2, b3, _⟩ := int_cell_index g hwf c'.1 c'.2.1 hc'.1.1 hc'.1.2 hc'.2.1 hc'.2.2
  simp only [Grid.callIndex] at h
  rw [a3, b3] at h
  obtain ⟨e1, e2⟩ := index_inj g hwf.size_lt a1 a2 b1 b2 h
  simp only [Prod.mk.injEq]
  omega

/-- The count buffer after a sequence of calls of `update` at pairwise distinct cells of the
grid: one more in the cells that are called, unchanged elsewhere. -/
theorem applyCalls_count (g0 g : Grid α) (hwf : g0.WellFormed) (hl : g.layout = g0.layout) (z : α)
    (cs : List (Int × Int × α))
    (hin : ∀ c ∈ cs,
      (0 ≤ c.1 ∧ c.1 < (g0.m_width : Int)) ∧ 0 ≤ c.2.1 ∧ c.2.1 < (g0.m_height : Int))
    (hnd : (cs.map (fun c => (c.1, c.2.1))).Nodup) (idx : Nat) :
    (g.applyCalls z cs).m_count.getD idx 0 =
      g.m_count.getD idx 0 + (if idx ∈ cs.map g0.callIndex then 1 else 0) := by
  induction cs generalizing g with
  | nil => simp [Grid.applyCalls]
  | cons c cs ih =>
    have hl' : (g.update c.1 c.2.1 z c.2.2).layout = g0.layout :=
      (layout_update g _ _ _ _).trans hl
    rw [List.map_cons, List.nodup_cons] at hnd
    have hin' : ∀ c ∈ cs,
        (0 ≤ c.1 ∧ c.1 < (g0.m_width : Int)) ∧ 0 ≤ c.2.1 ∧ c.2.1 < (g0.m_height : Int) :=
      fun c' hc' => hin c' (List.mem_cons_of_mem _ hc')
    have hc := hin c (List.mem_cons_self _ _)
    rw [applyCalls_cons, ih (g.update c.1 c.2.1 z c.2.2) hl' hin' hnd.2]
    have hoff : g.index (toSizeT c.1) (toSizeT c.2.1) = g0.callIndex c := by
      simp only [Grid.callIndex, layout_index hl]
    by_cases hidx : idx = g0.callIndex c
    · have hnot : idx ∉ cs.map g0.callIndex := by
        intro hmem
        obtain ⟨c', hc', he⟩ := List.mem_map.mp hmem
        apply hnd.1
        rw [List.mem_map]
        refine ⟨c', hc', ?_⟩
        exact callIndex_inj g0 hwf c' c (hin' c' hc') hc (he.trans hidx)
      have hlen : g0.callIndex c < g.m_count.length := by
        rw [layout_count_length hl, hwf.count_len]
        exact (int_cell_index g0 hwf c.1 c.2.1 hc.1.1 hc.1.2 hc.2.1 hc.2.2).2.2.2.2
      rw [if_neg hnot, List.map_cons, if_pos (by rw [hidx]; exact List.mem_cons_self _ _),
        add_zero, hidx]
      simp only [Grid.update, hoff]
      exact getD_set_same _ _ _ hlen
    · rw [count_update_ne g c.1 c.2.1 z c.2.2 idx (by rw [hoff]; exact hidx)]
      congr 1
      simp only [List.map_cons, List.mem_cons, hidx, false_or]

end Footprint

section FootprintClaim

theorem toSizeT_in_grid (g : Grid α) (hwf : g.WellFormed) (a b : Int) (ha0 : 0 ≤ a)
    (ha : a < (g.m_width : Int)) (hb0 : 0 ≤ b) (hb : b < (g.m_height : Int)) :
    toSizeT a = a.toNat ∧ toSizeT b = b.toNat := by
  obtain ⟨i, rfl⟩ := Int.eq_ofNat_of_zero_le ha0
  obtain ⟨j, rfl⟩ := Int.eq_ofNat_of_zero_le hb0
  have hi : i < g.m_width := by exact_mod_cast ha
  have hj : j < g.m_height := by exact_mod_cast hb
  rw [toSizeT_natCast i (lt_trans hi (width_lt_sizeMod g hwf.size_lt hj)),
    toSizeT_natCast j (lt_trans hj (height_lt_sizeMod g hwf.size_lt hi))]
  exact ⟨rfl, rfl⟩

/-- C18, as amended.  Footprint of `addPoint` from an origin cell of the grid.  For a grid whose
buffers are those of the constructor, if the origin cell `(iOrigin, jOrigin)` that `addPoint`
has computed satisfies `0 ≤ iOrigin < width` and `0 ≤ jOrigin < height`: no two calls of
`update` made by `addPoint` are at the same cell, nor at the same storage index; each call
carries the distance from the centre of its cell to `(x, y)`, which is below the radius; the
count of a storage index increases by 1 when a call is made at it and stays as it is otherwise;
hence the count of every cell `(i, j)` of the grid increases by 0 or by 1, and it changes only
if the distance from the centre of the cell to `(x, y)` is below the radius.  The origin cell is
a parameter: nothing is said about how it is computed from the point. -/
theorem C18_addPoint_footprint (sqrt : α → α) (g : Grid α) (x y z : α) (iOrigin jOrigin : Int)
    (hwf : g.WellFormed) (hi0 : 0 ≤ iOrigin) (hi1 : iOrigin < (g.m_width : Int))
    (hj0 : 0 ≤ jOrigin) (hj1 : jOrigin < (g.m_height : Int)) :
    (((g.addPointCallsAt sqrt x y z iOrigin jOrigin).map (fun c => (c.1, c.2.1))).Nodup ∧
        ((g.addPointCallsAt sqrt x y z iOrigin jOrigin).map g.callIndex).Nodup) ∧
      (∀ c ∈ g.addPointCallsAt sqrt x y z iOrigin jOrigin,
        c.2.2 = g.distance sqrt (toSizeT c.1) (toSizeT c.2.1) x y ∧ c.2.2 < g.m_radius) ∧
      (∀ idx : Nat, (g.addPointAt sqrt x y z iOrigin jOrigin).m_count.getD idx 0 =
        g.m_count.getD idx 0 +
          (if idx ∈ (g.addPointCallsAt sqrt x y z iOrigin jOrigin).map g.callIndex then 1
            else 0)) ∧
      ∀ i j : Nat, i < g.m_width → j < g.m_height →
        ((g.addPointAt sqrt x y z iOrigin jOrigin).m_count.getD (g.index i j) 0 =
            g.m_count.getD (g.index i j) 0 ∨
          (g.addPointAt sqrt x y z iOrigin jOrigin).m_count.getD (g.index i j) 0 =
            g.m_count.getD (g.index i j) 0 + 1) ∧
        ((g.addPointAt sqrt x y z iOrigin jOrigin).m_count.getD (g.index i j) 0 ≠
            g.m_count.getD (g.index i j) 0 →
          g.distance sqrt i j x y < g.m_radius) := by
  obtain ⟨heq, hz, hnd⟩ := addPointCallsAt_spec sqrt g x y z iOrigin jOrigin
  have hin := addPointCallsAt_in_grid sqrt g x y z iOrigin jOrigin hi0 hi1 hj0 hj1
  have hcount : ∀ idx : Nat, (g.addPointAt sqrt x y z iOrigin jOrigin).m_count.getD idx 0 =
      g.m_count.getD idx 0 +
        (if idx ∈ (g.addPointCallsAt sqrt x y z iOrigin jOrigin).map g.callIndex then 1
          else 0) := by
    intro idx
    rw [heq]
    exact applyCalls_count g g hwf rfl z _ hin hnd idx
  refine ⟨⟨hnd, ?_⟩, fun c hc => (hz c hc).1, hcount, ?_⟩
  · apply List.Nodup.map_on _ (List.Nodup.of_map _ hnd)
    intro a ha b hb hab
    have hcell := callIndex_inj g hwf a b (hin a ha) (hin b hb) hab
    exact List.inj_on_of_nodup_map hnd ha hb hcell
  · intro i j hi hj
    rw [hcount]
    constructor
    · split
      · exact Or.inr rfl
      · exact Or.inl (add_zero _)
    · intro hne
      split at hne
      · rename_i hmem
        obtain ⟨c, hc, hci⟩ := List.mem_map.mp hmem
        have hr := hin c hc
        obtain ⟨_, a1, a2, a3, _⟩ :=
          int_cell_index g hwf c.1 c.2.1 hr.1.1 hr.1.2 hr.2.1 hr.2.2
        obtain ⟨t1, t2⟩ := toSizeT_in_grid g hwf c.1 c.2.1 hr.1.1 hr.1.2 hr.2.1 hr.2.2
        simp only [Grid.callIndex] at hci
        rw [a3] at hci
        obtain ⟨e1, e2⟩ := index_inj g hwf.size_lt a1 a2 hi hj hci
        obtain ⟨d1, d2⟩ := (hz c hc).1
        rw [t1, t2, e1, e2] at d1
        rw [← d1]
        exact d2
      · exact absurd (add_zero _) hne

/-- Witness of C18 as amended: the origin cell `(0, 1)` of a grid of two rows and two columns
with edge length 1 and radius 1, for the point `(1/2, 1/2)`. -/
theorem C18_addPoint_footprint_witness :
    (((Grid.construct 2 2 (1 : ℝ) 1 0 63 0).addPointCallsAt Real.sqrt (1 / 2) (1 / 2) 7 0
        1).map (Grid.construct 2 2 (1 : ℝ) 1 0 63 0).callIndex).Nodup ∧
      ∀ c ∈ (Grid.construct 2 2 (1 : ℝ) 1 0 63 0).addPointCallsAt Real.sqrt (1 / 2) (1 / 2) 7
          0 1,
        c.2.2 < (Grid.construct 2 2 (1 : ℝ) 1 0 63 0).m_radius := by
  have h := C18_addPoint_footprint Real.sqrt (Grid.construct 2 2 (1 : ℝ) 1 0 63 0)
    (1 / 2) (1 / 2) 7 0 1 (construct_wellFormed 2 2 (1 : ℝ) 1 0 63 0 (by decide))
    (by decide) (by decide) (by decide) (by decide)
  exact ⟨h.1.2, fun c hc => (h.2.1 c hc).2⟩

end FootprintClaim

/-! ## The origin cell with the rounding of `double`: counterexamples to C17 and C18 -/

section Binary64

theorem int_log_two_eq (q : α) (k : Int) (h1 : (2 : α) ^ k ≤ |q|) (h2 : |q| < (2 : α) ^ (k + 1)) :
    Int.log 2 |q| = k := by
  have hpos : 0 < |q| := lt_of_lt_of_le (zpow_pos (by norm_num) k) h1
  apply le_antisymm
  · have h := (Int.lt_zpow_iff_log_lt (b := 2) (by norm_num) hpos).mp (by push_cast; exact h2)
    omega
  · exact (Int.zpow_le_iff_le_log (b := 2) (by norm_num) hpos).mp (by push_cast; exact h1)

theorem roundHalfEven_near (q : α) (n : Int) (h1 : (n : α) - 1 / 2 < q)
    (h2 : q < (n : α) + 1 / 2) : roundHalfEven q = n := by
  have hf1 : n - 1 ≤ ⌊q⌋ := by
    rw [Int.le_floor]
    push_cast
    linarith
  have hf2 : ⌊q⌋ < n + 1 := by
    rw [Int.floor_lt]
    push_cast
    linarith
  have hfl := Int.floor_le q
  have hfl' := Int.lt_floor_add_one q
  simp only [roundHalfEven]
  rcases (by omega : ⌊q⌋ = n ∨ ⌊q⌋ = n - 1) with h | h
  · rw [h] at hfl hfl' ⊢
    rw [if_pos (by linarith)]
  · rw [h] at hfl hfl' ⊢
    have hc : ((n - 1 : Int) : α) = (n : α) - 1 := by push_cast; ring
    rw [hc] at hfl hfl' ⊢
    rw [if_neg (by linarith), if_pos (by linarith)]
    omega

/-- The value of `binary64Round` at `q` with binary exponent `k`, when `q` lies within half a
unit in the last place of the `n`-th multiple of `2 ^ (k - 52)`. -/
theorem binary64Round_eq (q : α) (k n : Int) (hk1 : (2 : α) ^ k ≤ |q|)
    (hk2 : |q| < (2 : α) ^ (k + 1)) (h1 : (n : α) - 1 / 2 < q / 2 ^ (k - 52))
    (h2 : q / 2 ^ (k - 52) < (n : α) + 1 / 2) :
    binary64Round q = (n : α) * 2 ^ (k - 52) := by
  simp only [binary64Round, int_log_two_eq q k hk1 hk2, roundHalfEven_near _ n h1 h2]

theorem binary64Round_zero : binary64Round (0 : α) = 0 := by
  simp [binary64Round, roundHalfEven]

theorem count_update_ge (g : Grid α) (i j : Int) (val dist : α) (idx : Nat) :
    g.m_count.getD idx 0 ≤ (g.update i j val dist).m_count.getD idx 0 := by
  by_cases h : idx = g.index (toSizeT i) (toSizeT j)
  · subst h
    simp only [Grid.update]
    by_cases hl : g.index (toSizeT i) (toSizeT j) < g.m_count.length
    · rw [getD_set_same _ _ _ hl]
      linarith
    · rw [List.set_eq_of_length_le (not_lt.mp hl)]
  · rw [count_update_ne g i j val dist idx h]

/-- The final check of `addPoint` calls `update` on the origin cell when its centre is within
the radius, whatever the origin cell is: the count stored at the index that `update` computes
for it increases. -/
theorem addPointAt_origin_count (sqrt : α → α) (g : Grid α) (x y z : α) (iOrigin jOrigin : Int)
    (hd : g.distance sqrt (toSizeT iOrigin) (toSizeT jOrigin) x y < g.m_radius)
    (hlen : g.index (toSizeT iOrigin) (toSizeT jOrigin) < g.m_count.length) :
    g.m_count.getD (g.index (toSizeT iOrigin) (toSizeT jOrigin)) 0 + 1 ≤
      (g.addPointAt sqrt x y z iOrigin jOrigin).m_count.getD
        (g.index (toSizeT iOrigin) (toSizeT jOrigin)) 0 := by
  have hw := addPointWalks_preserves sqrt g x y z iOrigin jOrigin
    (fun t => t.layout = g.layout ∧
      g.m_count.getD (g.index (toSizeT iOrigin) (toSizeT jOrigin)) 0 ≤
        t.m_count.getD (g.index (toSizeT iOrigin) (toSizeT jOrigin)) 0)
    (fun t a b d ht => ⟨(layout_update t a b z d).trans ht.1,
      le_trans ht.2 (count_update_ge t a b z d _)⟩) ⟨rfl, le_refl _⟩
  simp only [Grid.addPointAt]
  obtain ⟨hl, hc⟩ := hw
  rw [distance_layout sqrt hl, (layout_config hl).2.2.1, if_pos hd]
  have hidx := layout_index hl (toSizeT iOrigin) (toSizeT jOrigin)
  simp only [Grid.update, hidx]
  rw [getD_set_same _ _ _ (by rw [layout_count_length hl]; exact hlen)]
  linarith

/-- The call of the final check is one of the calls of `addPoint`. -/
theorem origin_call_mem (sqrt : α → α) (g : Grid α) (x y z : α) (iOrigin jOrigin : Int)
    (hd : g.distance sqrt (toSizeT iOrigin) (toSizeT jOrigin) x y < g.m_radius) :
    (iOrigin, jOrigin, g.distance sqrt (toSizeT iOrigin) (toSizeT jOrigin) x y) ∈
      g.addPointCallsAt sqrt x y z iOrigin jOrigin := by
  have hl := layout_addPointWalks sqrt g x y z iOrigin jOrigin
  simp only [Grid.addPointWalks] at hl
  simp only [Grid.addPointCallsAt]
  rw [distance_layout sqrt hl, (layout_config hl).2.2.1, if_pos hd]
  exact List.mem_append_right _ (List.mem_singleton_self _)

end Binary64

section OriginCounterexamples

/-- The quotient `77.69999999999999 / 0.3` of the two `double`s lies within half a unit in the
last place below 259 and rounds to 259. -/
theorem binary64Round_quotient :
    binary64Round ((coordBelowExtent : ℝ) / edgeThreeTenths) = 259 := by
  have hq : (coordBelowExtent : ℝ) / edgeThreeTenths =
      1399718764186749952 / 5404319552844595 := by
    norm_num [coordBelowExtent, edgeThreeTenths]
  rw [hq, binary64Round_eq _ 8 4556376185503744]
  · norm_num
  · rw [abs_of_pos (by norm_num)]
    norm_num
  · rw [abs_of_pos (by norm_num)]
    norm_num
  · norm_num
  · norm_num

theorem binary64Round_product :
    binary64Round (((259 : Nat) : ℝ) * edgeThreeTenths) = 5467651422604493 / 70368744177664 := by
  have hq : ((259 : Nat) : ℝ) * edgeThreeTenths = 1399718764186750105 / 18014398509481984 := by
    norm_num [edgeThreeTenths]
  rw [hq, binary64Round_eq _ 6 5467651422604493]
  · norm_num
  · rw [abs_of_pos (by norm_num)]
    norm_num
  · rw [abs_of_pos (by norm_num)]
    norm_num
  · norm_num
  · norm_num

theorem binary64Round_259 : binary64Round (259 : ℝ) = 259 := by
  rw [binary64Round_eq _ 8 4556376185503744]
  · norm_num
  · rw [abs_of_pos (by norm_num)]
    norm_num
  · rw [abs_of_pos (by norm_num)]
    norm_num
  · norm_num
  · norm_num

theorem binary64Round_258 : binary64Round (258 : ℝ) = 258 := by
  rw [binary64Round_eq _ 8 4538783999459328]
  · norm_num
  · rw [abs_of_pos (by norm_num)]
    norm_num
  · rw [abs_of_pos (by norm_num)]
    norm_num
  · norm_num
  · norm_num

theorem binary64Round_one : binary64Round (1 : ℝ) = 1 := by
  rw [binary64Round_eq _ 0 4503599627370496]
  · norm_num
  · rw [abs_of_pos (by norm_num)]
    norm_num
  · rw [abs_of_pos (by norm_num)]
    norm_num
  · norm_num
  · norm_num

theorem binary64Round_neg_one : binary64Round (-1 : ℝ) = -1 := by
  rw [binary64Round_eq _ 0 (-4503599627370496)]
  · norm_num
  · norm_num
  · norm_num
  · norm_num
  · norm_num

theorem truncToInt_natCast (n : Nat) : truncToInt ((n : Nat) : ℝ) = (n : Int) := by
  simp [truncToInt]

theorem truncToInt_neg_one : truncToInt (-1 : ℝ) = -1 := by
  have h : ¬ (0 : ℝ) ≤ -1 := by norm_num
  simp only [truncToInt, if_neg h]
  have : ((-1 : Int) : ℝ) = -1 := by norm_num
  rw [← this, Int.ceil_intCast]

theorem truncToInt_of_natCast (n : Nat) (r : ℝ) (m : Int) (hr : r = (n : ℝ))
    (hm : m = (n : Int)) : truncToInt r = m := by
  rw [hr, hm]
  exact truncToInt_natCast n

theorem horizontalIndex64_quotient (height : Nat) (radius : ℝ) :
    (Grid.construct 259 height (edgeThreeTenths : ℝ) radius 0 63 0).horizontalIndex64
      coordBelowExtent = 259 := by
  simp only [Grid.horizontalIndex64, Grid.construct]
  rw [binary64Round_quotient]
  exact truncToInt_of_natCast 259 _ _ (by norm_num) (by norm_num)

theorem coord_in_extent :
    (0 : ℝ) ≤ coordBelowExtent ∧ (coordBelowExtent : ℝ) < ((259 : Nat) : ℝ) * edgeThreeTenths ∧
      (coordBelowExtent : ℝ) < binary64Round (((259 : Nat) : ℝ) * edgeThreeTenths) := by
  refine ⟨?_, ?_, ?_⟩
  · norm_num [coordBelowExtent]
  · norm_num [coordBelowExtent, edgeThreeTenths]
  · rw [binary64Round_product]
    norm_num [coordBelowExtent]

/-- C17, counterexample.  Grid of 259 columns and 259 rows with edge length `0.3` (as a
`double`) and radius 1; point `(77.69999999999999, 0)`, inside the extent both exactly and as
`double`s compare.  The exact quotient `x / edgeLength` is below 259 and gives column 258, but
the quotient of the two `double`s rounds to `259.0`, so `horizontalIndex` returns 259, the
width; `verticalIndex(0)` is 258, the last row.  The final check of `addPoint` then calls
`update(259, 258, ...)`, whose index `258 * 259 + 259` is `259 * 259`, the length of the
buffers.  In the same way `verticalIndex(77.69999999999999)` is `259 - 259 - 1 = -1`. -/
theorem C17_origin_counterexample :
    ((0 : ℝ) ≤ coordBelowExtent ∧ (coordBelowExtent : ℝ) < ((259 : Nat) : ℝ) * edgeThreeTenths ∧
        (coordBelowExtent : ℝ) < binary64Round (((259 : Nat) : ℝ) * edgeThreeTenths)) ∧
      (Grid.construct 259 259 (edgeThreeTenths : ℝ) 1 0 63 0).horizontalIndex
        coordBelowExtent = 258 ∧
      (Grid.construct 259 259 (edgeThreeTenths : ℝ) 1 0 63 0).horizontalIndex64
        coordBelowExtent = 259 ∧
      (Grid.construct 259 259 (edgeThreeTenths : ℝ) 1 0 63 0).verticalIndex64 0 = 258 ∧
      ((259 : Int), (258 : Int),
          (Grid.construct 259 259 (edgeThreeTenths : ℝ) 1 0 63 0).distance Real.sqrt
            (toSizeT 259) (toSizeT 258) coordBelowExtent 0) ∈
        (Grid.construct 259 259 (edgeThreeTenths : ℝ) 1 0 63 0).addPointCallsAt Real.sqrt
          coordBelowExtent 0 7 259 258 ∧
      (Grid.construct 259 259 (edgeThreeTenths : ℝ) 1 0 63 0).index (toSizeT 259) (toSizeT 258) =
        259 * 259 ∧
      (Grid.construct 259 259 (edgeThreeTenths : ℝ) 1 0 63 0).m_count.length = 259 * 259 ∧
      (Grid.construct 259 259 (edgeThreeTenths : ℝ) 1 0 63 0).verticalIndex64
        coordBelowExtent = -1 := by
  have t259 : toSizeT 259 = 259 := by decide
  have t258 : toSizeT 258 = 258 := by decide
  refine ⟨coord_in_extent, ?_, horizontalIndex64_quotient 259 1, ?_, ?_, ?_, ?_, ?_⟩
  · simp only [Grid.horizontalIndex, Grid.construct]
    have h0 : (0 : ℝ) ≤ coordBelowExtent / edgeThreeTenths := by
      norm_num [coordBelowExtent, edgeThreeTenths]
    simp only [truncToInt, if_pos h0]
    rw [Int.floor_eq_iff]
    constructor <;> norm_num [coordBelowExtent, edgeThreeTenths]
  · simp only [Grid.verticalIndex64, Grid.construct]
    have h1 : (259 : ℝ) - 1 = 258 := by norm_num
    rw [zero_div, binary64Round_zero, sub_zero, Nat.cast_ofNat, binary64Round_259, h1,
      binary64Round_258]
    exact truncToInt_of_natCast 258 _ _ (by norm_num) (by norm_num)
  · apply origin_call_mem
    simp only [Grid.distance, Grid.horizontalPos, Grid.verticalPos, Grid.construct, t259, t258]
    rw [Real.sqrt_lt' (by norm_num)]
    norm_num [coordBelowExtent, edgeThreeTenths]
  · rw [t259, t258]
    decide
  · simp only [Grid.construct, List.length_replicate]
    decide
  · simp only [Grid.verticalIndex64, Grid.construct]
    have h1 : (259 : ℝ) - 259 = 0 := by norm_num
    have h2 : (0 : ℝ) - 1 = -1 := by norm_num
    rw [binary64Round_quotient, Nat.cast_ofNat, h1, binary64Round_zero, h2,
      binary64Round_neg_one]
    exact truncToInt_neg_one

/-- C18, counterexample.  Grid of 259 columns and 2 rows with edge length `0.3` (as a `double`)
and radius `1/4`; point `(77.69999999999999, 0.3)`, inside the extent.  As `double`s compute
them, `horizontalIndex` is 259, the width, and `verticalIndex` is 0.  The centre of the cell
`(259, 0)` is within the radius, so the final check of `addPoint` calls `update(259, 0, ...)`,
whose index `0 * 259 + 259` is that of the cell `(0, 1)`: the count of `(0, 1)` increases,
although the centre of `(0, 1)` is more than 77 away from the point. -/
theorem C18_footprint_counterexample :
    (((0 : ℝ) ≤ coordBelowExtent ∧ (coordBelowExtent : ℝ) < ((259 : Nat) : ℝ) * edgeThreeTenths ∧
        (coordBelowExtent : ℝ) < binary64Round (((259 : Nat) : ℝ) * edgeThreeTenths)) ∧
        (0 : ℝ) ≤ edgeThreeTenths ∧ (edgeThreeTenths : ℝ) < ((2 : Nat) : ℝ) * edgeThreeTenths) ∧
      (Grid.construct 259 2 (edgeThreeTenths : ℝ) (1 / 4) 0 63 0).horizontalIndex64
        coordBelowExtent = 259 ∧
      (Grid.construct 259 2 (edgeThreeTenths : ℝ) (1 / 4) 0 63 0).verticalIndex64
        edgeThreeTenths = 0 ∧
      (Grid.construct 259 2 (edgeThreeTenths : ℝ) (1 / 4) 0 63 0).index (toSizeT 259)
          (toSizeT 0) =
        (Grid.construct 259 2 (edgeThreeTenths : ℝ) (1 / 4) 0 63 0).index 0 1 ∧
      (Grid.construct 259 2 (edgeThreeTenths : ℝ) (1 / 4) 0 63 0).m_count.getD
        ((Grid.construct 259 2 (edgeThreeTenths : ℝ) (1 / 4) 0 63 0).index 0 1) 0 = 0 ∧
      1 ≤ ((Grid.construct 259 2 (edgeThreeTenths : ℝ) (1 / 4) 0 63 0).addPointAt Real.sqrt
          coordBelowExtent edgeThreeTenths 7 259 0).m_count.getD
        ((Grid.construct 259 2 (edgeThreeTenths : ℝ) (1 / 4) 0 63 0).index 0 1) 0 ∧
      (Grid.construct 259 2 (edgeThreeTenths : ℝ) (1 / 4) 0 63 0).m_radius ≤
        (Grid.construct 259 2 (edgeThreeTenths : ℝ) (1 / 4) 0 63 0).distance Real.sqrt 0 1
          coordBelowExtent edgeThreeTenths := by
  have t259 : toSizeT 259 = 259 := by decide
  have t0 : toSizeT 0 = 0 := by decide
  have hidx : (Grid.construct 259 2 (edgeThreeTenths : ℝ) (1 / 4) 0 63 0).index (toSizeT 259)
      (toSizeT 0) = (Grid.construct 259 2 (edgeThreeTenths : ℝ) (1 / 4) 0 63 0).index 0 1 := by
    rw [t259, t0]
    decide
  refine ⟨⟨coord_in_extent, ?_, ?_⟩, horizontalIndex64_quotient 2 (1 / 4), ?_, hidx,
    construct_count _ _ _ _ _ _ _ _, ?_, ?_⟩
  · norm_num [edgeThreeTenths]
  · norm_num [edgeThreeTenths]
  · simp only [Grid.verticalIndex64, Grid.construct]
    have he : (edgeThreeTenths : ℝ) ≠ 0 := by norm_num [edgeThreeTenths]
    have h1 : (2 : ℝ) - 1 = 1 := by norm_num
    have h2 : (1 : ℝ) - 1 = 0 := by norm_num
    rw [div_self he, binary64Round_one, Nat.cast_ofNat, h1, binary64Round_one, h2,
      binary64Round_zero]
    simp [truncToInt]
  · have h := addPointAt_origin_count Real.sqrt
      (Grid.construct 259 2 (edgeThreeTenths : ℝ) (1 / 4) 0 63 0) coordBelowExtent
      edgeThreeTenths 7 259 0
      (by
        simp only [Grid.distance, Grid.horizontalPos, Grid.verticalPos, Grid.construct, t259, t0]
        rw [Real.sqrt_lt' (by norm_num)]
        norm_num [coordBelowExtent, edgeThreeTenths])
      (by
        rw [t259, t0]
        simp only [Grid.construct, List.length_replicate]
        decide)
    rw [hidx, construct_count, zero_add] at h
    exact h
  · simp only [Grid.distance, Grid.horizontalPos, Grid.verticalPos, Grid.construct]
    apply Real.le_sqrt_of_sq_le
    norm_num [coordBelowExtent, edgeThreeTenths]

end OriginCounterexamples

end pdal
